import Mathlib

/-!
SmartHarvest SE: collections, collectibility queries, membership resolution, the
looting decision for a single object, a container or a dead body, and the range checks.

A shallow embedding of `Collections/Collection.cpp`,
`Collections/CollectionManager.cpp`, `Looting/TryLootREFR.cpp`,
`Looting/IRangeChecker.cpp` and `LootingDependsOnValueWeight` of `Utilities/Enums.cpp`.

Conventions of the embedding:

* `std::unordered_set<K>` is a `List K` that never receives a key twice
  (`insert` reports whether the key was new); `std::unordered_map<K, V>` is an
  association list with the same discipline; the list order is one admissible
  iteration order.
* `std::unordered_multimap<K, V>` is an association list that may hold a key
  several times; `equal_range` is the sub-list of the entries of a key.
* `std::shared_ptr<Collection>` is the label under which the collection is owned
  by `m_allCollectionsByLabel`; every read or write through the pointer goes to
  that one object.
* Calls out of the subsystem (form lookup, player inventory, translation,
  settings) are arguments of the embedded functions.
* The looting decision returns, with its verdict, the list of the calls it made on
  other objects, in the order in which it made them; what those objects answer is
  read from a `LootContext` and, for containers, a `ContainerContext`.
* Positions, radii and distances of the range checks are rationals; the square root is
  an argument of the functions that call it.
-/

namespace shse

/-- Object identity, `RE::FormID` (an unsigned 32-bit key; only compared, never computed on). -/
abbrev FormID := Nat

/-- Numeric value of an `RE::FormType` enumerator. -/
abbrev FormType := Nat

/-- Scope tags: the enumerators of `INIFile::SecondaryType` that the sources name.
`NONE2` is the sentinel for "no filtering on scope" used during game-data load
(`Condition.h`). -/
inductive SecondaryType where
  | NONE2
  | config
  | itemObjects
  | containers
  | deadbodies
  deriving DecidableEq, Repr

/-- Modelled from the spec: the enumeration of policy actions is declared in a header
that is not part of the sources; the data model lists
`DoNotLoot | Loot | Glow | Print-manual-loot`. `DoLoot` is the spec's Loot and
`GlowTarget` its Glow. -/
inductive SpecialObjectHandling where
  | DoNotLoot
  | DoLoot
  | GlowTarget
  | Print
  deriving DecidableEq, Repr, Fintype

/-- The attributes of an `RE::TESForm` that the collection code reads. -/
structure TESForm where
  formID : FormID
  name : String
  formType : FormType
  keywords : List FormID
  plugin : String
  deriving DecidableEq, Repr

/-- A world position, as returned by `PlayerState::GetPosition`; stored only. -/
structure Position where
  x : Int
  y : Int
  z : Int
  deriving DecidableEq, Repr

/-- The members of `CollectionPolicy`. -/
structure CollectionPolicy where
  m_action : SpecialObjectHandling
  m_notify : Bool
  m_repeat : Bool
  deriving DecidableEq, Repr

/-- Record of an observed item, `CollectionEntry(form, gameTime, place, position)`.
The game time is a stored value that is never computed on. -/
structure CollectionEntry where
  form : TESForm
  gameTime : Int
  place : Option FormID
  position : Position
  deriving DecidableEq, Repr

/-- Operator of a `ConditionTree`. -/
inductive Operator where
  | And
  | Or
  deriving DecidableEq, Repr

mutual
/-- The closed family of conditions of `Condition.h`, each with its data members. -/
inductive Condition where
  | PluginCondition (plugins : List String)
  | FormListCondition (m_listMembers : List FormID)
  | KeywordCondition (m_keywords : List FormID)
  | SignatureCondition (m_formTypes : List FormType)
  | ScopeCondition (m_scopes : List SecondaryType)
  | ConditionTree (m_operator : Operator) (m_depth : Nat) (m_conditions : Conditions)
/-- The ordered children of a `ConditionTree` (`m_conditions`). -/
inductive Conditions where
  | nil
  | cons (head : Condition) (tail : Conditions)
end

/-- The match context: `m_form` (may be null), `m_scope`, and the scopes recorded by
`AddScope` (`m_scopesSeen`). -/
structure ConditionMatcher where
  m_form : Option TESForm
  m_scope : SecondaryType
  m_scopesSeen : List SecondaryType
  deriving DecidableEq, Repr

/-- One-argument constructor `ConditionMatcher(form)`: the scope is the sentinel `NONE2`. -/
def ConditionMatcher.ofForm (form : TESForm) : ConditionMatcher :=
  { m_form := some form, m_scope := SecondaryType.NONE2, m_scopesSeen := [] }

/-- Two-argument constructor `ConditionMatcher(form, scope)`. -/
def ConditionMatcher.ofFormScope (form : Option TESForm) (scope : SecondaryType) :
    ConditionMatcher :=
  { m_form := form, m_scope := scope, m_scopesSeen := [] }

/-- Modelled from the spec: `ConditionMatcher::AddScope` is defined in the absent
`Condition.cpp`; it records a tested scope tag on the match context. -/
def ConditionMatcher.AddScope (m : ConditionMatcher) (scope : SecondaryType) :
    ConditionMatcher :=
  if scope ∈ m.m_scopesSeen then m else { m with m_scopesSeen := m.m_scopesSeen ++ [scope] }

mutual
/-- Modelled from the spec: the `operator()` bodies of the conditions are in the absent
`Condition.cpp`. A leaf is a set lookup on the object; a scope condition records every
tag it tests and matches the requested scope (always, under the load-time sentinel); a
tree evaluates its children left to right, AND stopping at the first false child and OR
at the first true one. The result carries the match context with the scopes seen. -/
def Condition.eval : Condition → ConditionMatcher → Bool × ConditionMatcher
  | .PluginCondition plugins, m =>
      (match m.m_form with
        | some f => decide (f.plugin ∈ plugins)
        | none => false, m)
  | .FormListCondition members, m =>
      (match m.m_form with
        | some f => decide (f.formID ∈ members)
        | none => false, m)
  | .KeywordCondition keywords, m =>
      (match m.m_form with
        | some f => f.keywords.any (fun k => decide (k ∈ keywords))
        | none => false, m)
  | .SignatureCondition formTypes, m =>
      (match m.m_form with
        | some f => decide (f.formType ∈ formTypes)
        | none => false, m)
  | .ScopeCondition scopes, m =>
      (decide (m.m_scope = SecondaryType.NONE2) || decide (m.m_scope ∈ scopes),
        scopes.foldl ConditionMatcher.AddScope m)
  | .ConditionTree op _ children, m => Conditions.eval op children m
/-- Left-to-right evaluation of the children of a tree under operator `op`. -/
def Conditions.eval : Operator → Conditions → ConditionMatcher → Bool × ConditionMatcher
  | .And, .nil, m => (true, m)
  | .Or, .nil, m => (false, m)
  | .And, .cons c rest, m =>
      let r := Condition.eval c m
      if r.1 then Conditions.eval .And rest r.2 else (false, r.2)
  | .Or, .cons c rest, m =>
      let r := Condition.eval c m
      if r.1 then (true, r.2) else Conditions.eval .Or rest r.2
end

/-- The members of `Collection`. -/
structure Collection where
  m_name : String
  m_description : String
  m_policy : CollectionPolicy
  m_rootFilter : Condition
  m_scopes : List SecondaryType
  m_members : List FormID
  m_observed : List (FormID × CollectionEntry)

/-- Membership test of `std::unordered_map::contains` on the observed map. -/
def observedContains (observed : List (FormID × CollectionEntry)) (id : FormID) : Bool :=
  observed.any (fun e => e.1 == id)

namespace Collection

/-- `Collection::AddMemberID`: insert the identity, report whether it was new. -/
def AddMemberID (c : Collection) (form : Option TESForm) : Bool × Collection :=
  match form with
  | some f =>
      if f.formID ∈ c.m_members then (false, c)
      else (true, { c with m_members := c.m_members ++ [f.formID] })
  | none => (false, c)

/-- `Collection::IsMemberOf`. -/
def IsMemberOf (c : Collection) (form : Option TESForm) : Bool :=
  match form with
  | some f => decide (f.formID ∈ c.m_members)
  | none => false

/-- `Collection::InScopeAndCollectibleFor`. -/
def InScopeAndCollectibleFor (c : Collection) (matcher : ConditionMatcher) : Bool :=
  match matcher.m_form with
  | none => false
  | some f =>
      if !c.m_scopes.isEmpty && !decide (matcher.m_scope ∈ c.m_scopes) then false
      else (c.m_policy.m_repeat || !observedContains c.m_observed f.formID)
            && c.IsMemberOf matcher.m_form

/-- `Collection::MatchesFilter`: evaluate the root filter and, on a match, add the member.
Returns the verdict, the collection and the match context after evaluation. -/
def MatchesFilter (c : Collection) (matcher : ConditionMatcher) :
    Bool × Collection × ConditionMatcher :=
  match matcher.m_form with
  | none => (false, c, matcher)
  | some _ =>
      let r := c.m_rootFilter.eval matcher
      if r.1 then (true, (c.AddMemberID matcher.m_form).2, r.2) else (false, c, r.2)

/-- `Collection::RecordItem`. `position` is `PlayerState::GetPosition()`, `newMemberText`
the translation of `$SHSE_ADDED_TO_COLLECTION`, `Replace` is `StringUtils::Replace`
(text, pattern, replacement). Returns the collection and the notifications shown. -/
def RecordItem (Replace : String → String → String → String) (newMemberText : String)
    (position : Position) (c : Collection) (itemID : FormID) (form : TESForm)
    (gameTime : Int) (place : Option FormID) : Collection × List String :=
  if observedContains c.m_observed itemID then (c, [])
  else
    let c' := { c with m_observed := c.m_observed ++ [(itemID, CollectionEntry.mk form gameTime place position)] }
    if c.m_policy.m_notify then
      if newMemberText ≠ "" then
        let notificationText :=
          Replace (Replace newMemberText "{ITEMNAME}" form.name) "{COLLECTION}" c.m_name
        if notificationText ≠ "" then (c', [notificationText]) else (c', [])
      else (c', [])
    else (c', [])

/-- `Collection::Reset`. -/
def Reset (c : Collection) : Collection :=
  { c with m_observed := [] }

/-- Modelled from the spec: `Collection::SetScopes` is defined in the absent
`Collection.h`; the scopes observed during evaluation are merged into the scope set. -/
def SetScopes (c : Collection) (scopes : List SecondaryType) : Collection :=
  { c with m_scopes := c.m_scopes ++ scopes.filter (fun s => !decide (s ∈ c.m_scopes)) }

end Collection

/-- The members of the earlier `Collection` of `src/Collection.cpp` that
`RecordNewMember` uses: there `m_members` maps an identity to its form. -/
structure LegacyCollection where
  m_name : String
  m_members : List (FormID × TESForm)

/-- `Collection::RecordNewMember` of `src/Collection.cpp`; returns the notifications
shown. -/
def LegacyCollection.RecordNewMember (Replace : String → String → String → String)
    (newMemberText : String) (c : LegacyCollection) (itemID : FormID) (form : TESForm) :
    LegacyCollection × List String :=
  if c.m_members.any (fun e => e.1 == itemID) then (c, [])
  else
    let c' := { c with m_members := c.m_members ++ [(itemID, form)] }
    if newMemberText ≠ "" then
      let notificationText :=
        Replace (Replace newMemberText "{ITEMNAME}" form.name) "{COLLECTION}" c.m_name
      if notificationText ≠ "" then (c', [notificationText]) else (c', [])
    else (c', [])

/-- The externals the collection manager calls: form lookup
(`RE::TESForm::LookupByID`), the player's place and position, the translated
notification template and `StringUtils::Replace`, the identities in the player's
inventory in enumeration order (`none` when there is no player), the
`CollectionsEnabled` setting (true when non-zero), and the number of clock ticks in
a millisecond. -/
structure Game where
  LookupByID : FormID → Option TESForm
  CurrentPlayerPlace : Option FormID
  PlayerPosition : Position
  newMemberText : String
  Replace : String → String → String → String
  playerInventory : Option (List FormID)
  CollectionsEnabled : Bool
  ticksPerMilli : Int

/-- The state of `CollectionManager`: the members its collection code reads or writes.
A `std::shared_ptr<Collection>` held by `m_collectionsByFormID` is the label of that
collection in `m_allCollectionsByLabel`. -/
structure CollectionManager where
  m_ready : Bool
  m_enabled : Bool
  m_gameTime : Int
  m_allCollectionsByLabel : List (String × Collection)
  m_collectionsByGroupName : List (String × String)
  m_fileNamesByGroupName : List (String × String)
  m_collectionsByFormID : List (FormID × String)
  m_nonCollectionForms : List FormID
  m_addedItemQueue : List FormID
  m_lastInventoryItems : List FormID
  m_lastInventoryCheck : Int

/-- Modelled from the spec: the constant `NotCollectible` is declared in the absent
`CollectionManager.h`; it is the answer "not collectible". -/
def NotCollectible : Bool × SpecialObjectHandling := (false, SpecialObjectHandling.DoNotLoot)

/-- Entries of a key in the multimap, `equal_range`. -/
def equal_range (mm : List (FormID × String)) (id : FormID) : List (FormID × String) :=
  mm.filter (fun e => e.1 == id)

namespace CollectionManager

/-- Constructor: `m_ready(false), m_enabled(false), m_gameTime(0.0)`, empty containers. -/
def init : CollectionManager :=
  { m_ready := false, m_enabled := false, m_gameTime := 0,
    m_allCollectionsByLabel := [], m_collectionsByGroupName := [],
    m_fileNamesByGroupName := [], m_collectionsByFormID := [],
    m_nonCollectionForms := [], m_addedItemQueue := [], m_lastInventoryItems := [],
    m_lastInventoryCheck := 0 }

/-- Modelled from the spec: `IsActive` is defined in the absent `CollectionManager.h`;
the feature is active once the definitions are loaded and collections are enabled. -/
def IsActive (s : CollectionManager) : Bool :=
  s.m_ready && s.m_enabled

/-- Dereference of a `shared_ptr<Collection>`. -/
def collection (s : CollectionManager) (label : String) : Option Collection :=
  s.m_allCollectionsByLabel.lookup label

/-- Write through a `shared_ptr<Collection>`: replace the object owned under `label`. -/
def store (registry : List (String × Collection)) (label : String) (c : Collection) :
    List (String × Collection) :=
  registry.map (fun e => if e.1 == label then (e.1, c) else e)

/-- Key test `m_collectionsByFormID.contains(formID)`. -/
def claims (s : CollectionManager) (formID : FormID) : Bool :=
  s.m_collectionsByFormID.any (fun e => e.1 == formID)

/-- `CollectionManager::EnqueueAddedItem`. -/
def EnqueueAddedItem (s : CollectionManager) (formID : FormID) : CollectionManager :=
  { s with m_addedItemQueue := s.m_addedItemQueue ++ [formID] }

/-- `CollectionManager::CheckEnqueueAddedItem`. -/
def CheckEnqueueAddedItem (s : CollectionManager) (formID : FormID) : CollectionManager :=
  if !s.IsActive then s
  else if s.claims formID then s.EnqueueAddedItem formID
  else s

/-- Body of the loop of `AddToRelevantCollections` for one claiming collection: record
the item unless the policy is the blacklist action. -/
def recordStep (g : Game) (itemID : FormID) (form : TESForm)
    (acc : CollectionManager × List String) (target : FormID × String) :
    CollectionManager × List String :=
  match acc.1.collection target.2 with
  | none => acc
  | some c =>
      if c.m_policy.m_action ≠ SpecialObjectHandling.DoNotLoot
          && c.IsMemberOf (some form) then
        let r := c.RecordItem g.Replace g.newMemberText g.PlayerPosition itemID form
          acc.1.m_gameTime g.CurrentPlayerPlace
        ({ acc.1 with
            m_allCollectionsByLabel := store acc.1.m_allCollectionsByLabel target.2 r.1 },
          acc.2 ++ r.2)
      else acc

/-- `CollectionManager::AddToRelevantCollections`; returns the notifications shown. -/
def AddToRelevantCollections (g : Game) (s : CollectionManager) (itemID : FormID) :
    CollectionManager × List String :=
  match g.LookupByID itemID with
  | none => (s, [])
  | some form =>
      (equal_range s.m_collectionsByFormID form.formID).foldl (recordStep g itemID form) (s, [])

/-- Body of the loop of `TreatAsCollectible` for one claiming collection. -/
def treatStep (upd : SpecialObjectHandling → SpecialObjectHandling → SpecialObjectHandling)
    (s : CollectionManager) (matcher : ConditionMatcher)
    (acc : Bool × SpecialObjectHandling) (target : FormID × String) :
    Bool × SpecialObjectHandling :=
  match s.collection target.2 with
  | none => acc
  | some c =>
      if c.InScopeAndCollectibleFor matcher then (true, upd c.m_policy.m_action acc.2)
      else acc

/-- `CollectionManager::TreatAsCollectible`. The combining helper
`UpdateSpecialObjectHandling` is declared in a header that is not part of the sources
and is the argument `upd`. The reverse multimap is a `std::unordered_multimap`, whose
`equal_range` gives the end iterator for an absent key, so `targets.first == cend()`
tests that no collection claims the identity. Returns the answer and the state (the
negative cache may have grown). -/
def TreatAsCollectible (upd : SpecialObjectHandling → SpecialObjectHandling → SpecialObjectHandling)
    (s : CollectionManager) (matcher : ConditionMatcher) :
    (Bool × SpecialObjectHandling) × CollectionManager :=
  if !s.IsActive then (NotCollectible, s)
  else
    match matcher.m_form with
    | none => (NotCollectible, s)
    | some f =>
        if f.formID ∈ s.m_nonCollectionForms then (NotCollectible, s)
        else
          let targets := equal_range s.m_collectionsByFormID f.formID
          if targets.isEmpty then
            (NotCollectible, { s with m_nonCollectionForms := s.m_nonCollectionForms ++ [f.formID] })
          else
            (targets.foldl (treatStep upd s matcher) (false, SpecialObjectHandling.DoNotLoot), s)

/-- The callback of `ReconcileInventory` for one inventory item: the pair is
(`newInventoryItems`, `candidates`). -/
def reconcileStep (s : CollectionManager) (acc : List FormID × List FormID) (formID : FormID) :
    List FormID × List FormID :=
  let newInventoryItems := if formID ∈ acc.1 then acc.1 else acc.1 ++ [formID]
  if !decide (formID ∈ s.m_lastInventoryItems) && s.claims formID then
    (newInventoryItems, acc.2 ++ [formID])
  else (newInventoryItems, acc.2)

/-- `CollectionManager::ReconcileInventory`: the candidates and the state with the new
snapshot. -/
def ReconcileInventory (g : Game) (s : CollectionManager) : List FormID × CollectionManager :=
  match g.playerInventory with
  | none => ([], s)
  | some inventory =>
      let r := inventory.foldl (reconcileStep s) ([], [])
      (r.2, { s with m_lastInventoryItems := r.1 })

/-- Body of the loop of `ProcessAddedItems` for one drained identity. -/
def processStep (g : Game) (acc : CollectionManager × List String) (formID : FormID) :
    CollectionManager × List String :=
  if acc.1.claims formID then
    let r := AddToRelevantCollections g acc.1 formID
    (r.1, acc.2 ++ r.2)
  else if formID ∈ acc.1.m_nonCollectionForms then acc
  else ({ acc.1 with m_nonCollectionForms := acc.1.m_nonCollectionForms ++ [formID] }, acc.2)

/-- `CollectionManager::ProcessAddedItems` at clock reading `nowTime`; returns the
notifications shown. -/
def ProcessAddedItems (g : Game) (nowTime : Int) (s : CollectionManager) :
    CollectionManager × List String :=
  if !s.IsActive then (s, [])
  else
    let s1 :=
      if nowTime - s.m_lastInventoryCheck ≥ 3000 * g.ticksPerMilli then
        let r := ReconcileInventory g { s with m_lastInventoryCheck := nowTime }
        if !r.1.isEmpty then { r.2 with m_addedItemQueue := r.2.m_addedItemQueue ++ r.1 }
        else r.2
      else s
    let queuedItems := s1.m_addedItemQueue
    queuedItems.foldl (processStep g) ({ s1 with m_addedItemQueue := [] }, [])

/-- Body of the innermost loop of `ResolveMembership` for one form and one collection of
the registry: the pair is the registry visited so far and the reverse multimap. -/
def resolveStep (form : TESForm) (acc : List (String × Collection) × List (FormID × String))
    (entry : String × Collection) : List (String × Collection) × List (FormID × String) :=
  let matched := entry.2.MatchesFilter (ConditionMatcher.ofForm form)
  if matched.1 then
    let c := matched.2.1.SetScopes matched.2.2.m_scopesSeen
    (acc.1 ++ [(entry.1, (c.AddMemberID (some form)).2)], acc.2 ++ [(form.formID, entry.1)])
  else (acc.1 ++ [(entry.1, matched.2.1)], acc.2)

/-- The innermost loop of `ResolveMembership` for one form, over every collection. -/
def resolveForm (form : TESForm) (s : CollectionManager) : CollectionManager :=
  let r := s.m_allCollectionsByLabel.foldl (resolveStep form) ([], s.m_collectionsByFormID)
  { s with m_allCollectionsByLabel := r.1, m_collectionsByFormID := r.2 }

/-- `CollectionManager::ResolveMembership`. `ValidSignatures` is the allow-list of form
types (`SignatureCondition::ValidSignatures()`), `GetFormArray` the catalog of forms by
type (`RE::TESDataHandler::GetFormArray`). -/
def ResolveMembership (ValidSignatures : List (String × FormType))
    (GetFormArray : FormType → List TESForm) (s : CollectionManager) : CollectionManager :=
  ValidSignatures.foldl
    (fun s1 signature => (GetFormArray signature.2).foldl (fun s2 form => resolveForm form s2) s1)
    s

/-- `CollectionManager::OnGameReload`. -/
def OnGameReload (g : Game) (s : CollectionManager) : CollectionManager :=
  let s1 := { s with m_lastInventoryItems := [], m_enabled := g.CollectionsEnabled }
  if s1.m_enabled then
    { s1 with m_allCollectionsByLabel := s1.m_allCollectionsByLabel.map (fun e => (e.1, e.2.Reset)) }
  else s1

end CollectionManager

/-! ## Loading the definitions and the policy accessors -/

/-- One entry of the `collections` array of a definition document: its `name` member;
`json` stands for the rest of the entry, which only `CollectionFactory::ParseCollection`
reads. -/
structure Definition where
  name : String
  json : String
  deriving DecidableEq, Repr

/-- What reading a definition file gives: the stream cannot be opened (`FileNotFound`),
`nlohmann::json::parse` throws, `validator.validate` throws, or the validated document
with its `collections` array. -/
inductive DefinitionFile where
  | unreadable
  | malformed
  | invalid
  | valid (collections : List Definition)
  deriving DecidableEq, Repr

/-- One entry of the plugin directory as `LoadData` sees it: whether it is a regular
file, its path, the group name captured by the file-name pattern
`SHSE.Collections\.(.*)\.json$` (`none` when the name does not match), and what reading
it gives. -/
structure DirectoryEntry where
  isRegularFile : Bool
  path : String
  group : Option String
  content : DefinitionFile
  deriving DecidableEq, Repr

namespace CollectionManager

/-- `CollectionManager::MakeLabel`. -/
def MakeLabel (groupName collectionName : String) : String :=
  groupName ++ "/" ++ collectionName

/-- Key test on `m_allCollectionsByLabel`. -/
def registered (s : CollectionManager) (label : String) : Bool :=
  s.m_allCollectionsByLabel.any (fun e => e.1 == label)

/-- Body of the loop of `BuildDecisionTrees` for one definition. `ParseCollection` is
`CollectionFactory::ParseCollection`, with `none` when it throws (the exception is caught
and logged). -/
def buildStep (ParseCollection : Definition → Option Collection) (groupName : String)
    (s : CollectionManager) (definition : Definition) : CollectionManager :=
  match ParseCollection definition with
  | none => s
  | some filter =>
      let label := MakeLabel groupName definition.name
      if s.registered label then s
      else
        { s with
          m_allCollectionsByLabel := s.m_allCollectionsByLabel ++ [(label, filter)],
          m_collectionsByGroupName := s.m_collectionsByGroupName ++ [(groupName, label)] }

/-- `CollectionManager::BuildDecisionTrees` over the `collections` array. -/
def BuildDecisionTrees (ParseCollection : Definition → Option Collection)
    (collections : List Definition) (groupName : String) (s : CollectionManager) :
    CollectionManager :=
  collections.foldl (buildStep ParseCollection groupName) s

/-- `CollectionManager::LoadCollectionsFromFile`. -/
def LoadCollectionsFromFile (ParseCollection : Definition → Option Collection)
    (defFile : String) (content : DefinitionFile) (groupName : String) (s : CollectionManager) :
    Bool × CollectionManager :=
  match content with
  | .valid collections =>
      let s1 := BuildDecisionTrees ParseCollection collections groupName s
      (true,
        if s1.m_fileNamesByGroupName.any (fun e => e.1 == groupName) then s1
        else { s1 with m_fileNamesByGroupName := s1.m_fileNamesByGroupName ++ [(groupName, defFile)] })
  | _ => (false, s)

/-- Body of the directory loop of `LoadData` for one entry. -/
def loadStep (ParseCollection : Definition → Option Collection) (s : CollectionManager)
    (nextFile : DirectoryEntry) : CollectionManager :=
  if !nextFile.isRegularFile then s
  else
    match nextFile.group with
    | none => s
    | some groupName =>
        (LoadCollectionsFromFile ParseCollection nextFile.path nextFile.content groupName s).2

/-- `CollectionManager::LoadData`. `schemaLoadable` tells whether the schema file can be
read and parsed; `directory` lists the plugin directory. -/
def LoadData (ParseCollection : Definition → Option Collection) (schemaLoadable : Bool)
    (directory : List DirectoryEntry) (ValidSignatures : List (String × FormType))
    (GetFormArray : FormType → List TESForm) (s : CollectionManager) :
    Bool × CollectionManager :=
  if !schemaLoadable then (false, s)
  else
    (true, ResolveMembership ValidSignatures GetFormArray
      (directory.foldl (loadStep ParseCollection) s))

/-- `CollectionManager::PolicyRepeat`. -/
def PolicyRepeat (s : CollectionManager) (groupName collectionName : String) : Bool :=
  match s.collection (MakeLabel groupName collectionName) with
  | some c => c.m_policy.m_repeat
  | none => false

/-- `CollectionManager::PolicyNotify`. -/
def PolicyNotify (s : CollectionManager) (groupName collectionName : String) : Bool :=
  match s.collection (MakeLabel groupName collectionName) with
  | some c => c.m_policy.m_notify
  | none => false

/-- `CollectionManager::PolicyAction`. -/
def PolicyAction (s : CollectionManager) (groupName collectionName : String) :
    SpecialObjectHandling :=
  match s.collection (MakeLabel groupName collectionName) with
  | some c => c.m_policy.m_action
  | none => SpecialObjectHandling.DoNotLoot

/-- `CollectionManager::PolicySetRepeat`. -/
def PolicySetRepeat (s : CollectionManager) (groupName collectionName : String)
    (allowRepeats : Bool) : CollectionManager :=
  match s.collection (MakeLabel groupName collectionName) with
  | some c =>
      let c1 : Collection := { c with m_policy := { c.m_policy with m_repeat := allowRepeats } }
      { s with m_allCollectionsByLabel :=
          store s.m_allCollectionsByLabel (MakeLabel groupName collectionName) c1 }
  | none => s

/-- `CollectionManager::PolicySetNotify`. -/
def PolicySetNotify (s : CollectionManager) (groupName collectionName : String)
    (notify : Bool) : CollectionManager :=
  match s.collection (MakeLabel groupName collectionName) with
  | some c =>
      let c1 : Collection := { c with m_policy := { c.m_policy with m_notify := notify } }
      { s with m_allCollectionsByLabel :=
          store s.m_allCollectionsByLabel (MakeLabel groupName collectionName) c1 }
  | none => s

/-- `CollectionManager::PolicySetAction`. -/
def PolicySetAction (s : CollectionManager) (groupName collectionName : String)
    (action : SpecialObjectHandling) : CollectionManager :=
  match s.collection (MakeLabel groupName collectionName) with
  | some c =>
      let c1 : Collection := { c with m_policy := { c.m_policy with m_action := action } }
      { s with m_allCollectionsByLabel :=
          store s.m_allCollectionsByLabel (MakeLabel groupName collectionName) c1 }
  | none => s

/-- `CollectionManager::TotalItems`; `Collection::Count()` is the size of the member
set. -/
def TotalItems (s : CollectionManager) (groupName collectionName : String) : Nat :=
  match s.collection (MakeLabel groupName collectionName) with
  | some c => c.m_members.length
  | none => 0

/-- `CollectionManager::ItemsObtained`; `Collection::Observed()` is the size of the
observed map. -/
def ItemsObtained (s : CollectionManager) (groupName collectionName : String) : Nat :=
  match s.collection (MakeLabel groupName collectionName) with
  | some c => c.m_observed.length
  | none => 0

end CollectionManager

/-! ## The looting decision for one reference (`Looting/TryLootREFR.cpp`) -/

/-- Verdicts of the looting decision: the enumerators of `Lootability` listed by
`LootabilityName` (`Utilities/Enums.cpp`), and `ContainerIsBlacklisted`, which
`TryLootREFR::Process` returns. -/
inductive Lootability where
  | Lootable
  | BaseObjectBlocked
  | CannotRelootFirehoseSource
  | ContainerPermanentlyOffLimits
  | CorruptArrowPosition
  | CannotMineTwiceInSameCellVisit
  | AutoMiningDisabledByIncompatibleMod
  | CannotMineIfSneaking
  | ReferenceBlacklisted
  | UnnamedReference
  | ReferenceIsPlayer
  | ReferenceIsLiveActor
  | FloraHarvested
  | SyntheticFloraHarvested
  | PendingHarvest
  | ContainerLootedAlready
  | DynamicReferenceLootedAlready
  | NullReference
  | InvalidFormID
  | NoBaseObject
  | LootDeadBodyDisabled
  | DeadBodyIsPlayerAlly
  | DeadBodyIsSummoned
  | DeadBodyIsEssential
  | DeadBodyDelayedLooting
  | DeadBodyPossibleDuplicate
  | LootContainersDisabled
  | HarvestLooseItemDisabled
  | PendingProducerIngredient
  | ObjectTypeUnknown
  | ManualLootTarget
  | BaseObjectOnBlacklist
  | CannotLootQuestTarget
  | ObjectIsInBlacklistCollection
  | CannotLootValuableObject
  | CannotLootEnchantedObject
  | CannotLootAmmo
  | PlayerOwned
  | CrimeToLoot
  | CellOrItemOwnerPreventsOwnerlessLooting
  | PopulousLocationRestrictsLooting
  | ItemInBlacklistCollection
  | CollectibleItemSetToGlow
  | LawAbidingSoNoWhitelistItemLooting
  | ItemIsBlacklisted
  | ItemTypeIsSetToPreventLooting
  | HarvestDisallowedForBaseObjectType
  | ValueWeightPreventsLooting
  | ItemTheftTriggered
  | HarvestOperationPending
  | HarvestOperationTimeout
  | ContainerHasNoLootableItems
  | ContainerIsLocked
  | ContainerIsBossChest
  | ContainerHasQuestObject
  | ContainerHasValuableObject
  | ContainerHasEnchantedObject
  | ReferencesBlacklistedContainer
  | CannotGetAshPile
  | ProducerHasNoLootable
  | ContainerBlacklistedByUser
  | DeadBodyBlacklistedByUser
  | NPCExcludedByDeadBodyFilter
  | NPCIsInBlacklistCollection
  | ContainerIsLootTransferTarget
  | InventoryLimitsEnforced
  | OutOfScope
  | PlayerHouseRestrictsLooting
  | ReferenceActivationBlocked
  | NPCIsDisintegrating
  | ContainerIsBlacklisted
  deriving DecidableEq, Repr

/-- Object categories: the enumerators of `ObjectType` that the sources name; `other`
stands for the remaining enumerators of the header, which is not part of the sources. -/
inductive ObjectType where
  | unknown
  | critter
  | book
  | ammo
  | oreVein
  | weapon
  | armor
  | jewelry
  | enchantedWeapon
  | enchantedArmor
  | enchantedJewelry
  | other (code : Nat)
  deriving DecidableEq, Repr

/-- Causes for highlighting a reference: the enumerators of `GlowReason` that the sources
name. `None` is the synthetic value meaning "no glow". -/
inductive GlowReason where
  | LockedContainer
  | BossContainer
  | QuestObject
  | Collectible
  | EnchantedItem
  | Valuable
  | PlayerProperty
  | SimpleTarget
  | None
  deriving DecidableEq, Repr

/-- Ownership rules: the enumerators of `OwnershipRule` that the sources name; `other`
stands for the remaining enumerators of the header, which is not part of the sources. -/
inductive OwnershipRule where
  | AllowCrimeIfUndetected
  | Ownerless
  | other (code : Nat)
  deriving DecidableEq, Repr

/-- Per-category looting types, the enumerators listed by `LootingTypeString`
(`Utilities/Enums.cpp`). -/
inductive LootingType where
  | LeaveBehind
  | LootAlwaysSilent
  | LootAlwaysNotify
  | LootIfValuableEnoughSilent
  | LootIfValuableEnoughNotify
  deriving DecidableEq, Repr

/-- Modelled from the spec: `CollectibleHandling` is declared in a header that is not part
of the sources. `Process` builds it from the action that `TreatAsCollectible` returns
(a `SpecialObjectHandling`, `LootableREFR.h`) and compares it with `Print` and `Glow`;
the data model has one enumeration of four actions, so it is taken to be that
enumeration, `CollectibleHandling::Glow` being `GlowTarget`. -/
abbrev CollectibleHandling := SpecialObjectHandling

/-- The facts about an `RE::TESObjectREFR` that `TryLootREFR` reads. -/
structure TESObjectREFR where
  /-- Identity of the reference, `GetFormID()`. -/
  formID : FormID
  /-- Identity of the base object, `GetBaseObject()->formID`. -/
  baseObject : FormID
  /-- Whether `formType == RE::FormType::ProjectileArrow`. -/
  isProjectileArrow : Bool
  /-- Result of `IsOffLimits()`. -/
  IsOffLimits : Bool
  /-- Result of `GetOwner()`; `none` is `nullptr`. -/
  GetOwner : Option FormID
  /-- Keywords of the base object: `none` when the base object is not a
  `BGSKeywordForm`; an entry is `none` when `GetKeywordAt` yields no keyword. -/
  baseKeywords : Option (List (Option FormID))
  deriving DecidableEq, Repr

/-- The data members of `LootableREFR` (`Looting/LootableREFR.h`); `m_lootable` is
`none` for `nullptr`. -/
structure LootableREFR where
  m_ref : TESObjectREFR
  m_scope : SecondaryType
  m_lootable : Option FormID
  deriving DecidableEq, Repr

/-- `LootableREFR::SetLootable`. -/
def LootableREFR.SetLootable (refrEx : LootableREFR) (lootable : FormID) : LootableREFR :=
  { refrEx with m_lootable := some lootable }

/-- The calls that `TryLootREFR::Process` makes on other objects, in the order in which the
function issues them, those made by its members `GetLootFromContainer` and
`CopyLootFromContainer` included. Each carries the arguments of the call; `LockHarvest`
also carries the value the call returned. `GlowObject` is the call with the duration
`ObjectGlowDurationSpecialSeconds`, `GlowObjectLooted` the one with
`ObjectGlowDurationLootedSeconds`. -/
inductive Effect where
  | SetLootableForProducer (base : FormID)
  | TriggerGetProducerLootable (refr : FormID)
  | ProcessManualLootItem (refr : FormID)
  | BlockFormPermanently (base : FormID) (reason : Lootability)
  | BlacklistReference (refr : FormID)
  | GlowObject (refr : FormID) (glowReason : GlowReason)
  | BlockReference (refr : FormID) (reason : Lootability)
  | BlockForm (base : FormID) (reason : Lootability)
  | DelayStealableItem (refr : FormID) (targetType : SecondaryType)
  | TriggerMining (refr : FormID) (resourceType : Nat) (manualLootNotify : Bool)
  | LockHarvest (refr : FormID) (isSilent : Bool) (acquired : Bool)
  | TriggerHarvest (refr : FormID) (objType : ObjectType) (itemCount : Int) (isSilent : Bool)
      (collectible : Bool) (ingredientMultiplier : Nat)
  | MarkContainerLooted (refr : FormID)
  | PlayAnimation (refr : FormID) (fromName toName : String)
  | GlowObjectLooted (refr : FormID) (glowReason : GlowReason)
  | PlayPickUpSound (item : Option FormID)
  | TakeAll (refr : FormID) (item : Option FormID) (collectible inlineTransfer : Bool)
  | DebugNotification (text : String)
  | MakeCopies (item : Option FormID) (count : Nat)
  deriving DecidableEq, Repr

/-- Everything outside `TryLootREFR` that `Process` consults: the other singletons, the
settings and the helper functions whose definitions are not part of the sources. Each
field is the value the named call returns. -/
structure LootContext where
  /-- `LootableREFR::GetObjectType`. -/
  GetObjectType : LootableREFR → ObjectType
  /-- `LootableREFR::GetTypeName`. -/
  GetTypeName : LootableREFR → String
  /-- `LootableREFR::TreatAsCollectible`. -/
  TreatAsCollectible : LootableREFR → Bool × SpecialObjectHandling
  /-- `LootableREFR::IsQuestItem(requireFullQuestFlags)`. -/
  IsQuestItem : LootableREFR → Bool → Bool
  /-- `LootableREFR::IsValuable`. -/
  IsValuable : LootableREFR → Bool
  /-- `LootableREFR::GetItemCount`. -/
  GetItemCount : LootableREFR → Int
  /-- `ProducerLootables::GetLootableForProducer`, `none` for `nullptr`. -/
  GetLootableForProducer : FormID → Option FormID
  /-- Value returned by `ProducerLootables::SetLootableForProducer(base, nullptr)`. -/
  SetLootableForProducer : FormID → Bool
  /-- `CanLootCollectible`. -/
  CanLootCollectible : CollectibleHandling → Bool
  /-- `IsSpecialObjectLootable`. -/
  IsSpecialObjectLootable : SpecialObjectHandling → Bool
  /-- `LootOwnedItemIfCollectible`. -/
  LootOwnedItemIfCollectible : Lootability → Bool
  /-- `LootingRequiresNotification`. -/
  LootingRequiresNotification : LootingType → Bool
  /-- `LootingDependsOnValueWeight(lootingType, objType)`. -/
  LootingDependsOnValueWeight : LootingType → ObjectType → Bool
  /-- `TryLootREFR::UpdateGlowReason`: the new `m_glowReason`, given the current one and
  the argument. -/
  UpdateGlowReason : GlowReason → GlowReason → GlowReason
  /-- `ManagedList::BlackList().Contains`. -/
  BlackListContains : FormID → Bool
  /-- `ManagedList::WhiteList().Contains`. -/
  WhiteListContains : FormID → Bool
  /-- Setting `questObjectScope` differs from 0. -/
  questObjectScope : Bool
  /-- `SpecialObjectHandlingFromIniSetting` of setting `questObjectLoot`. -/
  questObjectLoot : SpecialObjectHandling
  /-- `SpecialObjectHandlingFromIniSetting` of setting `ValuableItemLoot`. -/
  ValuableItemLoot : SpecialObjectHandling
  /-- `LootingTypeFromIniSetting` of the `itemObjects` setting of a type name. -/
  LootingTypeSetting : String → LootingType
  /-- Setting `ManualLootTargetNotify` differs from 0. -/
  ManualLootTargetNotify : Bool
  /-- `DataCase::SkipAmmoLooting`. -/
  SkipAmmoLooting : TESObjectREFR → Bool
  /-- `DataCase::OreVeinResourceType` of the base object. -/
  OreVeinResourceType : FormID → Nat
  /-- `DataCase::IsBookGlowableKeyword`. -/
  IsBookGlowableKeyword : FormID → Bool
  /-- `TESFormHelper(base, targetType).ValueWeightTooLowToLoot()`. -/
  ValueWeightTooLowToLoot : FormID → SecondaryType → Bool
  /-- `LocationTracker::IsPlayerInWhitelistedPlace(PlayerCell())`. -/
  IsPlayerInWhitelistedPlace : Bool
  /-- `LocationTracker::IsPlayerInRestrictedLootSettlement(PlayerCell())`. -/
  IsPlayerInRestrictedLootSettlement : Bool
  /-- `LocationTracker::IsPlayerInFriendlyCell`. -/
  IsPlayerInFriendlyCell : Bool
  /-- `IsItemLootableInPopulationCenter(base, objType)`. -/
  IsItemLootableInPopulationCenter : FormID → ObjectType → Bool
  /-- `PlayerState::BelongingsCheck`. -/
  BelongingsCheck : SpecialObjectHandling
  /-- `PlayerState::EffectiveOwnershipRule`. -/
  EffectiveOwnershipRule : OwnershipRule
  /-- `PlayerState::PerkIngredientMultiplier`, passed through to `TriggerHarvest`. -/
  PerkIngredientMultiplier : Nat
  /-- `IsPlayerOwned`. -/
  IsPlayerOwned : TESObjectREFR → Bool
  /-- Value returned by `ScanGovernor::LockHarvest(refr, isSilent)`. -/
  LockHarvest : TESObjectREFR → Bool → Bool
  /-- `ScanGovernor::PendingHarvestNotifications`, read after the lock was taken. -/
  PendingHarvestNotifications : Nat

/-- `ScanGovernor::HarvestSpamLimit` (`Looting/ScanGovernor.h`). -/
def HarvestSpamLimit : Nat := 10

/-- The data members of `TryLootREFR`; `m_candidate` is `none` for `nullptr`. -/
structure TryLootREFR where
  m_candidate : Option TESObjectREFR
  m_targetType : SecondaryType
  m_glowReason : GlowReason
  m_stolen : Bool
  m_typeName : String
  deriving DecidableEq, Repr

/-- What a call of `Process` produces: the verdict it returns, the calls it made on other
objects, in order, and the object's own members afterwards. -/
structure Outcome where
  verdict : Lootability
  effects : List Effect
  self : TryLootREFR
  deriving DecidableEq, Repr

/-- The local variables of the `itemObjects` branch of `Process` that are live across its
guards, together with the object's members and the calls made so far. -/
structure ItemLocals where
  self : TryLootREFR
  result : Lootability
  skipLooting : Bool
  collectible : Bool × SpecialObjectHandling
  effects : List Effect
  deriving DecidableEq, Repr

namespace TryLootREFR

/-- The constructor `TryLootREFR::TryLootREFR(target, targetType, stolen)`. -/
def init (target : Option TESObjectREFR) (targetType : SecondaryType) (stolen : Bool) :
    TryLootREFR :=
  { m_candidate := target, m_targetType := targetType, m_glowReason := GlowReason.None,
    m_stolen := stolen, m_typeName := "" }

/-- `TryLootREFR::UpdateGlowReason`, a member whose definition is in the header. -/
def UpdateGlowReason (env : LootContext) (self : TryLootREFR) (glowReason : GlowReason) :
    TryLootREFR :=
  { self with m_glowReason := env.UpdateGlowReason self.m_glowReason glowReason }

/-- `TryLootREFR::IsBookGlowable`; `refr` is `*m_candidate`. -/
def IsBookGlowable (env : LootContext) (refr : TESObjectREFR) : Bool :=
  match refr.baseKeywords with
  | none => false
  | some keywords =>
      keywords.any fun keyword =>
        match keyword with
        | none => false
        | some k => env.IsBookGlowableKeyword k

/-- `TryLootREFR::LootingLegality(targetType)`; `refr` is `*m_candidate`. Returns the verdict
and the object with its glow reason updated. -/
def LootingLegality (env : LootContext) (self : TryLootREFR) (refr : TESObjectREFR)
    (targetType : SecondaryType) : Lootability × TryLootREFR :=
  if self.m_stolen then (Lootability.Lootable, self)
  else if targetType ≠ SecondaryType.deadbodies then
    let playerOwned := env.IsPlayerOwned refr
    let firedArrow := refr.isProjectileArrow
    let lootingIsCrime := refr.IsOffLimits
    if !lootingIsCrime && playerOwned && !firedArrow then
      if !env.IsSpecialObjectLootable env.BelongingsCheck then
        (Lootability.PlayerOwned,
          if env.BelongingsCheck = SpecialObjectHandling.GlowTarget
          then self.UpdateGlowReason env GlowReason.PlayerProperty else self)
      else (Lootability.Lootable, self)
    else if env.EffectiveOwnershipRule ≠ OwnershipRule.AllowCrimeIfUndetected then
      if lootingIsCrime then (Lootability.CrimeToLoot, self)
      else if env.EffectiveOwnershipRule = OwnershipRule.Ownerless then
        if !playerOwned && !firedArrow &&
            (refr.GetOwner.isSome || !env.IsPlayerInFriendlyCell) then
          (Lootability.CellOrItemOwnerPreventsOwnerlessLooting, self)
        else (Lootability.Lootable, self)
      else (Lootability.Lootable, self)
    else (Lootability.Lootable, self)
  else (Lootability.Lootable, self)

/-- `TryLootREFR::ItemLootingLegality(isCollectible)`. -/
def ItemLootingLegality (env : LootContext) (self : TryLootREFR) (refr : TESObjectREFR)
    (isCollectible : Bool) : Lootability × TryLootREFR :=
  let result := LootingLegality env self refr SecondaryType.itemObjects
  if isCollectible && env.LootOwnedItemIfCollectible result.1 then
    (Lootability.Lootable, result.2)
  else result

/-- Lines 57–77 of `Process`: a critter is resolved to its ingredient, or the call ends
with `PendingProducerIngredient` after asking for the resolution. -/
def resolveProducer (env : LootContext) (self : TryLootREFR) (refr : TESObjectREFR)
    (refrEx : LootableREFR) (objType : ObjectType) (dryRun : Bool) :
    Except Outcome LootableREFR :=
  if !dryRun && objType = ObjectType.critter then
    match env.GetLootableForProducer refr.baseObject with
    | some lootable => .ok (refrEx.SetLootable lootable)
    | none =>
        .error
          { verdict := Lootability.PendingProducerIngredient
            effects :=
              if env.SetLootableForProducer refr.baseObject then
                [Effect.SetLootableForProducer refr.baseObject,
                 Effect.TriggerGetProducerLootable refr.formID]
              else [Effect.SetLootableForProducer refr.baseObject]
            self := self }
  else .ok refrEx

/-- Lines 86–121 of `Process`: a collectible whose action does not allow looting is a
manual-loot target, a glow target or a member of a blacklist collection. -/
def collectibilityGuard (env : LootContext) (refr : TESObjectREFR) (dryRun : Bool)
    (L : ItemLocals) : Except Outcome ItemLocals :=
  if L.collectible.1 then
    let collectibleAction : CollectibleHandling := L.collectible.2
    if !env.CanLootCollectible collectibleAction then
      let L1 := { L with collectible := (false, L.collectible.2), skipLooting := true }
      if collectibleAction = SpecialObjectHandling.Print then
        .error
          { verdict := Lootability.ManualLootTarget
            effects :=
              if !dryRun then L1.effects ++ [Effect.ProcessManualLootItem refr.formID]
              else L1.effects
            self := L1.self }
      else if collectibleAction = SpecialObjectHandling.GlowTarget then
        .ok { L1 with self := L1.self.UpdateGlowReason env GlowReason.Collectible
                      result := Lootability.CollectibleItemSetToGlow }
      else
        .error
          { verdict := Lootability.ObjectIsInBlacklistCollection
            effects :=
              if !dryRun then
                L1.effects ++ [Effect.BlockFormPermanently refr.baseObject
                                Lootability.ObjectIsInBlacklistCollection]
              else L1.effects
            self := L1.self }
    else .ok L
  else .ok L

/-- Lines 123–137 of `Process`: an unknown object type and a blacklisted base object end
the call. -/
def typeGuard (env : LootContext) (refr : TESObjectREFR) (objType : ObjectType)
    (dryRun : Bool) (L : ItemLocals) : Except Outcome ItemLocals :=
  if objType = ObjectType.unknown then
    .error
      { verdict := Lootability.ObjectTypeUnknown
        effects :=
          if !dryRun then L.effects ++ [Effect.BlacklistReference refr.formID]
          else L.effects
        self := L.self }
  else if env.BlackListContains refr.baseObject then
    .error { verdict := Lootability.BaseObjectOnBlacklist, effects := L.effects, self := L.self }
  else .ok L

/-- Lines 139–164 of `Process`: quest items. -/
def questGuard (env : LootContext) (refr : TESObjectREFR) (refrEx : LootableREFR)
    (objType : ObjectType) (L : ItemLocals) : ItemLocals :=
  let needsFullQuestFlags := env.questObjectScope
  let questObjectLoot := env.questObjectLoot
  if env.IsQuestItem refrEx needsFullQuestFlags then
    let L1 :=
      if questObjectLoot = SpecialObjectHandling.GlowTarget then
        { L with self := L.self.UpdateGlowReason env GlowReason.QuestObject }
      else L
    if !env.IsSpecialObjectLootable questObjectLoot then
      { L1 with skipLooting := true
                collectible := (false, L1.collectible.2)
                result := Lootability.CannotLootQuestTarget }
    else L1
  else if questObjectLoot = SpecialObjectHandling.GlowTarget ∧ objType = ObjectType.book ∧
      IsBookGlowable env refr = true then
    { L with self := L.self.UpdateGlowReason env GlowReason.SimpleTarget }
  else L

/-- Lines 166–183 of `Process`: valuable items. -/
def valuableGuard (env : LootContext) (refrEx : LootableREFR) (L : ItemLocals) : ItemLocals :=
  let valuableLoot := env.ValuableItemLoot
  if env.IsValuable refrEx then
    let L1 :=
      if valuableLoot = SpecialObjectHandling.GlowTarget then
        { L with self := L.self.UpdateGlowReason env GlowReason.Valuable }
      else L
    if !env.IsSpecialObjectLootable valuableLoot then
      { L1 with skipLooting := true, result := Lootability.CannotLootValuableObject }
    else L1
  else L

/-- Lines 185–192 of `Process`: ammunition. -/
def ammoGuard (env : LootContext) (refr : TESObjectREFR) (objType : ObjectType)
    (L : ItemLocals) : ItemLocals :=
  if objType = ObjectType.ammo then
    if env.SkipAmmoLooting refr then
      { L with skipLooting := true, result := Lootability.CannotLootAmmo }
    else L
  else L

/-- Lines 194–200 of `Process`: the legality guard. Returns the locals and the local
`forbidden`. -/
def legalityGuard (env : LootContext) (refr : TESObjectREFR) (L : ItemLocals) :
    ItemLocals × Lootability :=
  let legality := ItemLootingLegality env L.self refr L.collectible.1
  let forbidden := legality.1
  let L1 := { L with self := legality.2 }
  if forbidden ≠ Lootability.Lootable then
    ({ L1 with skipLooting := true, result := forbidden }, forbidden)
  else (L1, forbidden)

/-- Lines 202–205 of `Process`: the glow. -/
def glowStage (refr : TESObjectREFR) (dryRun : Bool) (L : ItemLocals) : ItemLocals :=
  if !dryRun && L.self.m_glowReason ≠ GlowReason.None then
    { L with effects := L.effects ++ [Effect.GlowObject refr.formID L.self.m_glowReason] }
  else L

/-- Lines 207–216 of `Process`: restricted population centers. -/
def locationGuard (env : LootContext) (refr : TESObjectREFR) (objType : ObjectType)
    (L : ItemLocals) : ItemLocals :=
  if !env.IsPlayerInWhitelistedPlace && env.IsPlayerInRestrictedLootSettlement &&
      !env.IsItemLootableInPopulationCenter refr.baseObject objType then
    { L with result := Lootability.PopulousLocationRestrictsLooting, skipLooting := true }
  else L

/-- Lines 218–286 of `Process`: the looting type, from collectibility, the whitelist, the
blacklist or the setting of the object's category. Returns the locals and the local
`lootingType`. -/
def lootingTypeStage (env : LootContext) (refr : TESObjectREFR) (objType : ObjectType)
    (dryRun : Bool) (forbidden : Lootability) (L : ItemLocals) : ItemLocals × LootingType :=
  if L.collectible.1 then
    let collectibleAction : CollectibleHandling := L.collectible.2
    if env.CanLootCollectible collectibleAction then
      ({ L with skipLooting := decide (forbidden ≠ Lootability.Lootable) },
        LootingType.LootAlwaysSilent)
    else ({ L with skipLooting := true }, LootingType.LeaveBehind)
  else if env.WhiteListContains refr.baseObject then
    let skipLooting := decide (forbidden ≠ Lootability.Lootable)
    ({ L with skipLooting := skipLooting
              result := if skipLooting then Lootability.LawAbidingSoNoWhitelistItemLooting
                        else L.result },
      LootingType.LootAlwaysSilent)
  else if env.BlackListContains refr.baseObject then
    ({ L with skipLooting := true, result := Lootability.ItemIsBlacklisted },
      LootingType.LeaveBehind)
  else if !L.skipLooting then
    let lootingType := env.LootingTypeSetting L.self.m_typeName
    if lootingType = LootingType.LeaveBehind then
      ({ L with effects :=
                  if !dryRun then
                    L.effects ++ [Effect.BlockReference refr.formID
                                    Lootability.ItemTypeIsSetToPreventLooting]
                  else L.effects
                skipLooting := true
                result := Lootability.ItemTypeIsSetToPreventLooting }, lootingType)
    else if env.LootingDependsOnValueWeight lootingType objType then
      if env.ValueWeightTooLowToLoot refr.baseObject L.self.m_targetType then
        ({ L with effects :=
                    if !dryRun then
                      L.effects ++ [Effect.BlockForm refr.baseObject
                                      Lootability.ValueWeightPreventsLooting]
                    else L.effects
                  skipLooting := true
                  result := Lootability.ValueWeightPreventsLooting }, lootingType)
      else (L, lootingType)
    else (L, lootingType)
  else (L, LootingType.LeaveBehind)

/-- Lines 288–322 of `Process`, and the `return result` that ends the function: the final
dispatch. -/
def finalDispatch (env : LootContext) (refr : TESObjectREFR) (refrEx : LootableREFR)
    (objType : ObjectType) (dryRun : Bool) (lootingType : LootingType) (L : ItemLocals) :
    Outcome :=
  if L.skipLooting || dryRun then
    { verdict := L.result, effects := L.effects, self := L.self }
  else if !L.self.m_stolen && refr.IsOffLimits &&
      decide (env.EffectiveOwnershipRule = OwnershipRule.AllowCrimeIfUndetected) then
    { verdict := Lootability.ItemTheftTriggered
      effects := L.effects ++ [Effect.DelayStealableItem refr.formID L.self.m_targetType]
      self := L.self }
  else if objType = ObjectType.oreVein then
    { verdict := L.result
      effects :=
        L.effects ++
          [Effect.BlockReference refr.formID Lootability.CannotMineTwiceInSameCellVisit,
           Effect.TriggerMining refr.formID (env.OreVeinResourceType refr.baseObject)
             env.ManualLootTargetNotify]
      self := L.self }
  else
    let isSilent := !env.LootingRequiresNotification lootingType
    if !env.LockHarvest refr isSilent then
      { verdict := Lootability.HarvestOperationPending
        effects := L.effects ++ [Effect.LockHarvest refr.formID isSilent false]
        self := L.self }
    else
      { verdict := L.result
        effects :=
          L.effects ++
            [Effect.LockHarvest refr.formID isSilent true,
             Effect.TriggerHarvest refr.formID objType (env.GetItemCount refrEx)
               (isSilent || decide (env.PendingHarvestNotifications > HarvestSpamLimit))
               L.collectible.1 env.PerkIngredientMultiplier]
        self := L.self }

/-- Lines 53–137 of `Process`: the guards of the `itemObjects` branch that can end the call
early. When they do not, the result is the `LootableREFR`, the object type and the
locals with which line 139 is reached. -/
def entryGuards (env : LootContext) (self : TryLootREFR) (refr : TESObjectREFR)
    (dryRun : Bool) : Except Outcome (LootableREFR × ObjectType × ItemLocals) :=
  let refrEx : LootableREFR := { m_ref := refr, m_scope := self.m_targetType, m_lootable := none }
  let objType := env.GetObjectType refrEx
  let self1 := { self with m_typeName := env.GetTypeName refrEx }
  match resolveProducer env self1 refr refrEx objType dryRun with
  | .error out => .error out
  | .ok refrEx1 =>
      let self2 := { self1 with m_glowReason := GlowReason.None }
      let L0 : ItemLocals :=
        { self := self2, result := Lootability.Lootable, skipLooting := false,
          collectible := env.TreatAsCollectible refrEx1, effects := [] }
      match collectibilityGuard env refr dryRun L0 with
      | .error out => .error out
      | .ok L1 =>
          match typeGuard env refr objType dryRun L1 with
          | .error out => .error out
          | .ok L2 => .ok (refrEx1, objType, L2)

/-- Lines 139–192 of `Process`: the quest, valuable and ammunition guards. -/
def policyGuards (env : LootContext) (refr : TESObjectREFR) (refrEx : LootableREFR)
    (objType : ObjectType) (L : ItemLocals) : ItemLocals :=
  ammoGuard env refr objType (valuableGuard env refrEx (questGuard env refr refrEx objType L))

/-- Lines 202–286 of `Process`: from the glow to the looting type. -/
def lootingStages (env : LootContext) (refr : TESObjectREFR) (objType : ObjectType)
    (dryRun : Bool) (forbidden : Lootability) (L : ItemLocals) : ItemLocals × LootingType :=
  lootingTypeStage env refr objType dryRun forbidden
    (locationGuard env refr objType (glowStage refr dryRun L))

/-- The `itemObjects` branch of `TryLootREFR::Process(dryRun)` (lines 51–323 and the final
`return result`), entered with a non-null `m_candidate`; `refr` is `*m_candidate`. -/
def ProcessItemObjects (env : LootContext) (self : TryLootREFR) (refr : TESObjectREFR)
    (dryRun : Bool) : Outcome :=
  match entryGuards env self refr dryRun with
  | .error out => out
  | .ok (refrEx, objType, L2) =>
      let L5 := policyGuards env refr refrEx objType L2
      let guarded := legalityGuard env refr L5
      let staged := lootingStages env refr objType dryRun guarded.2 guarded.1
      finalDispatch env refr refrEx objType dryRun staged.2 staged.1

end TryLootREFR

/-! ## The looting decision for a container or a dead body (`Looting/TryLootREFR.cpp`) -/

/-- The facts about an `InventoryItem` of the container that `Process` reads. -/
structure InventoryItem where
  /-- Identity of `BoundObject()`, `none` for `nullptr`. -/
  BoundObject : Option FormID
  /-- Result of `LootObjectType()`. -/
  LootObjectType : ObjectType
  /-- Whether `GetEnchantmentFromExtraLists(GetExtraDataLists())` is not `nullptr`. -/
  hasEnchantment : Bool
  deriving DecidableEq, Repr

/-- An element of `targets`, a `std::tuple<InventoryItem, bool, bool, size_t>`: the item,
whether to notify, whether it is collectible, and the number of items transferred. -/
structure LootTarget where
  item : InventoryItem
  notify : Bool
  collectible : Bool
  count : Nat
  deriving DecidableEq, Repr

/-- The state of the `ContainerLister` as far as `Process` changes it: which of the calls
`ExcludeQuestItems`, `ExcludeEnchantedItems`, `ExcludeValuableItems` and
`ExcludeCollectibleItems` have been made. -/
structure ContainerLister where
  questItemsExcluded : Bool
  enchantedItemsExcluded : Bool
  valuableItemsExcluded : Bool
  collectibleItemsExcluded : Bool
  deriving DecidableEq, Repr

/-- What the container branch of `Process` consults beyond the `LootContext`: the
`ContainerLister`, whose class is not part of the sources, further settings and
singletons. Each field is the value the named call returns. -/
structure ContainerContext where
  /-- Whether `DeadBodyLootingFromIniSetting` of setting `EnableLootDeadbody` is
  `DeadBodyLooting::LootExcludingArmor`. -/
  lootDeadBodyExcludingArmor : Bool
  /-- Value of the first call `lister.AnalyzeLootableItems()` (line 338). -/
  AnalyzeLootableItems : Nat
  /-- Value of the second call `lister.AnalyzeLootableItems()` (line 646), made after the
  transfer. -/
  AnalyzeLootableItemsAgain : Nat
  /-- `lister.HasQuestItem()`. -/
  HasQuestItem : Bool
  /-- `lister.HasEnchantedItem()`. -/
  HasEnchantedItem : Bool
  /-- `lister.HasValuableItem()`. -/
  HasValuableItem : Bool
  /-- `lister.HasCollectibleItem()`. -/
  HasCollectibleItem : Bool
  /-- `lister.CollectibleAction()`. -/
  CollectibleAction : CollectibleHandling
  /-- `lister.GetLootableItems()`, after the exclusions made. -/
  GetLootableItems : ContainerLister → List InventoryItem
  /-- `ScanGovernor::IsReferenceLockedContainer`. -/
  IsReferenceLockedContainer : TESObjectREFR → Bool
  /-- `IsBossContainer`. -/
  IsBossContainer : TESObjectREFR → Bool
  /-- `SpecialObjectHandlingFromIniSetting` of setting `lockedChestLoot`. -/
  lockedChestLoot : SpecialObjectHandling
  /-- `SpecialObjectHandlingFromIniSetting` of setting `bossChestLoot`. -/
  bossChestLoot : SpecialObjectHandling
  /-- Setting `enchantItemGlow`, as an integer. -/
  enchantItemGlow : Int
  /-- `DataCase::ReferencesBlacklistedContainer`. -/
  ReferencesBlacklistedContainer : TESObjectREFR → Bool
  /-- `CollectionManager::Instance().TreatAsCollectible(ConditionMatcher(item, scope))`. -/
  TreatAsCollectible : FormID → SecondaryType → Bool × SpecialObjectHandling
  /-- `GetObjectTypeName`. -/
  GetObjectTypeName : ObjectType → String
  /-- Setting `PlayContainerAnimation`, as an integer. -/
  PlayContainerAnimation : Int
  /-- Whether `GetTimeController` of the reference is not `nullptr`. -/
  GetTimeController : TESObjectREFR → Bool
  /-- `GetName()` of a bound object. -/
  GetName : Option FormID → String
  /-- Value returned by `InventoryItem::TakeAll(container, player, collectible,
  inlineTransfer)`. -/
  TakeAll : TESObjectREFR → InventoryItem → Bool → Bool → Nat
  /-- Translation of `$SHSE_ACTIVATE(COUNT)_MSG`. -/
  multiActivate : String
  /-- Translation of `$SHSE_ACTIVATE_MSG`. -/
  singleActivate : String
  /-- `StringUtils::Replace(text, target, replacement)`: the text afterwards. -/
  Replace : String → String → String → String

/-- The local variables of the container branch of `Process` that are live across its
guards, together with the object's members and the calls made so far. -/
structure ContainerLocals where
  self : TryLootREFR
  result : Lootability
  skipLooting : Bool
  lister : ContainerLister
  effects : List Effect
  deriving DecidableEq, Repr

/-- The state of the loop that builds `targets` (lines 513–616): the object's members, the
calls made so far and the targets collected. -/
structure TargetScan where
  self : TryLootREFR
  effects : List Effect
  targets : List LootTarget
  deriving DecidableEq, Repr

/-- The state of the loop of `GetLootFromContainer`: the local `madeSound`, the targets
visited, with their counts, and the calls made. -/
structure Transfer where
  madeSound : Bool
  targets : List LootTarget
  effects : List Effect
  deriving DecidableEq, Repr

namespace TryLootREFR

/-- Body of the loop of `GetLootFromContainer` (lines 685–726) for one target. -/
def transferStep (box : ContainerContext) (refr : TESObjectREFR) (inlineTransfer : Bool)
    (acc : Transfer) (target : LootTarget) : Transfer :=
  let sound := if !acc.madeSound then [Effect.PlayPickUpSound target.item.BoundObject] else []
  let name := box.GetName target.item.BoundObject
  let count := box.TakeAll refr target.item target.collectible inlineTransfer
  let taken :=
    [Effect.TakeAll refr.formID target.item.BoundObject target.collectible inlineTransfer]
  let notificationText :=
    if target.notify then
      if count > 1 then
        if !box.multiActivate.isEmpty then
          box.Replace (box.Replace box.multiActivate "\x7bITEMNAME\x7d" name) "\x7bCOUNT\x7d"
            (toString count)
        else ""
      else if !box.singleActivate.isEmpty then
        box.Replace box.singleActivate "\x7bITEMNAME\x7d" name
      else ""
    else ""
  let notification :=
    if target.notify && !notificationText.isEmpty then
      [Effect.DebugNotification notificationText]
    else []
  { madeSound := true
    targets := acc.targets ++ [{ target with count := count }]
    effects := acc.effects ++ sound ++ taken ++ notification }

/-- `TryLootREFR::GetLootFromContainer(targets, animationType, inlineTransfer)`: the targets
with their counts filled in, and the calls made. -/
def GetLootFromContainer (box : ContainerContext) (self : TryLootREFR)
    (targets : List LootTarget) (animationType : Int) (inlineTransfer : Bool) :
    List LootTarget × List Effect :=
  match self.m_candidate with
  | none => (targets, [])
  | some refr =>
      let visual :=
        if animationType = 1 then [Effect.PlayAnimation refr.formID "Close" "Open"]
        else if animationType = 2 then
          [Effect.GlowObjectLooted refr.formID GlowReason.SimpleTarget]
        else []
      let done := targets.foldl (transferStep box refr inlineTransfer)
        { madeSound := false, targets := [], effects := visual }
      (done.targets, done.effects)

/-- `TryLootREFR::CopyLootFromContainer(targets)`: the calls made. -/
def CopyLootFromContainer (self : TryLootREFR) (targets : List LootTarget) : List Effect :=
  match self.m_candidate with
  | none => []
  | some _ => targets.map fun target => Effect.MakeCopies target.item.BoundObject target.count

/-- Lines 339–349 of `Process`: a container with nothing lootable ends the call. -/
def emptyGuard (box : ContainerContext) (self : TryLootREFR) (refr : TESObjectREFR)
    (dryRun : Bool) : Except Outcome Nat :=
  let lootableItems := box.AnalyzeLootableItems
  if lootableItems = 0 then
    .error
      { verdict := Lootability.ContainerHasNoLootableItems
        effects := if !dryRun then [Effect.MarkContainerLooted refr.formID] else []
        self := self }
  else .ok lootableItems

/-- Lines 357–372 of `Process`: a locked container. -/
def lockedChestGuard (env : LootContext) (box : ContainerContext) (refr : TESObjectREFR)
    (L : ContainerLocals) : ContainerLocals :=
  if box.IsReferenceLockedContainer refr then
    let lockedChestLoot := box.lockedChestLoot
    let L1 :=
      if lockedChestLoot = SpecialObjectHandling.GlowTarget then
        { L with self := L.self.UpdateGlowReason env GlowReason.LockedContainer }
      else L
    if !env.IsSpecialObjectLootable lockedChestLoot then
      { L1 with skipLooting := true, result := Lootability.ContainerIsLocked }
    else L1
  else L

/-- Lines 374–389 of `Process`: a boss container. -/
def bossChestGuard (env : LootContext) (box : ContainerContext) (refr : TESObjectREFR)
    (L : ContainerLocals) : ContainerLocals :=
  if box.IsBossContainer refr then
    let bossChestLoot := box.bossChestLoot
    let L1 :=
      if bossChestLoot = SpecialObjectHandling.GlowTarget then
        { L with self := L.self.UpdateGlowReason env GlowReason.BossContainer }
      else L
    if !env.IsSpecialObjectLootable bossChestLoot then
      { L1 with skipLooting := true, result := Lootability.ContainerIsBossChest }
    else L1
  else L

/-- Lines 353–390 of `Process`: the two guards that apply to containers only. -/
def chestGuards (env : LootContext) (box : ContainerContext) (refr : TESObjectREFR)
    (L : ContainerLocals) : ContainerLocals :=
  if L.self.m_targetType = SecondaryType.containers then
    bossChestGuard env box refr (lockedChestGuard env box refr L)
  else L

/-- Lines 392–408 of `Process`: the container holds a quest item. -/
def questItemsGuard (env : LootContext) (box : ContainerContext) (L : ContainerLocals) :
    ContainerLocals :=
  if box.HasQuestItem then
    let questObjectLoot := env.questObjectLoot
    let L1 :=
      if questObjectLoot = SpecialObjectHandling.GlowTarget then
        { L with self := L.self.UpdateGlowReason env GlowReason.QuestObject }
      else L
    if !env.IsSpecialObjectLootable questObjectLoot then
      { L1 with lister := { L1.lister with questItemsExcluded := true }
                result := Lootability.ContainerHasQuestObject }
    else L1
  else L

/-- Lines 410–420 of `Process`: the container holds an enchanted item. -/
def enchantedItemsGuard (env : LootContext) (box : ContainerContext) (L : ContainerLocals) :
    ContainerLocals :=
  if box.HasEnchantedItem then
    if box.enchantItemGlow = 1 then
      { L with self := L.self.UpdateGlowReason env GlowReason.EnchantedItem
               lister := { L.lister with enchantedItemsExcluded := true } }
    else L
  else L

/-- Lines 422–438 of `Process`: the container holds a valuable item. -/
def valuableItemsGuard (env : LootContext) (box : ContainerContext) (L : ContainerLocals) :
    ContainerLocals :=
  if box.HasValuableItem then
    let valuableLoot := env.ValuableItemLoot
    let L1 :=
      if valuableLoot = SpecialObjectHandling.GlowTarget then
        { L with self := L.self.UpdateGlowReason env GlowReason.Valuable
                 lister := { L.lister with valuableItemsExcluded := true } }
      else L
    if !env.IsSpecialObjectLootable valuableLoot then
      { L1 with result := Lootability.ContainerHasValuableObject }
    else L1
  else L

/-- Lines 440–462 of `Process`: the container holds a collectible item. -/
def collectibleItemsGuard (env : LootContext) (box : ContainerContext) (L : ContainerLocals) :
    ContainerLocals :=
  if box.HasCollectibleItem then
    if !env.CanLootCollectible box.CollectibleAction then
      let L1 := { L with lister := { L.lister with collectibleItemsExcluded := true } }
      if box.CollectibleAction = SpecialObjectHandling.GlowTarget then
        { L1 with self := L1.self.UpdateGlowReason env GlowReason.Collectible
                  result := Lootability.CollectibleItemSetToGlow }
      else if box.CollectibleAction = SpecialObjectHandling.Print then
        { L1 with result := Lootability.ManualLootTarget }
      else { L1 with result := Lootability.ItemInBlacklistCollection }
    else L
  else L

/-- Lines 464–476 of `Process`: legality of looting the container, and blacklisted
containers. -/
def containerLegalityGuard (env : LootContext) (box : ContainerContext)
    (refr : TESObjectREFR) (L : ContainerLocals) : ContainerLocals :=
  let legality := LootingLegality env L.self refr L.self.m_targetType
  let forbidden := legality.1
  let L1 := { L with self := legality.2 }
  if forbidden ≠ Lootability.Lootable then
    { L1 with skipLooting := true, result := forbidden }
  else if box.ReferencesBlacklistedContainer refr then
    { L1 with skipLooting := true, result := Lootability.ContainerIsBlacklisted }
  else L1

/-- Lines 478–487 of `Process`: restricted population centers, for containers. -/
def containerLocationGuard (env : LootContext) (L : ContainerLocals) : ContainerLocals :=
  if !L.skipLooting && decide (L.self.m_targetType ≠ SecondaryType.deadbodies) &&
      !env.IsPlayerInWhitelistedPlace && env.IsPlayerInRestrictedLootSettlement then
    { L with skipLooting := true, result := Lootability.PopulousLocationRestrictsLooting }
  else L

/-- Lines 489–492 of `Process`: the glow. -/
def containerGlowStage (refr : TESObjectREFR) (dryRun : Bool) (L : ContainerLocals) :
    ContainerLocals :=
  if !dryRun && L.self.m_glowReason ≠ GlowReason.None then
    { L with effects := L.effects ++ [Effect.GlowObject refr.formID L.self.m_glowReason] }
  else L

/-- Lines 351–492 of `Process`: the guards of the container branch, from the reset of the
glow reason to the glow. -/
def containerGuards (env : LootContext) (box : ContainerContext) (self : TryLootREFR)
    (refr : TESObjectREFR) (dryRun : Bool) : ContainerLocals :=
  let L0 : ContainerLocals :=
    { self := { self with m_glowReason := GlowReason.None }
      result := Lootability.Lootable
      skipLooting := false
      lister :=
        { questItemsExcluded := false, enchantedItemsExcluded := false,
          valuableItemsExcluded := false, collectibleItemsExcluded := false }
      effects := [] }
  containerGlowStage refr dryRun
    (containerLocationGuard env
      (containerLegalityGuard env box refr
        (collectibleItemsGuard env box
          (valuableItemsGuard env box
            (enchantedItemsGuard env box
              (questItemsGuard env box (chestGuards env box refr L0)))))))

/-- Lines 533–554 of `Process`: a weapon, armor or jewelry with a player-created
enchantment counts as its enchanted category. -/
def enchantedCategory (objType : ObjectType) (hasEnchantment : Bool) : ObjectType :=
  if objType = ObjectType.weapon ∨ objType = ObjectType.armor ∨
      objType = ObjectType.jewelry then
    if hasEnchantment then
      match objType with
      | ObjectType.weapon => ObjectType.enchantedWeapon
      | ObjectType.armor => ObjectType.enchantedArmor
      | ObjectType.jewelry => ObjectType.enchantedJewelry
      | other => other
    else objType
  else objType

/-- Lines 606–615 of the loop body: the crime check of one item and, when it passes, the
new target. -/
def targetLegality (env : LootContext) (refr : TESObjectREFR)
    (targetItemInfo : InventoryItem) (lootingType : LootingType) (collectible : Bool)
    (acc : TargetScan) : TargetScan :=
  let legality := ItemLootingLegality env acc.self refr collectible
  if legality.1 ≠ Lootability.Lootable then { acc with self := legality.2 }
  else
    { acc with
      self := legality.2
      targets :=
        acc.targets ++
          [{ item := targetItemInfo, notify := env.LootingRequiresNotification lootingType,
             collectible := collectible, count := 0 }] }

/-- Body of the loop that builds `targets` (lines 513–616) for one lootable item. -/
def targetStep (env : LootContext) (box : ContainerContext) (refr : TESObjectREFR)
    (excludeArmor : Bool) (acc : TargetScan) (targetItemInfo : InventoryItem) : TargetScan :=
  match targetItemInfo.BoundObject with
  | none => acc
  | some target =>
      if env.BlackListContains target then acc
      else if excludeArmor &&
          (decide (targetItemInfo.LootObjectType = ObjectType.armor) ||
            decide (targetItemInfo.LootObjectType = ObjectType.enchantedArmor)) then acc
      else
        let objType := enchantedCategory targetItemInfo.LootObjectType
          targetItemInfo.hasEnchantment
        let collectible := box.TreatAsCollectible target acc.self.m_targetType
        if collectible.1 then
          if env.CanLootCollectible collectible.2 then
            targetLegality env refr targetItemInfo LootingType.LootAlwaysSilent collectible.1 acc
          else acc
        else if env.WhiteListContains target then
          targetLegality env refr targetItemInfo LootingType.LootAlwaysSilent collectible.1 acc
        else if env.BlackListContains target then acc
        else
          let typeName := box.GetObjectTypeName objType
          let lootingType := env.LootingTypeSetting typeName
          if lootingType = LootingType.LeaveBehind then
            { acc with
              effects :=
                acc.effects ++
                  [Effect.BlockForm target Lootability.ItemTypeIsSetToPreventLooting] }
          else if env.LootingDependsOnValueWeight lootingType objType &&
              env.ValueWeightTooLowToLoot target acc.self.m_targetType then
            { acc with
              effects :=
                acc.effects ++ [Effect.BlockForm target Lootability.ValueWeightPreventsLooting] }
          else targetLegality env refr targetItemInfo lootingType collectible.1 acc

/-- Lines 618–640 of `Process`: the transfer of the targets, when there are any. Returns
the object, the targets with their counts and the calls made so far. -/
def transferStage (box : ContainerContext) (refr : TESObjectREFR) (scan : TargetScan) :
    TargetScan :=
  if !scan.targets.isEmpty then
    let playContainerAnimation :=
      if box.PlayContainerAnimation > 0 then
        if scan.self.m_targetType = SecondaryType.containers then
          if !box.GetTimeController refr then 2 else box.PlayContainerAnimation
        else 2
      else box.PlayContainerAnimation
    let got := GetLootFromContainer box scan.self scan.targets playContainerAnimation
      (decide (scan.self.m_targetType = SecondaryType.containers))
    { scan with targets := got.1, effects := scan.effects ++ got.2 }
  else scan

/-- Lines 642–658 of `Process`: when looting a container left as many lootable items as
before, the targets are copied and the reference is blacklisted; otherwise the container
is marked as looted. -/
def confirmStage (box : ContainerContext) (refr : TESObjectREFR) (lootableItems : Nat)
    (scan : TargetScan) : List Effect :=
  if scan.self.m_targetType = SecondaryType.containers ∧ scan.targets.isEmpty = false ∧
      box.AnalyzeLootableItemsAgain ≥ lootableItems then
    scan.effects ++ CopyLootFromContainer scan.self scan.targets ++
      [Effect.BlacklistReference refr.formID]
  else scan.effects ++ [Effect.MarkContainerLooted refr.formID]

/-- Lines 494–660 of `Process`: the dispatch of the container branch. -/
def containerDispatch (env : LootContext) (box : ContainerContext) (refr : TESObjectREFR)
    (dryRun : Bool) (lootableItems : Nat) (L : ContainerLocals) : Outcome :=
  if dryRun || L.skipLooting then
    { verdict := L.result, effects := L.effects, self := L.self }
  else if !L.self.m_stolen && refr.IsOffLimits &&
      decide (env.EffectiveOwnershipRule = OwnershipRule.AllowCrimeIfUndetected) then
    { verdict := Lootability.ItemTheftTriggered
      effects := L.effects ++ [Effect.DelayStealableItem refr.formID L.self.m_targetType]
      self := L.self }
  else
    let excludeArmor :=
      decide (L.self.m_targetType = SecondaryType.deadbodies) &&
        box.lootDeadBodyExcludingArmor
    let scan := (box.GetLootableItems L.lister).foldl (targetStep env box refr excludeArmor)
      { self := L.self, effects := L.effects, targets := [] }
    let moved := transferStage box refr scan
    { verdict := L.result
      effects := confirmStage box refr lootableItems moved
      self := moved.self }

/-- The branch of `TryLootREFR::Process(dryRun)` for containers and dead bodies (lines
324–659 and the final `return result`), entered with a non-null `m_candidate`; `refr` is
`*m_candidate`. -/
def ProcessContainer (env : LootContext) (box : ContainerContext) (self : TryLootREFR)
    (refr : TESObjectREFR) (dryRun : Bool) : Outcome :=
  match emptyGuard box self refr dryRun with
  | .error out => out
  | .ok lootableItems =>
      containerDispatch env box refr dryRun lootableItems
        (containerGuards env box self refr dryRun)

/-- `TryLootREFR::Process(dryRun)`. -/
def Process (env : LootContext) (box : ContainerContext) (self : TryLootREFR)
    (dryRun : Bool) : Outcome :=
  match self.m_candidate with
  | none => { verdict := Lootability.NullReference, effects := [], self := self }
  | some refr =>
      if self.m_targetType = SecondaryType.itemObjects then
        ProcessItemObjects env self refr dryRun
      else if self.m_targetType = SecondaryType.containers ∨
          self.m_targetType = SecondaryType.deadbodies then
        ProcessContainer env box self refr dryRun
      else { verdict := Lootability.Lootable, effects := [], self := self }

end TryLootREFR

/-! ## Group and collection names (`Collections/CollectionManager.cpp`) -/

/-- `std::string::substr(pos)` for a position within the string: the characters from
position `pos` on. -/
def substr (s : String) (pos : Nat) : String :=
  ⟨s.data.drop pos⟩

/-- `CollectionManager::NameByGroupIndex`: the label of the entry of the group at the
given index, without the group name and the separator; the empty string when there is no
such entry. -/
def CollectionManager.NameByGroupIndex (s : CollectionManager) (groupName : String)
    (collectionIndex : Int) : String :=
  let groups := s.m_collectionsByGroupName.filter (fun group => group.1 == groupName)
  if collectionIndex < 0 then ""
  else
    match groups.get? collectionIndex.toNat with
    | some group => substr group.2 (groupName.length + 1)
    | none => ""

/-! ## Value and weight (`Utilities/Enums.cpp`) -/

/-- `LootingDependsOnValueWeight(lootingType, objectType, weight)`.
`AlwaysValueWeightExempt` and `IsValueWeightExempt` are declared in a header that is not
part of the sources, `CheckWeightlessValue` is the value of
`SettingsCache::Instance().CheckWeightlessValue()`. The weight, a `double`, is only
compared with `0.0`; it is taken as a rational number. -/
def LootingDependsOnValueWeight (AlwaysValueWeightExempt IsValueWeightExempt : ObjectType → Bool)
    (CheckWeightlessValue : Bool) (lootingType : LootingType) (objectType : ObjectType)
    (weight : ℚ) : Bool :=
  if !AlwaysValueWeightExempt objectType && decide (weight = 0) && CheckWeightlessValue then true
  else if IsValueWeightExempt objectType then false
  else if lootingType ≠ LootingType.LootIfValuableEnoughNotify ∧
      lootingType ≠ LootingType.LootIfValuableEnoughSilent then false
  else true

/-! ## Range checks (`Looting/IRangeChecker.cpp`) -/

/-- The position of a reference: `GetPositionX()`, `GetPositionY()` and `GetPositionZ()`.
Coordinates, radii and distances are taken as exact numbers; they are rationals, and the
square root of the source is an argument `sqrt` of the functions that call it. -/
structure Coordinates where
  x : ℚ
  y : ℚ
  z : ℚ
  deriving DecidableEq, Repr

/-- The data members of `AbsoluteRange`; `m_distance` is the `mutable` member that
`IsValid` sets. -/
structure AbsoluteRange where
  m_sourceX : ℚ
  m_sourceY : ℚ
  m_sourceZ : ℚ
  m_radius : ℚ
  m_zLimit : ℚ
  m_distance : ℚ
  deriving DecidableEq, Repr

namespace AbsoluteRange

/-- The constructor `AbsoluteRange(source, radius, verticalFactor)`. It leaves `m_distance`
unset, here 0; `IsValid` sets it before it is read. -/
def init (source : Coordinates) (radius verticalFactor : ℚ) : AbsoluteRange :=
  { m_sourceX := source.x, m_sourceY := source.y, m_sourceZ := source.z,
    m_radius := radius, m_zLimit := radius * verticalFactor, m_distance := 0 }

/-- `AbsoluteRange::IsValid(refr, distance)`: the value returned and the object with
`m_distance` set. -/
def IsValid (sqrt : ℚ → ℚ) (self : AbsoluteRange) (refr : Coordinates) (distance : ℚ) :
    Bool × AbsoluteRange :=
  let dx := abs (refr.x - self.m_sourceX)
  let dy := abs (refr.y - self.m_sourceY)
  let dz := abs (refr.z - self.m_sourceZ)
  if dx > self.m_radius ∨ dy > self.m_radius ∨ dz > self.m_zLimit then
    (false, { self with m_distance := max dx (max dy dz) })
  else
    let m_distance := if distance > 0 then distance else sqrt ((dx * dx) + (dy * dy) + (dz * dz))
    (decide (m_distance ≤ self.m_radius), { self with m_distance := m_distance })

/-- `AbsoluteRange::Distance`. -/
def Distance (self : AbsoluteRange) : ℚ :=
  self.m_distance

end AbsoluteRange

/-- The data members of `BracketedRange`. -/
structure BracketedRange where
  m_innerLimit : AbsoluteRange
  m_outerLimit : AbsoluteRange
  deriving DecidableEq, Repr

namespace BracketedRange

/-- The constructor `BracketedRange(source, radius, delta)`. -/
def init (source : Coordinates) (radius delta : ℚ) : BracketedRange :=
  { m_innerLimit := AbsoluteRange.init source radius 1
    m_outerLimit := AbsoluteRange.init source (radius + delta) 1 }

/-- `BracketedRange::IsValid(refr, distance)`: the value returned and the object with the
distances of its two limits set. The outer limit is evaluated only when the inner one
rejects the reference; the argument `distance` is not used. -/
def IsValid (sqrt : ℚ → ℚ) (self : BracketedRange) (refr : Coordinates) (_distance : ℚ) :
    Bool × BracketedRange :=
  let inner := self.m_innerLimit.IsValid sqrt refr 0
  if !inner.1 then
    let outer := self.m_outerLimit.IsValid sqrt refr inner.2.Distance
    (outer.1, { m_innerLimit := inner.2, m_outerLimit := outer.2 })
  else (false, { self with m_innerLimit := inner.2 })

/-- `BracketedRange::Distance`. -/
def Distance (self : BracketedRange) : ℚ :=
  self.m_innerLimit.Distance

end BracketedRange

/-! ## Notions used to state the properties -/

/-- Modelled from the spec: the fixed total order on actions,
`DoNotLoot > Print(manual) > Glow > Loot`, as a rank. -/
def restrictiveness : SpecialObjectHandling → Nat
  | .DoNotLoot => 3
  | .Print => 2
  | .GlowTarget => 1
  | .DoLoot => 0

/-- Modelled from the spec: `UpdateSpecialObjectHandling` is declared in a header that is
not part of the sources; of the two actions it keeps the greater one in the fixed order
`DoNotLoot > Print(manual) > Glow > Loot`. -/
def UpdateSpecialObjectHandling (initial next : SpecialObjectHandling) : SpecialObjectHandling :=
  if restrictiveness next ≤ restrictiveness initial then initial else next

/-- The policy actions of the collections that claim `id` and accept the query, in the
iteration order of the multimap. -/
def acceptingActions (s : CollectionManager) (matcher : ConditionMatcher) (id : FormID) :
    List SpecialObjectHandling :=
  (equal_range s.m_collectionsByFormID id).filterMap (fun target =>
    match s.collection target.2 with
    | none => none
    | some c => if c.InScopeAndCollectibleFor matcher then some c.m_policy.m_action else none)

/-- The state in which `ProcessDefinitions` leaves a newly constructed manager: the
registry, group index and file map built from the definition files, membership resolved
over the catalog, and `m_ready` set. -/
def loaded (registry : List (String × Collection)) (groups files : List (String × String))
    (ValidSignatures : List (String × FormType)) (GetFormArray : FormType → List TESForm) :
    CollectionManager :=
  { CollectionManager.ResolveMembership ValidSignatures GetFormArray
      { CollectionManager.init with
        m_allCollectionsByLabel := registry, m_collectionsByGroupName := groups,
        m_fileNamesByGroupName := files } with
    m_ready := true }

/-- The identity a call of `TreatAsCollectible` is about, when the manager is active. -/
def queried (s : CollectionManager) (matcher : ConditionMatcher) : List FormID :=
  if s.IsActive then
    match matcher.m_form with
    | some f => [f.formID]
    | none => []
  else []

/-- The manager states reachable after membership resolution through
`TreatAsCollectible`, `CheckEnqueueAddedItem`, `ProcessAddedItems` and `OnGameReload`,
each with the identities passed to `TreatAsCollectible` on an active manager so far. -/
inductive Reachable
    (upd : SpecialObjectHandling → SpecialObjectHandling → SpecialObjectHandling) :
    CollectionManager → List FormID → Prop where
  | resolved (registry : List (String × Collection)) (groups files : List (String × String))
      (ValidSignatures : List (String × FormType)) (GetFormArray : FormType → List TESForm) :
      Reachable upd (loaded registry groups files ValidSignatures GetFormArray) []
  | treat (s : CollectionManager) (q : List FormID) (matcher : ConditionMatcher) :
      Reachable upd s q →
      Reachable upd (CollectionManager.TreatAsCollectible upd s matcher).2 (queried s matcher ++ q)
  | enqueue (s : CollectionManager) (q : List FormID) (formID : FormID) :
      Reachable upd s q → Reachable upd (s.CheckEnqueueAddedItem formID) q
  | process (s : CollectionManager) (q : List FormID) (g : Game) (nowTime : Int) :
      Reachable upd s q → Reachable upd (CollectionManager.ProcessAddedItems g nowTime s).1 q
  | reload (s : CollectionManager) (q : List FormID) (g : Game) :
      Reachable upd s q → Reachable upd (CollectionManager.OnGameReload g s) q

/-- Between two states the reverse multimap is unchanged and the negative cache has only
grown, by identities that are not keys of the multimap. -/
def Grows (s s' : CollectionManager) : Prop :=
  s'.m_collectionsByFormID = s.m_collectionsByFormID ∧
  (∀ id ∈ s.m_nonCollectionForms, id ∈ s'.m_nonCollectionForms) ∧
  (∀ id ∈ s'.m_nonCollectionForms, id ∈ s.m_nonCollectionForms ∨ s.claims id = false)

/-- The eligible catalog forms in the order `ResolveMembership` visits them. -/
def catalog (ValidSignatures : List (String × FormType)) (GetFormArray : FormType → List TESForm) :
    List TESForm :=
  ValidSignatures.flatMap (fun signature => GetFormArray signature.2)

/-- The verdict of the root filter of `c` on `form` during resolution. -/
def filterMatches (c : Collection) (form : TESForm) : Bool :=
  (c.m_rootFilter.eval (ConditionMatcher.ofForm form)).1

/-- What the loop body of `ResolveMembership` makes of one collection for one form. -/
def resolveCollection (form : TESForm) (c : Collection) : Collection :=
  if (c.MatchesFilter (ConditionMatcher.ofForm form)).1 then
    (((c.MatchesFilter (ConditionMatcher.ofForm form)).2.1.SetScopes
      (c.MatchesFilter (ConditionMatcher.ofForm form)).2.2.m_scopesSeen).AddMemberID (some form)).2
  else (c.MatchesFilter (ConditionMatcher.ofForm form)).2.1

/-- What `ResolveMembership` makes of one collection over a list of forms. -/
def resolveAll (forms : List TESForm) (c : Collection) : Collection :=
  forms.foldl (fun c form => resolveCollection form c) c

/-- The scope tags recorded on the match context while the root filter of `c` is
evaluated on `form` during resolution (`matcher.ScopesSeen()`). -/
def scopesSeenFor (c : Collection) (form : TESForm) : List SecondaryType :=
  (c.m_rootFilter.eval (ConditionMatcher.ofForm form)).2.m_scopesSeen

/-- The children of a tree as a list, in evaluation order. -/
def Conditions.toList : Conditions → List Condition
  | .nil => []
  | .cons c rest => c :: rest.toList

/-- The children that are run on `m` when evaluation stops at the first child whose
verdict is `stop`: that child and all before it. -/
def evaluatedChildren (stop : Bool) (m : ConditionMatcher) : List Condition → List Condition
  | [] => []
  | c :: rest => if (c.eval m).1 = stop then [c] else c :: evaluatedChildren stop m rest

/-- The match context after running the given conditions one after the other. -/
def contextAfter (cs : List Condition) (m : ConditionMatcher) : ConditionMatcher :=
  cs.foldl (fun m' c => (c.eval m').2) m

/-- The state `ProcessAddedItems` drains: the manager after the inventory reconciliation
that is due at `nowTime`, if any. -/
def reconciled (g : Game) (nowTime : Int) (s : CollectionManager) : CollectionManager :=
  if nowTime - s.m_lastInventoryCheck ≥ 3000 * g.ticksPerMilli then
    if !(CollectionManager.ReconcileInventory g { s with m_lastInventoryCheck := nowTime }).1.isEmpty then
      { (CollectionManager.ReconcileInventory g { s with m_lastInventoryCheck := nowTime }).2 with
        m_addedItemQueue :=
          (CollectionManager.ReconcileInventory g { s with m_lastInventoryCheck := nowTime }).2.m_addedItemQueue ++
            (CollectionManager.ReconcileInventory g { s with m_lastInventoryCheck := nowTime }).1 }
    else (CollectionManager.ReconcileInventory g { s with m_lastInventoryCheck := nowTime }).2
  else s

/-- The identities `ProcessAddedItems` drains from the pending queue. -/
def drained (g : Game) (nowTime : Int) (s : CollectionManager) : List FormID :=
  (reconciled g nowTime s).m_addedItemQueue

/-- What one loop step of `AddToRelevantCollections` for the target `target` makes of the
collection owned under `label`. -/
def recordInto (g : Game) (gameTime : Int) (itemID : FormID) (form : TESForm) (label : String)
    (c : Collection) (target : FormID × String) : Collection :=
  if target.2 = label ∧ c.m_policy.m_action ≠ SpecialObjectHandling.DoNotLoot ∧
      c.IsMemberOf (some form) = true then
    (c.RecordItem g.Replace g.newMemberText g.PlayerPosition itemID form gameTime
      g.CurrentPlayerPlace).1
  else c

/-- What one loop step of `ProcessAddedItems` for the drained identity `formID` makes of
the collection owned under `label`. -/
def observeIn (g : Game) (multimap : List (FormID × String)) (gameTime : Int) (label : String)
    (c : Collection) (formID : FormID) : Collection :=
  if multimap.any (fun e => e.1 == formID) then
    match g.LookupByID formID with
    | none => c
    | some form =>
        (equal_range multimap form.formID).foldl (recordInto g gameTime formID form label) c
  else c

/-- The terminal side effects of the single-object decision: harvest, mining and the
theft check. -/
def Effect.isDispatch : Effect → Bool
  | .TriggerHarvest _ _ _ _ _ _ => true
  | .TriggerMining _ _ _ => true
  | .DelayStealableItem _ _ => true
  | _ => false

/-- None of the calls is a harvest, a mining or a theft check. -/
def NoDispatch (effects : List Effect) : Prop := ∀ e ∈ effects, e.isDispatch = false

/-- The `LootableREFR` with which `Process` goes on after producer resolution (line 78),
`none` when the call ended there with `PendingProducerIngredient`. -/
def pastProducerResolution (env : LootContext) (self : TryLootREFR) (refr : TESObjectREFR)
    (dryRun : Bool) : Option LootableREFR :=
  let refrEx : LootableREFR := { m_ref := refr, m_scope := self.m_targetType, m_lootable := none }
  match TryLootREFR.resolveProducer env { self with m_typeName := env.GetTypeName refrEx } refr
      refrEx (env.GetObjectType refrEx) dryRun with
  | .error _ => none
  | .ok refrEx1 => some refrEx1

/-- The state in which a single-object call reaches the legality guard (line 194): the
`LootableREFR`, the object type and the locals; `none` when the call ended earlier. -/
def legalityInput (env : LootContext) (self : TryLootREFR) (refr : TESObjectREFR)
    (dryRun : Bool) : Option (LootableREFR × ObjectType × ItemLocals) :=
  match TryLootREFR.entryGuards env self refr dryRun with
  | .error _ => none
  | .ok (refrEx, objType, L2) =>
      some (refrEx, objType, TryLootREFR.policyGuards env refr refrEx objType L2)

/-- The state in which a single-object call reaches the final dispatch (line 288): the
`LootableREFR`, the object type, the locals and the looting type; `none` when the call
ended earlier. -/
def dispatchInput (env : LootContext) (self : TryLootREFR) (refr : TESObjectREFR)
    (dryRun : Bool) : Option (LootableREFR × ObjectType × ItemLocals × LootingType) :=
  match legalityInput env self refr dryRun with
  | none => none
  | some (refrEx, objType, L5) =>
      let guarded := TryLootREFR.legalityGuard env refr L5
      let staged := TryLootREFR.lootingStages env refr objType dryRun guarded.2 guarded.1
      some (refrEx, objType, staged.1, staged.2)

/-- The condition under which the final dispatch queues the theft check (lines 294–295). -/
def theftCheckDue (env : LootContext) (self : TryLootREFR) (refr : TESObjectREFR) : Bool :=
  !self.m_stolen && refr.IsOffLimits &&
    decide (env.EffectiveOwnershipRule = OwnershipRule.AllowCrimeIfUndetected)

/-- The calls that settle a container after its transfer: copying a target to the player,
blacklisting a reference and marking a container as looted. -/
def Effect.isContainerOutcome : Effect → Bool
  | .MakeCopies _ _ => true
  | .BlacklistReference _ => true
  | .MarkContainerLooted _ => true
  | _ => false

/-- None of the calls copies a target, blacklists a reference or marks a container as
looted. -/
def Unsettled (effects : List Effect) : Prop := ∀ e ∈ effects, e.isContainerOutcome = false

/-- The state in which a call for a container or a dead body reaches the confirmation of
the transfer (line 642): the count of lootable items taken at the start, and the object,
the calls made so far and the targets as `GetLootFromContainer` left them; `none` when
the call ended earlier. -/
def confirmInput (env : LootContext) (box : ContainerContext) (self : TryLootREFR)
    (refr : TESObjectREFR) (dryRun : Bool) : Option (Nat × TargetScan) :=
  match TryLootREFR.emptyGuard box self refr dryRun with
  | .error _ => none
  | .ok lootableItems =>
      let L := TryLootREFR.containerGuards env box self refr dryRun
      if dryRun || L.skipLooting then none
      else if theftCheckDue env L.self refr then none
      else
        some (lootableItems,
          TryLootREFR.transferStage box refr
            ((box.GetLootableItems L.lister).foldl
              (TryLootREFR.targetStep env box refr
                (decide (L.self.m_targetType = SecondaryType.deadbodies) &&
                  box.lootDeadBodyExcludingArmor))
              { self := L.self, effects := L.effects, targets := [] }))

/-! ## Concrete inputs -/

/-- A food ingredient with identity 7. -/
def exForm : TESForm :=
  { formID := 7, name := "Apple", formType := 30, keywords := [100], plugin := "Skyrim.esm" }

/-- A collect-once collection (repeat off, notify on) that has identity 7 as a member. -/
def exColl : Collection :=
  { m_name := "Food", m_description := "", m_policy := ⟨.GlowTarget, true, false⟩,
    m_rootFilter := .ConditionTree .And 0
      (.cons (.SignatureCondition [30]) (.cons (.KeywordCondition [100]) .nil)),
    m_scopes := [], m_members := [7], m_observed := [] }

/-- The collection `exColl` restricted to the scope of container contents. -/
def exScoped : Collection :=
  { exColl with m_scopes := [SecondaryType.containers] }

/-- A repeatable, unscoped collection with member 7 and the given action. -/
def exMember (action : SpecialObjectHandling) : Collection :=
  { m_name := "Food", m_description := "", m_policy := ⟨action, true, true⟩,
    m_rootFilter := .SignatureCondition [30],
    m_scopes := [], m_members := [7], m_observed := [] }

/-- An active manager in which two collections with actions `a` and `b` claim identity 7,
iterated in that order. -/
def twoClaims (a b : SpecialObjectHandling) : CollectionManager :=
  { CollectionManager.init with
    m_ready := true, m_enabled := true,
    m_allCollectionsByLabel := [("G/A", exMember a), ("G/B", exMember b)],
    m_collectionsByFormID := [(7, "G/A"), (7, "G/B")] }

/-- A query for `exForm` in the scope of loose items. -/
def exQuery : ConditionMatcher :=
  ConditionMatcher.ofFormScope (some exForm) SecondaryType.itemObjects

/-- An active manager whose only claim on identity 7 is by the scoped collection. -/
def exScopedManager : CollectionManager :=
  { CollectionManager.init with
    m_ready := true, m_enabled := true,
    m_allCollectionsByLabel := [("G/S", exScoped)],
    m_collectionsByFormID := [(7, "G/S")] }

/-- A game in which the player carries the identities 2, 3 and 4 and collections are
switched off. -/
def exGame : Game :=
  { LookupByID := fun id => if id = 7 then some exForm else none,
    CurrentPlayerPlace := none, PlayerPosition := ⟨0, 0, 0⟩,
    newMemberText := "added", Replace := fun text _ _ => text,
    playerInventory := some [2, 3, 4], CollectionsEnabled := false, ticksPerMilli := 1 }

/-- A manager whose last inventory snapshot is 1, 2, 3 and in which no collection claims
identity 4. -/
def exSnapshot : CollectionManager :=
  { twoClaims .GlowTarget .DoLoot with m_lastInventoryItems := [1, 2, 3] }

/-- A manager with snapshot 1, 2, 3 in which a collection claims identity 4. -/
def exSnapshotClaimed : CollectionManager :=
  { exSnapshot with m_collectionsByFormID := [(7, "G/A"), (4, "G/B")] }

/-- An observed entry for `exForm`. -/
def exEntry : CollectionEntry :=
  { form := exForm, gameTime := 5, place := none, position := ⟨0, 0, 0⟩ }

/-- A manager holding one collection that has already observed identity 7. -/
def exObserved : CollectionManager :=
  { CollectionManager.init with
    m_ready := true, m_enabled := true,
    m_allCollectionsByLabel := [("G/A", { exColl with m_observed := [(7, exEntry)] })],
    m_collectionsByFormID := [(7, "G/A")],
    m_lastInventoryItems := [7] }

/-- An ingredient with identity 8 that is not food. -/
def exPlain : TESForm :=
  { formID := 8, name := "Salt", formType := 30, keywords := [], plugin := "Skyrim.esm" }

/-- The collection `exColl` as built from its definition, before membership resolution. -/
def exFresh : Collection :=
  { exColl with m_members := [] }

/-- A catalog with two ingredients: `exForm` and `exPlain`. -/
def exCatalog : FormType → List TESForm :=
  fun formType => if formType = 30 then [exForm, exPlain] else []

/-- The manager after loading one collection definition over `exCatalog`. -/
def exLoaded : CollectionManager :=
  loaded [("G/Food", exFresh)] [("G", "G/Food")] [("G", "SHSE.Collections.G.json")]
    [("INGR", 30)] exCatalog

/-- The game `exGame` with collections switched on. -/
def exGameOn : Game :=
  { exGame with CollectionsEnabled := true }

/-- The loaded manager after a game reload and two queries, for identity 8 and then for
identity 7. -/
def exReached : CollectionManager :=
  (CollectionManager.TreatAsCollectible UpdateSpecialObjectHandling
    (CollectionManager.TreatAsCollectible UpdateSpecialObjectHandling
      (CollectionManager.OnGameReload exGameOn exLoaded)
      (ConditionMatcher.ofFormScope (some exPlain) SecondaryType.itemObjects)).2
    exQuery).2

/-- The manager with one collection definition registered, before membership
resolution. -/
def exUnresolved : CollectionManager :=
  { CollectionManager.init with m_allCollectionsByLabel := [("G/Food", exFresh)] }

/-- A filter that matches food by keyword or else tests the scope of container contents;
on food the scope condition is not reached. -/
def exScopeFilter : Condition :=
  .ConditionTree .Or 0 (.cons (.KeywordCondition [100]) (.cons (.ScopeCondition
    [SecondaryType.containers]) .nil))

/-- A catalog that lists `exPlain` before `exForm`. -/
def exScopeCatalog : FormType → List TESForm :=
  fun formType => if formType = 30 then [exPlain, exForm] else []

/-- A manager with one registered collection filtered by `exScopeFilter`, before
membership resolution. -/
def exScopeUnresolved : CollectionManager :=
  { CollectionManager.init with
    m_allCollectionsByLabel := [("G/Scoped", { exFresh with m_rootFilter := exScopeFilter })] }

/-- A stand-in for `CollectionFactory::ParseCollection`: it fails on an entry whose body
is `bad` and otherwise builds a collection described by the body of the entry. -/
def exParse (definition : Definition) : Option Collection :=
  if definition.json = "bad" then none else some { exFresh with m_description := definition.json }

/-- A valid definition file for group A. -/
def exFileA : DirectoryEntry :=
  ⟨true, "SHSE.Collections.A.json", some "A", .valid [⟨"Food", "a"⟩]⟩

/-- A valid definition file for group B. -/
def exFileB : DirectoryEntry :=
  ⟨true, "SHSE.Collections.B.json", some "B", .valid [⟨"Food", "b"⟩]⟩

/-- The loaded manager after a game reload, with identity 7 waiting in the pending queue. -/
def exQueued : CollectionManager :=
  { CollectionManager.OnGameReload exGameOn exLoaded with m_addedItemQueue := [7] }

/-- A loose object in the world: reference 100 of base object 7, owned by nobody. -/
def exRefr : TESObjectREFR :=
  { formID := 100, baseObject := 7, isProjectileArrow := false, IsOffLimits := false,
    GetOwner := none, baseKeywords := none }

/-- The same object when taking it is a crime. -/
def exOwnedRefr : TESObjectREFR := { exRefr with IsOffLimits := true }

/-- The decision object built for `exRefr` by the constructor: a single-object target
that is not being stolen. -/
def exTry : TryLootREFR := TryLootREFR.init (some exRefr) SecondaryType.itemObjects false

/-- The decision object built for `exOwnedRefr`. -/
def exOwnedTry : TryLootREFR :=
  TryLootREFR.init (some exOwnedRefr) SecondaryType.itemObjects false

/-- A context in which nothing is special about the object: a law-abiding player, no list
entries, no collection, a category set to loot with a notification, and every lock
granted. The helper predicates follow the data model: only the action Loot is lootable,
the notifying looting types require a notification, the first glow reason is kept. -/
def exLootContext : LootContext :=
  { GetObjectType := fun _ => ObjectType.other 0
    GetTypeName := fun _ => "flora"
    TreatAsCollectible := fun _ => (false, SpecialObjectHandling.DoNotLoot)
    IsQuestItem := fun _ _ => false
    IsValuable := fun _ => false
    GetItemCount := fun _ => 1
    GetLootableForProducer := fun _ => none
    SetLootableForProducer := fun _ => true
    CanLootCollectible := fun a => decide (a = SpecialObjectHandling.DoLoot)
    IsSpecialObjectLootable := fun a => decide (a = SpecialObjectHandling.DoLoot)
    LootOwnedItemIfCollectible := fun _ => false
    LootingRequiresNotification := fun t =>
      decide (t = LootingType.LootAlwaysNotify ∨ t = LootingType.LootIfValuableEnoughNotify)
    LootingDependsOnValueWeight := fun t _ =>
      decide (t = LootingType.LootIfValuableEnoughSilent ∨
        t = LootingType.LootIfValuableEnoughNotify)
    UpdateGlowReason := fun current next => if current = GlowReason.None then next else current
    BlackListContains := fun _ => false
    WhiteListContains := fun _ => false
    questObjectScope := false
    questObjectLoot := SpecialObjectHandling.DoNotLoot
    ValuableItemLoot := SpecialObjectHandling.DoNotLoot
    LootingTypeSetting := fun _ => LootingType.LootAlwaysNotify
    ManualLootTargetNotify := false
    SkipAmmoLooting := fun _ => false
    OreVeinResourceType := fun _ => 0
    IsBookGlowableKeyword := fun _ => false
    ValueWeightTooLowToLoot := fun _ _ => false
    IsPlayerInWhitelistedPlace := false
    IsPlayerInRestrictedLootSettlement := false
    IsPlayerInFriendlyCell := true
    IsItemLootableInPopulationCenter := fun _ _ => true
    BelongingsCheck := SpecialObjectHandling.DoLoot
    EffectiveOwnershipRule := OwnershipRule.other 0
    PerkIngredientMultiplier := 1
    IsPlayerOwned := fun _ => false
    LockHarvest := fun _ _ => true
    PendingHarvestNotifications := 0 }

/-- The object is on the whitelist and in a collection whose action is Loot. -/
def exWantedContext : LootContext :=
  { exLootContext with
    TreatAsCollectible := fun _ => (true, SpecialObjectHandling.DoLoot)
    WhiteListContains := fun _ => true }

/-- The object is valuable, valuable objects are not to be looted, and it is in a
collection whose action is Loot. -/
def exValuableContext : LootContext :=
  { exLootContext with
    IsValuable := fun _ => true
    TreatAsCollectible := fun _ => (true, SpecialObjectHandling.DoLoot) }

/-- As `exValuableContext`, for a player who steals when undetected. -/
def exThiefContext : LootContext :=
  { exValuableContext with EffectiveOwnershipRule := OwnershipRule.AllowCrimeIfUndetected }

/-- As `exValuableContext`, while a harvest of the same reference is in flight. -/
def exBusyValuableContext : LootContext :=
  { exValuableContext with LockHarvest := fun _ _ => false }

/-- The object is in a collection whose action is Print. -/
def exManualContext : LootContext :=
  { exLootContext with TreatAsCollectible := fun _ => (true, SpecialObjectHandling.Print) }

/-- The object is in a collection whose action is DoNotLoot. -/
def exBlacklistContext : LootContext :=
  { exLootContext with TreatAsCollectible := fun _ => (true, SpecialObjectHandling.DoNotLoot) }

/-- A harvest of the same reference is in flight. -/
def exBusyContext : LootContext :=
  { exLootContext with LockHarvest := fun _ _ => false }

/-- An arrow that was shot and lies where taking it is a crime. -/
def exArrow : TESObjectREFR :=
  { formID := 101, baseObject := 9, isProjectileArrow := true, IsOffLimits := true,
    GetOwner := none, baseKeywords := none }

/-- The object is a quest item that is not to be looted, it is on the whitelist and in a
collection whose action is Loot. -/
def exQuestContext : LootContext :=
  { exWantedContext with IsQuestItem := fun _ _ => true }

/-- The loaded manager after a game reload and two additions to the inventory: identity 7,
which a collection claims, and identity 8, which none claims. -/
def exPending : CollectionManager :=
  ((CollectionManager.OnGameReload exGameOn exLoaded).CheckEnqueueAddedItem 7).CheckEnqueueAddedItem
    8

/-- A chest, reference 300 of base object 30, that may be looted legally. -/
def exChest : TESObjectREFR :=
  { formID := 300, baseObject := 30, isProjectileArrow := false, IsOffLimits := false,
    GetOwner := none, baseKeywords := none }

/-- The decision object built for the chest `exChest`. -/
def exChestTry : TryLootREFR :=
  TryLootREFR.init (some exChest) SecondaryType.containers false

/-- The decision object built for `exChest` as a dead body. -/
def exBodyTry : TryLootREFR :=
  TryLootREFR.init (some exChest) SecondaryType.deadbodies false

/-- One item of base object 7 in a container. -/
def exItem : InventoryItem :=
  { BoundObject := some 7, LootObjectType := ObjectType.other 0, hasEnchantment := false }

/-- A container holding one lootable item, `exItem`, whose transfer takes one item and
after which one lootable item is still counted; nothing about it is special. -/
def exStuckBox : ContainerContext :=
  { lootDeadBodyExcludingArmor := false
    AnalyzeLootableItems := 1
    AnalyzeLootableItemsAgain := 1
    HasQuestItem := false
    HasEnchantedItem := false
    HasValuableItem := false
    HasCollectibleItem := false
    CollectibleAction := SpecialObjectHandling.DoNotLoot
    GetLootableItems := fun _ => [exItem]
    IsReferenceLockedContainer := fun _ => false
    IsBossContainer := fun _ => false
    lockedChestLoot := SpecialObjectHandling.DoLoot
    bossChestLoot := SpecialObjectHandling.DoLoot
    enchantItemGlow := 0
    ReferencesBlacklistedContainer := fun _ => false
    TreatAsCollectible := fun _ _ => (false, SpecialObjectHandling.DoNotLoot)
    GetObjectTypeName := fun _ => "flora"
    PlayContainerAnimation := 0
    GetTimeController := fun _ => true
    GetName := fun _ => "Wheat"
    TakeAll := fun _ _ _ _ => 1
    multiActivate := ""
    singleActivate := ""
    Replace := fun text _ _ => text }

/-- As `exStuckBox`, with nothing lootable left after the transfer. -/
def exEmptiedBox : ContainerContext :=
  { exStuckBox with AnalyzeLootableItemsAgain := 0 }

/-- As `exStuckBox`, with no item that qualifies as a target. -/
def exNoTargetBox : ContainerContext :=
  { exStuckBox with GetLootableItems := fun _ => [] }

/-! ## Lemmas on `Collection` -/

theorem observedContains_append_self (observed : List (FormID × CollectionEntry)) (id : FormID)
    (e : CollectionEntry) : observedContains (observed ++ [(id, e)]) id = true := by
  simp [observedContains]

theorem lookup_append_new (observed : List (FormID × CollectionEntry)) (id : FormID)
    (e : CollectionEntry) (h : observedContains observed id = false) :
    (observed ++ [(id, e)]).lookup id = some e := by
  induction observed with
  | nil => simp [List.lookup]
  | cons x rest ih =>
      obtain ⟨k, v⟩ := x
      simp only [observedContains, List.any_cons, Bool.or_eq_false_iff] at h
      have hk : (id == k) = false := by
        have := h.1
        simp only [beq_eq_false_iff_ne, ne_eq] at this ⊢
        exact fun hh => this hh.symm
      simp only [List.cons_append, List.lookup, hk]
      exact ih h.2

theorem Collection.RecordItem_fst (Replace : String → String → String → String)
    (newMemberText : String) (position : Position) (c : Collection) (itemID : FormID)
    (form : TESForm) (gameTime : Int) (place : Option FormID) :
    (c.RecordItem Replace newMemberText position itemID form gameTime place).1 =
      if observedContains c.m_observed itemID then c
      else { c with m_observed :=
        c.m_observed ++ [(itemID, CollectionEntry.mk form gameTime place position)] } := by
  unfold Collection.RecordItem
  dsimp only
  split_ifs <;> rfl

theorem Collection.RecordItem_observed (Replace : String → String → String → String)
    (newMemberText : String) (position : Position) (c : Collection) (itemID : FormID)
    (form : TESForm) (gameTime : Int) (place : Option FormID) :
    observedContains
      (c.RecordItem Replace newMemberText position itemID form gameTime place).1.m_observed
      itemID = true := by
  rw [Collection.RecordItem_fst]
  split_ifs with h
  · exact h
  · exact observedContains_append_self _ _ _

theorem Collection.RecordItem_frame (Replace : String → String → String → String)
    (newMemberText : String) (position : Position) (c : Collection) (itemID : FormID)
    (form : TESForm) (gameTime : Int) (place : Option FormID) :
    (c.RecordItem Replace newMemberText position itemID form gameTime place).1.m_name = c.m_name ∧
    (c.RecordItem Replace newMemberText position itemID form gameTime place).1.m_description
      = c.m_description ∧
    (c.RecordItem Replace newMemberText position itemID form gameTime place).1.m_policy
      = c.m_policy ∧
    (c.RecordItem Replace newMemberText position itemID form gameTime place).1.m_rootFilter
      = c.m_rootFilter ∧
    (c.RecordItem Replace newMemberText position itemID form gameTime place).1.m_scopes
      = c.m_scopes ∧
    (c.RecordItem Replace newMemberText position itemID form gameTime place).1.m_members
      = c.m_members := by
  rw [Collection.RecordItem_fst]
  split_ifs <;> simp

theorem Collection.RecordItem_of_observed (Replace : String → String → String → String)
    (newMemberText : String) (position : Position) (c : Collection) (itemID : FormID)
    (form : TESForm) (gameTime : Int) (place : Option FormID)
    (h : observedContains c.m_observed itemID = true) :
    c.RecordItem Replace newMemberText position itemID form gameTime place = (c, []) := by
  simp [Collection.RecordItem, h]

theorem InScopeAndCollectibleFor_of_member (c : Collection) (f : TESForm) (scope : SecondaryType)
    (seen : List SecondaryType) (hmem : f.formID ∈ c.m_members) :
    c.InScopeAndCollectibleFor ⟨some f, scope, seen⟩ = true ↔
      ¬ (c.m_scopes ≠ [] ∧ scope ∉ c.m_scopes) ∧
      ¬ (c.m_policy.m_repeat = false ∧ observedContains c.m_observed f.formID = true) := by
  have hmember : c.IsMemberOf (some f) = true := by simp [Collection.IsMemberOf, hmem]
  unfold Collection.InScopeAndCollectibleFor
  simp only [hmember, Bool.and_true]
  cases hrep : c.m_policy.m_repeat <;> cases hobs : observedContains c.m_observed f.formID <;>
    cases hsc : c.m_scopes with
    | nil => simp
    | cons a l => by_cases hin : scope ∈ a :: l <;> simp [hin]

/-! ## Collection: repeat policy, scope gate, recording -/

/-- C4: for a collection and a member identity X, after one `RecordItem(X)` a collection
with `repeat = false` answers `InScopeAndCollectibleFor(X)` with false for every scope
while `IsMemberOf(X)` is still true; with `repeat = true` the answer of
`InScopeAndCollectibleFor` to every query is the same as before `RecordItem(X)`. -/
theorem RecordItem_repeat_semantics (Replace : String → String → String → String)
    (newMemberText : String) (position : Position) (c : Collection) (form : TESForm)
    (gameTime : Int) (place : Option FormID)
    (hmember : c.IsMemberOf (some form) = true) :
    (c.m_policy.m_repeat = false →
      (∀ (scope : SecondaryType) (seen : List SecondaryType),
        (c.RecordItem Replace newMemberText position form.formID form gameTime
          place).1.InScopeAndCollectibleFor ⟨some form, scope, seen⟩ = false) ∧
      (c.RecordItem Replace newMemberText position form.formID form gameTime
        place).1.IsMemberOf (some form) = true) ∧
    (c.m_policy.m_repeat = true →
      ∀ matcher : ConditionMatcher,
        (c.RecordItem Replace newMemberText position form.formID form gameTime
          place).1.InScopeAndCollectibleFor matcher = c.InScopeAndCollectibleFor matcher) := by
  obtain ⟨-, -, hpol, -, hsc, hmem⟩ :=
    Collection.RecordItem_frame Replace newMemberText position c form.formID form gameTime place
  have hobs :=
    Collection.RecordItem_observed Replace newMemberText position c form.formID form gameTime place
  refine ⟨fun hrep => ⟨fun scope seen => ?_, ?_⟩, fun hrep matcher => ?_⟩
  · simp only [Collection.InScopeAndCollectibleFor, hpol, hrep, hobs, hsc]
    simp
  · simpa [Collection.IsMemberOf, hmem] using hmember
  · unfold Collection.InScopeAndCollectibleFor
    cases matcher.m_form with
    | none => rfl
    | some f => simp [hpol, hrep, hsc, hmem, Collection.IsMemberOf]

/-- The collect-once collection `exColl` stops offering identity 7 once it is recorded,
and still has it as a member. -/
theorem RecordItem_repeat_semantics_witness :
    exColl.IsMemberOf (some exForm) = true ∧
    (exColl.RecordItem (fun text _ _ => text) "added" ⟨0, 0, 0⟩ 7 exForm 5
      none).1.InScopeAndCollectibleFor ⟨some exForm, .containers, []⟩ = false ∧
    (exColl.RecordItem (fun text _ _ => text) "added" ⟨0, 0, 0⟩ 7 exForm 5
      none).1.IsMemberOf (some exForm) = true :=
  ⟨by decide,
   ((RecordItem_repeat_semantics (fun text _ _ => text) "added" ⟨0, 0, 0⟩ exColl exForm 5 none
      (by decide)).1 rfl).1 _ _,
   ((RecordItem_repeat_semantics (fun text _ _ => text) "added" ⟨0, 0, 0⟩ exColl exForm 5 none
      (by decide)).1 rfl).2⟩

/-- C5: a collection whose scope set is non-empty answers `InScopeAndCollectibleFor` with
false whenever the requested scope is not in the scope set, whatever the membership,
repeat policy and observed state; a collection with an empty scope set decides on
repeat, observed state and membership alone. -/
theorem InScopeAndCollectibleFor_scope_gate (c : Collection) (matcher : ConditionMatcher) :
    (c.m_scopes ≠ [] → matcher.m_scope ∉ c.m_scopes →
      c.InScopeAndCollectibleFor matcher = false) ∧
    (c.m_scopes = [] → ∀ f, matcher.m_form = some f →
      c.InScopeAndCollectibleFor matcher =
        ((c.m_policy.m_repeat || !observedContains c.m_observed f.formID)
          && c.IsMemberOf (some f))) := by
  constructor
  · intro hne hnot
    unfold Collection.InScopeAndCollectibleFor
    cases matcher.m_form with
    | none => rfl
    | some f =>
        have : c.m_scopes.isEmpty = false := by
          cases h : c.m_scopes with
          | nil => exact absurd h hne
          | cons a l => rfl
        simp [this, hnot]
  · intro hempty f hf
    unfold Collection.InScopeAndCollectibleFor
    simp [hf, hempty]

/-- The collection scoped to container contents rejects its member 7 for loose items,
and the unscoped `exColl` accepts it. -/
theorem InScopeAndCollectibleFor_scope_gate_witness :
    exScoped.IsMemberOf (some exForm) = true ∧
    exScoped.InScopeAndCollectibleFor exQuery = false ∧
    exColl.InScopeAndCollectibleFor exQuery = true :=
  ⟨by decide,
   (InScopeAndCollectibleFor_scope_gate exScoped exQuery).1 (by decide) (by decide),
   ((InScopeAndCollectibleFor_scope_gate exColl exQuery).2 rfl exForm rfl).trans (by decide)⟩

theorem LegacyCollection.RecordNewMember_recorded (Replace : String → String → String → String)
    (newMemberText : String) (c : LegacyCollection) (itemID : FormID) (form : TESForm) :
    (c.RecordNewMember Replace newMemberText itemID form).1.m_members.any
      (fun e => e.1 == itemID) = true := by
  unfold LegacyCollection.RecordNewMember
  dsimp only
  split_ifs with h <;> first | exact h | simp

/-- C7: `RecordItem` is idempotent with first-write-wins. A second `RecordItem(X)` with
another time and place returns the collection exactly as the first call left it and
shows no notification; when X was new the entry of X keeps the first time and place;
when X was already observed the first call itself changes nothing and shows nothing; a
call that shows a notification is one that newly inserts X. The earlier
`RecordNewMember` is idempotent in the same way. -/
theorem RecordItem_first_write_wins (Replace1 Replace2 : String → String → String → String)
    (text1 text2 : String) (position1 position2 : Position) (c : Collection) (X : FormID)
    (form1 form2 : TESForm) (time1 time2 : Int) (place1 place2 : Option FormID)
    (legacy : LegacyCollection) :
    ((c.RecordItem Replace1 text1 position1 X form1 time1 place1).1.RecordItem
        Replace2 text2 position2 X form2 time2 place2 =
      ((c.RecordItem Replace1 text1 position1 X form1 time1 place1).1, [])) ∧
    (observedContains c.m_observed X = false →
      ((c.RecordItem Replace1 text1 position1 X form1 time1 place1).1.RecordItem
        Replace2 text2 position2 X form2 time2 place2).1.m_observed.lookup X =
          some (CollectionEntry.mk form1 time1 place1 position1)) ∧
    (observedContains c.m_observed X = true →
      c.RecordItem Replace1 text1 position1 X form1 time1 place1 = (c, [])) ∧
    ((c.RecordItem Replace1 text1 position1 X form1 time1 place1).2 ≠ [] →
      observedContains c.m_observed X = false ∧
      (c.RecordItem Replace1 text1 position1 X form1 time1 place1).1.m_observed =
        c.m_observed ++ [(X, CollectionEntry.mk form1 time1 place1 position1)]) ∧
    ((legacy.RecordNewMember Replace1 text1 X form1).1.RecordNewMember Replace2 text2 X form2 =
      ((legacy.RecordNewMember Replace1 text1 X form1).1, [])) := by
  have hobs := Collection.RecordItem_observed Replace1 text1 position1 c X form1 time1 place1
  have hsecond := Collection.RecordItem_of_observed Replace2 text2 position2
    (c.RecordItem Replace1 text1 position1 X form1 time1 place1).1 X form2 time2 place2 hobs
  have hlegacy : (legacy.RecordNewMember Replace1 text1 X form1).1.RecordNewMember
      Replace2 text2 X form2 = ((legacy.RecordNewMember Replace1 text1 X form1).1, []) := by
    have h := LegacyCollection.RecordNewMember_recorded Replace1 text1 legacy X form1
    generalize (legacy.RecordNewMember Replace1 text1 X form1).1 = recorded at h ⊢
    unfold LegacyCollection.RecordNewMember
    rw [if_pos h]
  refine ⟨hsecond, fun hnew => ?_, fun hold => ?_, fun hnote => ?_, hlegacy⟩
  · rw [hsecond, Collection.RecordItem_fst]
    simp only [hnew, Bool.false_eq_true, if_false]
    exact lookup_append_new _ _ _ hnew
  · exact Collection.RecordItem_of_observed _ _ _ _ _ _ _ _ hold
  · cases hc : observedContains c.m_observed X with
    | true =>
        rw [Collection.RecordItem_of_observed _ _ _ _ _ _ _ _ hc] at hnote
        exact absurd rfl hnote
    | false =>
        refine ⟨rfl, ?_⟩
        rw [Collection.RecordItem_fst]
        simp [hc]

/-- Recording identity 7 in `exColl` at time 5 and again at time 9 keeps the entry of
time 5, and only the first call shows a notification. -/
theorem RecordItem_first_write_wins_witness :
    (exColl.RecordItem (fun text _ _ => text) "added" ⟨0, 0, 0⟩ 7 exForm 5 none).2 = ["added"] ∧
    ((exColl.RecordItem (fun text _ _ => text) "added" ⟨0, 0, 0⟩ 7 exForm 5 none).1.RecordItem
        (fun text _ _ => text) "added" ⟨1, 1, 1⟩ 7 exForm 9 (some 3)).2 = [] ∧
    ((exColl.RecordItem (fun text _ _ => text) "added" ⟨0, 0, 0⟩ 7 exForm 5 none).1.RecordItem
        (fun text _ _ => text) "added" ⟨1, 1, 1⟩ 7 exForm 9 (some 3)).1.m_observed.lookup 7 =
      some (CollectionEntry.mk exForm 5 none ⟨0, 0, 0⟩) :=
  ⟨by decide,
   congrArg Prod.snd (RecordItem_first_write_wins (fun text _ _ => text) (fun text _ _ => text)
      "added" "added" ⟨0, 0, 0⟩ ⟨1, 1, 1⟩ exColl 7 exForm exForm 5 9 none (some 3)
      ⟨"Food", []⟩).1,
   (RecordItem_first_write_wins (fun text _ _ => text) (fun text _ _ => text)
      "added" "added" ⟨0, 0, 0⟩ ⟨1, 1, 1⟩ exColl 7 exForm exForm 5 9 none (some 3)
      ⟨"Food", []⟩).2.1 (by decide)⟩

/-! ## Manager: the collectibility query -/

open CollectionManager

theorem treat_fold (upd : SpecialObjectHandling → SpecialObjectHandling → SpecialObjectHandling)
    (s : CollectionManager) (matcher : ConditionMatcher) (targets : List (FormID × String))
    (acc : Bool × SpecialObjectHandling) :
    targets.foldl (treatStep upd s matcher) acc =
    (acc.1 || !(targets.filterMap (fun target =>
        match s.collection target.2 with
        | none => none
        | some c =>
            if c.InScopeAndCollectibleFor matcher then some c.m_policy.m_action
            else none)).isEmpty,
      (targets.filterMap (fun target =>
        match s.collection target.2 with
        | none => none
        | some c =>
            if c.InScopeAndCollectibleFor matcher then some c.m_policy.m_action
            else none)).foldl
        (fun x a => upd a x) acc.2) := by
  induction targets generalizing acc with
  | nil => simp
  | cons t rest ih =>
      rw [List.foldl_cons, ih]
      unfold treatStep
      cases hc : s.collection t.2 with
      | none => simp [List.filterMap_cons, hc]
      | some c =>
          by_cases hin : c.InScopeAndCollectibleFor matcher = true
          · simp [List.filterMap_cons, hc, hin]
          · simp [List.filterMap_cons, hc, hin]

theorem TreatAsCollectible_fst
    (upd : SpecialObjectHandling → SpecialObjectHandling → SpecialObjectHandling)
    (s : CollectionManager) (matcher : ConditionMatcher) (f : TESForm)
    (hactive : s.IsActive = true) (hform : matcher.m_form = some f)
    (hneg : f.formID ∉ s.m_nonCollectionForms) :
    (TreatAsCollectible upd s matcher).1 =
      (!(acceptingActions s matcher f.formID).isEmpty,
        (acceptingActions s matcher f.formID).foldl (fun x a => upd a x) .DoNotLoot) := by
  unfold TreatAsCollectible
  simp only [hactive, hform, hneg, Bool.not_true, Bool.false_eq_true, if_false]
  by_cases hempty : (equal_range s.m_collectionsByFormID f.formID).isEmpty = true
  · have hnil : equal_range s.m_collectionsByFormID f.formID = [] := List.isEmpty_iff.mp hempty
    simp [hempty, acceptingActions, hnil, NotCollectible]
  · simp only [hempty, Bool.false_eq_true, if_false, treat_fold]
    simp [acceptingActions]

theorem acceptingActions_ne_nil_iff (s : CollectionManager) (matcher : ConditionMatcher)
    (id : FormID) :
    acceptingActions s matcher id ≠ [] ↔
      ∃ e ∈ s.m_collectionsByFormID, e.1 = id ∧ ∃ c, s.collection e.2 = some c ∧
        c.InScopeAndCollectibleFor matcher = true := by
  rw [← List.length_pos, List.length_pos_iff_exists_mem]
  constructor
  · rintro ⟨a, ha⟩
    simp only [acceptingActions, List.mem_filterMap, equal_range, List.mem_filter] at ha
    obtain ⟨e, ⟨hmem, hkey⟩, hsome⟩ := ha
    refine ⟨e, hmem, by simpa using hkey, ?_⟩
    cases hc : s.collection e.2 with
    | none => simp [hc] at hsome
    | some c =>
        refine ⟨c, rfl, ?_⟩
        by_contra hin
        simp [hc, hin] at hsome
  · rintro ⟨e, hmem, hkey, c, hc, hin⟩
    refine ⟨c.m_policy.m_action, ?_⟩
    simp only [acceptingActions, List.mem_filterMap, equal_range, List.mem_filter]
    exact ⟨e, ⟨hmem, by simpa using hkey⟩, by simp [hc, hin]⟩

theorem foldl_keeps_greater
    (upd : SpecialObjectHandling → SpecialObjectHandling → SpecialObjectHandling)
    (rank : SpecialObjectHandling → Nat)
    (hupd : ∀ next initial,
      (upd next initial = next ∨ upd next initial = initial) ∧
        rank next ≤ rank (upd next initial) ∧ rank initial ≤ rank (upd next initial))
    (acts : List SpecialObjectHandling) (start : SpecialObjectHandling) :
    acts.foldl (fun x a => upd a x) start ∈ start :: acts ∧
      ∀ a ∈ start :: acts, rank a ≤ rank (acts.foldl (fun x a => upd a x) start) := by
  induction acts generalizing start with
  | nil => simp
  | cons b rest ih =>
      rw [List.foldl_cons]
      obtain ⟨hmem, hmax⟩ := ih (upd b start)
      obtain ⟨hsel, hb, hs⟩ := hupd b start
      constructor
      · rcases List.mem_cons.mp hmem with h | h
        · rw [h]
          rcases hsel with h' | h'
          · rw [h']; simp
          · rw [h']; simp
        · exact List.mem_cons_of_mem _ (List.mem_cons_of_mem _ h)
      · intro a ha
        have htop := hmax (upd b start) (List.mem_cons_self _ _)
        rcases List.mem_cons.mp ha with h | h
        · rw [h]; exact le_trans hs htop
        · rcases List.mem_cons.mp h with h' | h'
          · rw [h']; exact le_trans hb htop
          · exact hmax a (List.mem_cons_of_mem _ h')

theorem twoClaims_result
    (upd : SpecialObjectHandling → SpecialObjectHandling → SpecialObjectHandling)
    (a b : SpecialObjectHandling) :
    (TreatAsCollectible upd (twoClaims a b) exQuery).1 = (true, upd b (upd a .DoNotLoot)) := by
  rfl

/-- C1 (refuted as stated): whatever the combining helper `UpdateSpecialObjectHandling`
is, `TreatAsCollectible` does not return the greater action in the order
`DoNotLoot > Print > Glow > Loot` on all of six managers in which two accepting
collections claim identity 7: with actions (Loot, Loot), (Glow, Loot), (Print, Loot),
(DoNotLoot, Loot), (Glow, DoNotLoot) and (Print, DoNotLoot) in iteration order, the claim
asks for Loot, Glow, Print, DoNotLoot, DoNotLoot and DoNotLoot. The selection starts from
`DoNotLoot`, so on `twoClaims a b` the code returns the helper applied to `b` and to the
helper's value on `a` and `DoNotLoot`, and no helper gives the six asked values. -/
theorem most_restrictive_wins_fails :
    ¬ ∃ upd : SpecialObjectHandling → SpecialObjectHandling → SpecialObjectHandling,
      (TreatAsCollectible upd (twoClaims .DoLoot .DoLoot) exQuery).1 = (true, .DoLoot) ∧
      (TreatAsCollectible upd (twoClaims .GlowTarget .DoLoot) exQuery).1 = (true, .GlowTarget) ∧
      (TreatAsCollectible upd (twoClaims .Print .DoLoot) exQuery).1 = (true, .Print) ∧
      (TreatAsCollectible upd (twoClaims .DoNotLoot .DoLoot) exQuery).1 = (true, .DoNotLoot) ∧
      (TreatAsCollectible upd (twoClaims .GlowTarget .DoNotLoot) exQuery).1 =
        (true, .DoNotLoot) ∧
      (TreatAsCollectible upd (twoClaims .Print .DoNotLoot) exQuery).1 = (true, .DoNotLoot) := by
  rintro ⟨upd, hLL, hGL, hPL, hDL, hGD, hPD⟩
  rw [twoClaims_result] at hLL hGL hPL hDL hGD hPD
  have eLL := (Prod.mk.inj hLL).2
  have eGL := (Prod.mk.inj hGL).2
  have ePL := (Prod.mk.inj hPL).2
  have eDL := (Prod.mk.inj hDL).2
  have eGD := (Prod.mk.inj hGD).2
  have ePD := (Prod.mk.inj hPD).2
  clear hLL hGL hPL hDL hGD hPD
  -- the four values the helper carries after the first collection
  cases xL : upd .DoLoot .DoNotLoot <;> cases xG : upd .GlowTarget .DoNotLoot <;>
    cases xP : upd .Print .DoNotLoot <;> cases xD : upd .DoNotLoot .DoNotLoot <;>
    simp_all

/-- C1 (amended): for an active manager and an identity that is not in the negative cache
and is accepted by at least one claiming collection, `TreatAsCollectible` answers
collectible with the accepting collections' policy actions combined in iteration order by
`UpdateSpecialObjectHandling`, starting from `DoNotLoot`, whatever that helper is. Hence,
whenever the helper returns the one of its two arguments that is greater in some fixed
order, the answer is the greatest in that order among `DoNotLoot` itself and those
collections' policy actions. -/
theorem TreatAsCollectible_selects
    (upd : SpecialObjectHandling → SpecialObjectHandling → SpecialObjectHandling)
    (s : CollectionManager) (matcher : ConditionMatcher) (f : TESForm)
    (hactive : s.IsActive = true) (hform : matcher.m_form = some f)
    (hneg : f.formID ∉ s.m_nonCollectionForms)
    (haccept : acceptingActions s matcher f.formID ≠ []) :
    (TreatAsCollectible upd s matcher).1 =
      (true, (acceptingActions s matcher f.formID).foldl (fun x a => upd a x) .DoNotLoot) ∧
    ∀ rank : SpecialObjectHandling → Nat,
      (∀ next initial,
        (upd next initial = next ∨ upd next initial = initial) ∧
          rank next ≤ rank (upd next initial) ∧ rank initial ≤ rank (upd next initial)) →
      (TreatAsCollectible upd s matcher).1.2 ∈
        SpecialObjectHandling.DoNotLoot :: acceptingActions s matcher f.formID ∧
      ∀ a ∈ SpecialObjectHandling.DoNotLoot :: acceptingActions s matcher f.formID,
        rank a ≤ rank (TreatAsCollectible upd s matcher).1.2 := by
  have hne : (!(acceptingActions s matcher f.formID).isEmpty) = true := by
    cases h : acceptingActions s matcher f.formID with
    | nil => exact absurd h haccept
    | cons a l => rfl
  have h1 := TreatAsCollectible_fst upd s matcher f hactive hform hneg
  rw [hne] at h1
  refine ⟨h1, ?_⟩
  intro rank hupd
  rw [h1]
  exact foldl_keeps_greater upd rank hupd _ _

/-- With one accepting collection of action Glow and one of action DoNotLoot the answer
is, for every helper, the helper applied to the second action and to its value on the
first action and `DoNotLoot`, in either iteration order; and for the helper that keeps the
greater action of any given ranking, the answer ranks at least as high as `DoNotLoot` and
as Glow. -/
theorem TreatAsCollectible_selects_witness :
    (∀ upd : SpecialObjectHandling → SpecialObjectHandling → SpecialObjectHandling,
      (TreatAsCollectible upd (twoClaims .GlowTarget .DoNotLoot) exQuery).1 =
        (true, upd .DoNotLoot (upd .GlowTarget .DoNotLoot))) ∧
    (∀ upd : SpecialObjectHandling → SpecialObjectHandling → SpecialObjectHandling,
      (TreatAsCollectible upd (twoClaims .DoNotLoot .GlowTarget) exQuery).1 =
        (true, upd .GlowTarget (upd .DoNotLoot .DoNotLoot))) ∧
    (∀ rank : SpecialObjectHandling → Nat,
      ∀ a ∈ [SpecialObjectHandling.DoNotLoot, .GlowTarget, .DoNotLoot],
        rank a ≤ rank (TreatAsCollectible
          (fun next initial => if rank initial ≤ rank next then next else initial)
          (twoClaims .GlowTarget .DoNotLoot) exQuery).1.2) :=
  ⟨fun upd => (TreatAsCollectible_selects upd (twoClaims .GlowTarget .DoNotLoot)
      exQuery exForm rfl rfl (by decide) (by decide)).1,
   fun upd => (TreatAsCollectible_selects upd (twoClaims .DoNotLoot .GlowTarget)
      exQuery exForm rfl rfl (by decide) (by decide)).1,
   fun rank => ((TreatAsCollectible_selects
      (fun next initial => if rank initial ≤ rank next then next else initial)
      (twoClaims .GlowTarget .DoNotLoot) exQuery exForm rfl rfl (by decide) (by decide)).2
      rank (fun next initial => by
        by_cases h : rank initial ≤ rank next
        · simp [h]
        · simp [h, Nat.le_of_lt (Nat.lt_of_not_le h)])).2⟩

/-- C2: calling `TreatAsCollectible` twice in a row with the same query returns the same
pair (isCollectible, action) both times, for every manager state and every combining
helper, also when the first call put the identity into the negative cache. -/
theorem TreatAsCollectible_idempotent
    (upd : SpecialObjectHandling → SpecialObjectHandling → SpecialObjectHandling)
    (s : CollectionManager) (matcher : ConditionMatcher) :
    (TreatAsCollectible upd (TreatAsCollectible upd s matcher).2 matcher).1 =
      (TreatAsCollectible upd s matcher).1 := by
  by_cases hactive : s.IsActive = true
  · cases hform : matcher.m_form with
    | none => simp [TreatAsCollectible, hform, hactive]
    | some f =>
        by_cases hneg : f.formID ∈ s.m_nonCollectionForms
        · simp [TreatAsCollectible, hform, hactive, hneg]
        · by_cases hempty : (equal_range s.m_collectionsByFormID f.formID).isEmpty = true
          · have h1 : TreatAsCollectible upd s matcher =
                (NotCollectible,
                  { s with m_nonCollectionForms := s.m_nonCollectionForms ++ [f.formID] }) := by
              simp [TreatAsCollectible, hform, hactive, hneg, hempty]
            rw [h1]
            have hactive2 :
                ({ s with m_nonCollectionForms := s.m_nonCollectionForms ++ [f.formID] } :
                  CollectionManager).IsActive = true := hactive
            simp [TreatAsCollectible, hform, hactive2]
          · have h1 : (TreatAsCollectible upd s matcher).2 = s := by
              simp [TreatAsCollectible, hform, hactive, hneg, hempty]
            rw [h1]
  · have h1 : TreatAsCollectible upd s matcher = (NotCollectible, s) := by
      simp [TreatAsCollectible, hactive]
    rw [h1, h1]

/-- C3: in an active manager in which every reverse-multimap entry (id, collection) has
id in the member set of that collection, `TreatAsCollectible` answers collectible exactly
when the identity is not in the negative cache and some collection claiming it is
rejected neither by the scope rule (scope set non-empty and without the requested scope)
nor by the repeat rule (repeat off and the identity already observed); an identity in the
negative cache, or one claimed by no collection, is not collectible. -/
theorem TreatAsCollectible_collectible_iff
    (upd : SpecialObjectHandling → SpecialObjectHandling → SpecialObjectHandling)
    (s : CollectionManager) (f : TESForm) (scope : SecondaryType) (seen : List SecondaryType)
    (hactive : s.IsActive = true)
    (hmembers : ∀ e ∈ s.m_collectionsByFormID,
      ∃ c, s.collection e.2 = some c ∧ e.1 ∈ c.m_members) :
    ((TreatAsCollectible upd s ⟨some f, scope, seen⟩).1.1 = true ↔
      f.formID ∉ s.m_nonCollectionForms ∧
      ∃ e ∈ s.m_collectionsByFormID, e.1 = f.formID ∧ ∃ c, s.collection e.2 = some c ∧
        ¬ (c.m_scopes ≠ [] ∧ scope ∉ c.m_scopes) ∧
        ¬ (c.m_policy.m_repeat = false ∧ observedContains c.m_observed f.formID = true)) ∧
    (f.formID ∈ s.m_nonCollectionForms →
      (TreatAsCollectible upd s ⟨some f, scope, seen⟩).1.1 = false) ∧
    (s.claims f.formID = false →
      (TreatAsCollectible upd s ⟨some f, scope, seen⟩).1.1 = false) := by
  have hiff : (TreatAsCollectible upd s ⟨some f, scope, seen⟩).1.1 = true ↔
      f.formID ∉ s.m_nonCollectionForms ∧
      ∃ e ∈ s.m_collectionsByFormID, e.1 = f.formID ∧ ∃ c, s.collection e.2 = some c ∧
        ¬ (c.m_scopes ≠ [] ∧ scope ∉ c.m_scopes) ∧
        ¬ (c.m_policy.m_repeat = false ∧ observedContains c.m_observed f.formID = true) := by
    by_cases hneg : f.formID ∈ s.m_nonCollectionForms
    · simp [TreatAsCollectible, hactive, hneg, NotCollectible]
    · rw [TreatAsCollectible_fst upd s _ f hactive rfl hneg]
      have hne := acceptingActions_ne_nil_iff s ⟨some f, scope, seen⟩ f.formID
      have h1 : (!(acceptingActions s ⟨some f, scope, seen⟩ f.formID).isEmpty) = true ↔
          acceptingActions s ⟨some f, scope, seen⟩ f.formID ≠ [] := by
        cases acceptingActions s ⟨some f, scope, seen⟩ f.formID <;> simp
      simp only [h1, hne, hneg, not_false_eq_true, true_and]
      constructor
      · rintro ⟨e, hmem, hkey, c, hc, hin⟩
        obtain ⟨c', hc', hmem'⟩ := hmembers e hmem
        rw [hc] at hc'
        cases hc'
        rw [hkey] at hmem'
        exact ⟨e, hmem, hkey, c, hc,
          (InScopeAndCollectibleFor_of_member c f scope seen hmem').mp hin⟩
      · rintro ⟨e, hmem, hkey, c, hc, hrules⟩
        obtain ⟨c', hc', hmem'⟩ := hmembers e hmem
        rw [hc] at hc'
        cases hc'
        rw [hkey] at hmem'
        exact ⟨e, hmem, hkey, c, hc,
          (InScopeAndCollectibleFor_of_member c f scope seen hmem').mpr hrules⟩
  refine ⟨hiff, fun hneg => ?_, fun hclaims => ?_⟩
  · cases h : (TreatAsCollectible upd s ⟨some f, scope, seen⟩).1.1 with
    | false => rfl
    | true => exact absurd hneg (hiff.mp h).1
  · cases h : (TreatAsCollectible upd s ⟨some f, scope, seen⟩).1.1 with
    | false => rfl
    | true =>
        obtain ⟨-, e, hmem, hkey, -⟩ := hiff.mp h
        have : s.claims f.formID = true := by
          simp only [CollectionManager.claims, List.any_eq_true]
          exact ⟨e, hmem, by simpa using hkey⟩
        rw [this] at hclaims
        cases hclaims

theorem exScopedManager_members :
    ∀ e ∈ exScopedManager.m_collectionsByFormID,
      ∃ c, exScopedManager.collection e.2 = some c ∧ e.1 ∈ c.m_members := by
  intro e he
  have : e = (7, "G/S") := by simpa [exScopedManager, CollectionManager.init] using he
  subst this
  exact ⟨exScoped, rfl, by decide⟩

/-- The manager whose one collection is scoped to container contents offers its member 7
for container contents. -/
theorem TreatAsCollectible_collectible_iff_witness :
    exScopedManager.IsActive = true ∧
    (TreatAsCollectible UpdateSpecialObjectHandling exScopedManager
      ⟨some exForm, .containers, []⟩).1.1 = true :=
  ⟨rfl,
   (TreatAsCollectible_collectible_iff UpdateSpecialObjectHandling exScopedManager exForm
      .containers [] rfl exScopedManager_members).1.mpr
     ⟨by decide, (7, "G/S"), by decide, rfl, exScoped, rfl, by decide, by decide⟩⟩

/-! ## Manager: inventory reconciliation and game reload -/

theorem reconcile_fold (s : CollectionManager) (inventory : List FormID)
    (acc : List FormID × List FormID) :
    (inventory.foldl (reconcileStep s) acc).2 =
      acc.2 ++ inventory.filter
        (fun formID => !decide (formID ∈ s.m_lastInventoryItems) && s.claims formID) ∧
    ∀ id, id ∈ (inventory.foldl (reconcileStep s) acc).1 ↔ id ∈ acc.1 ∨ id ∈ inventory := by
  induction inventory generalizing acc with
  | nil => simp
  | cons x rest ih =>
      rw [List.foldl_cons]
      obtain ⟨ih1, ih2⟩ := ih (reconcileStep s acc x)
      refine ⟨?_, fun id => ?_⟩
      · rw [ih1]
        unfold reconcileStep
        by_cases hx : (!decide (x ∈ s.m_lastInventoryItems) && s.claims x) = true
        · simp [hx, List.filter_cons]
        · simp [hx, List.filter_cons]
      · rw [ih2]
        unfold reconcileStep
        by_cases hx : (!decide (x ∈ s.m_lastInventoryItems) && s.claims x) = true <;>
          by_cases hm : x ∈ acc.1 <;> simp [hx, hm] <;> aesop

theorem ReconcileInventory_candidates (g : Game) (s : CollectionManager) (N : List FormID)
    (hplayer : g.playerInventory = some N) :
    (ReconcileInventory g s).1 =
      N.filter (fun formID => !decide (formID ∈ s.m_lastInventoryItems) && s.claims formID) := by
  unfold ReconcileInventory
  simp only [hplayer]
  rw [(reconcile_fold s N ([], [])).1]
  simp

/-- C8 (refuted as stated): with snapshot 1, 2, 3 and inventory 2, 3, 4, where no
collection claims identity 4, `ReconcileInventory` reports nothing, although 4 is in the
inventory and not in the snapshot. -/
theorem ReconcileInventory_unclaimed_not_reported :
    exGame.playerInventory = some [2, 3, 4] ∧
    exSnapshot.m_lastInventoryItems = [1, 2, 3] ∧
    (ReconcileInventory exGame exSnapshot).1 = [] ∧
    ¬ (∀ id, id ∈ (ReconcileInventory exGame exSnapshot).1 ↔
        id ∈ [2, 3, 4] ∧ id ∉ exSnapshot.m_lastInventoryItems) := by
  refine ⟨rfl, rfl, by decide, fun h => ?_⟩
  have h4 := (h 4).mpr (by decide)
  revert h4
  decide

/-- C8 (amended): when there is a player with inventory identity set N and the last
snapshot is S, `ReconcileInventory` reports exactly the identities that are in N, not in
S, and claimed by at least one collection (keys of the reverse multimap); the snapshot
becomes N. -/
theorem ReconcileInventory_reports (g : Game) (s : CollectionManager) (N : List FormID)
    (hplayer : g.playerInventory = some N) :
    (∀ id, id ∈ (ReconcileInventory g s).1 ↔
      id ∈ N ∧ id ∉ s.m_lastInventoryItems ∧ s.claims id = true) ∧
    (∀ id, id ∈ (ReconcileInventory g s).2.m_lastInventoryItems ↔ id ∈ N) := by
  refine ⟨fun id => ?_, fun id => ?_⟩
  · rw [ReconcileInventory_candidates g s N hplayer]
    simp [List.mem_filter]
  · unfold ReconcileInventory
    simp only [hplayer]
    rw [(reconcile_fold s N ([], [])).2]
    simp

/-- With snapshot 1, 2, 3 and inventory 2, 3, 4, where a collection claims identity 4,
identity 4 is reported and 2 is not. -/
theorem ReconcileInventory_reports_witness :
    exGame.playerInventory = some [2, 3, 4] ∧
    4 ∈ (ReconcileInventory exGame exSnapshotClaimed).1 ∧
    2 ∉ (ReconcileInventory exGame exSnapshotClaimed).1 :=
  ⟨rfl,
   ((ReconcileInventory_reports exGame exSnapshotClaimed [2, 3, 4] rfl).1 4).mpr (by decide),
   fun h => absurd
     (((ReconcileInventory_reports exGame exSnapshotClaimed [2, 3, 4] rfl).1 2).mp h).2.1
     (by decide)⟩

/-- C9 (refuted as stated): when the `CollectionsEnabled` setting is off, `OnGameReload`
leaves the observed map of a collection as it was; here the one collection still holds
its observed entry. -/
theorem OnGameReload_disabled_keeps_observed :
    exGame.CollectionsEnabled = false ∧
    (OnGameReload exGame exObserved).m_allCollectionsByLabel.map
      (fun e => e.2.m_observed) = [[(7, exEntry)]] := by
  decide

/-- C9 (amended): after `OnGameReload` the inventory snapshot is empty and, when
collections are enabled by the setting, every collection's observed map is empty (when
they are disabled the collections are left as they are); every collection's label, name,
description, policy, root filter, scope set and static member set, the reverse multimap,
the group index, the file map, the negative cache and the pending queue are unchanged. -/
theorem OnGameReload_effect (g : Game) (s : CollectionManager) :
    (OnGameReload g s).m_lastInventoryItems = [] ∧
    (g.CollectionsEnabled = true →
      ∀ e ∈ (OnGameReload g s).m_allCollectionsByLabel, e.2.m_observed = []) ∧
    (g.CollectionsEnabled = false →
      (OnGameReload g s).m_allCollectionsByLabel = s.m_allCollectionsByLabel) ∧
    (OnGameReload g s).m_allCollectionsByLabel.map
        (fun e => (e.1, e.2.m_name, e.2.m_description, e.2.m_policy, e.2.m_rootFilter,
          e.2.m_scopes, e.2.m_members)) =
      s.m_allCollectionsByLabel.map
        (fun e => (e.1, e.2.m_name, e.2.m_description, e.2.m_policy, e.2.m_rootFilter,
          e.2.m_scopes, e.2.m_members)) ∧
    (OnGameReload g s).m_collectionsByFormID = s.m_collectionsByFormID ∧
    (OnGameReload g s).m_collectionsByGroupName = s.m_collectionsByGroupName ∧
    (OnGameReload g s).m_fileNamesByGroupName = s.m_fileNamesByGroupName ∧
    (OnGameReload g s).m_nonCollectionForms = s.m_nonCollectionForms ∧
    (OnGameReload g s).m_addedItemQueue = s.m_addedItemQueue := by
  unfold OnGameReload
  cases hen : g.CollectionsEnabled with
  | false => simp
  | true =>
      simp only [if_true, true_implies, and_true, false_implies, true_and, List.map_map]
      refine ⟨?_, fun h => Bool.noConfusion h, ?_⟩
      · intro e he
        simp only [List.mem_map] at he
        obtain ⟨e0, -, rfl⟩ := he
        rfl
      · rfl

/-- With collections enabled, reloading the manager that had observed identity 7 empties
the observed map of its collection and the inventory snapshot. -/
theorem OnGameReload_effect_witness :
    (OnGameReload exGameOn exObserved).m_lastInventoryItems = [] ∧
    ∀ e ∈ (OnGameReload exGameOn exObserved).m_allCollectionsByLabel, e.2.m_observed = [] :=
  ⟨(OnGameReload_effect exGameOn exObserved).1,
   (OnGameReload_effect exGameOn exObserved).2.1 rfl⟩

/-! ## Manager: the reverse multimap and the negative cache -/

theorem Grows.refl (s : CollectionManager) : Grows s s :=
  ⟨rfl, fun _ h => h, fun _ h => Or.inl h⟩

theorem Grows.of_eq (s s' : CollectionManager)
    (h1 : s'.m_collectionsByFormID = s.m_collectionsByFormID)
    (h2 : s'.m_nonCollectionForms = s.m_nonCollectionForms) : Grows s s' :=
  ⟨h1, fun _ h => h2 ▸ h, fun _ h => Or.inl (h2 ▸ h)⟩

theorem Grows.trans {s1 s2 s3 : CollectionManager} (h12 : Grows s1 s2) (h23 : Grows s2 s3) :
    Grows s1 s3 := by
  obtain ⟨a1, b1, c1⟩ := h12
  obtain ⟨a2, b2, c2⟩ := h23
  refine ⟨a2.trans a1, fun id h => b2 id (b1 id h), fun id h => ?_⟩
  rcases c2 id h with h' | h'
  · exact c1 id h'
  · right
    simpa [CollectionManager.claims, a1] using h'

theorem claims_eq_of_multimap_eq {s s' : CollectionManager}
    (h : s'.m_collectionsByFormID = s.m_collectionsByFormID) (id : FormID) :
    s'.claims id = s.claims id := by
  simp [CollectionManager.claims, h]

theorem equal_range_isEmpty (s : CollectionManager) (id : FormID) :
    (equal_range s.m_collectionsByFormID id).isEmpty = !s.claims id := by
  unfold equal_range CollectionManager.claims
  induction s.m_collectionsByFormID with
  | nil => rfl
  | cons e rest ih =>
      by_cases h : (e.1 == id) = true
      · simp [List.filter_cons, h]
      · simp only [List.filter_cons, h, Bool.false_eq_true, if_false, List.any_cons, Bool.false_or]
        exact ih

theorem TreatAsCollectible_grows
    (upd : SpecialObjectHandling → SpecialObjectHandling → SpecialObjectHandling)
    (s : CollectionManager) (matcher : ConditionMatcher) :
    Grows s (TreatAsCollectible upd s matcher).2 ∧
    ∀ id ∈ queried s matcher,
      s.claims id = true ∨ id ∈ (TreatAsCollectible upd s matcher).2.m_nonCollectionForms := by
  unfold TreatAsCollectible queried
  by_cases hactive : s.IsActive = true
  · cases hform : matcher.m_form with
    | none => simpa [hactive] using Grows.refl s
    | some f =>
        by_cases hneg : f.formID ∈ s.m_nonCollectionForms
        · simpa [hactive, hneg] using Grows.refl s
        · by_cases hclaims : s.claims f.formID = true
          · simpa [hactive, hneg, equal_range_isEmpty, hclaims] using Grows.refl s
          · simp only [hactive, hneg, equal_range_isEmpty, hclaims, Bool.not_true,
              Bool.false_eq_true, if_false, Bool.not_false, if_true, List.mem_singleton,
              forall_eq, false_or]
            refine ⟨⟨rfl, fun id h => List.mem_append_left _ h, fun id h => ?_⟩, by simp⟩
            simp only [List.mem_append, List.mem_singleton] at h
            rcases h with h | h
            · exact Or.inl h
            · right
              rw [h]
              simpa using hclaims
  · simpa [hactive] using Grows.refl s


theorem CheckEnqueueAddedItem_grows (s : CollectionManager) (formID : FormID) :
    Grows s (s.CheckEnqueueAddedItem formID) := by
  unfold CheckEnqueueAddedItem EnqueueAddedItem
  split_ifs <;> exact Grows.of_eq _ _ rfl rfl

theorem OnGameReload_grows (g : Game) (s : CollectionManager) : Grows s (OnGameReload g s) := by
  unfold OnGameReload
  dsimp only
  split_ifs <;> exact Grows.of_eq _ _ rfl rfl

theorem recordStep_index (g : Game) (itemID : FormID) (form : TESForm)
    (acc : CollectionManager × List String) (target : FormID × String) :
    (recordStep g itemID form acc target).1.m_collectionsByFormID = acc.1.m_collectionsByFormID ∧
    (recordStep g itemID form acc target).1.m_nonCollectionForms = acc.1.m_nonCollectionForms ∧
    (recordStep g itemID form acc target).1.m_addedItemQueue = acc.1.m_addedItemQueue := by
  unfold recordStep
  cases acc.1.collection target.2 with
  | none => exact ⟨rfl, rfl, rfl⟩
  | some c =>
      dsimp only
      split_ifs <;> exact ⟨rfl, rfl, rfl⟩

theorem recordFold_index (g : Game) (itemID : FormID) (form : TESForm)
    (targets : List (FormID × String)) (acc : CollectionManager × List String) :
    (targets.foldl (recordStep g itemID form) acc).1.m_collectionsByFormID
      = acc.1.m_collectionsByFormID ∧
    (targets.foldl (recordStep g itemID form) acc).1.m_nonCollectionForms
      = acc.1.m_nonCollectionForms ∧
    (targets.foldl (recordStep g itemID form) acc).1.m_addedItemQueue
      = acc.1.m_addedItemQueue := by
  induction targets generalizing acc with
  | nil => exact ⟨rfl, rfl, rfl⟩
  | cons t rest ih =>
      rw [List.foldl_cons]
      obtain ⟨h1, h2, h3⟩ := ih (recordStep g itemID form acc t)
      obtain ⟨k1, k2, k3⟩ := recordStep_index g itemID form acc t
      exact ⟨h1.trans k1, h2.trans k2, h3.trans k3⟩

theorem AddToRelevantCollections_index (g : Game) (s : CollectionManager) (itemID : FormID) :
    (AddToRelevantCollections g s itemID).1.m_collectionsByFormID = s.m_collectionsByFormID ∧
    (AddToRelevantCollections g s itemID).1.m_nonCollectionForms = s.m_nonCollectionForms ∧
    (AddToRelevantCollections g s itemID).1.m_addedItemQueue = s.m_addedItemQueue := by
  unfold AddToRelevantCollections
  cases g.LookupByID itemID with
  | none => exact ⟨rfl, rfl, rfl⟩
  | some form => exact recordFold_index g itemID form _ (s, [])

theorem processStep_grows (g : Game) (acc : CollectionManager × List String) (formID : FormID) :
    Grows acc.1 (processStep g acc formID).1 := by
  unfold processStep
  by_cases hclaims : acc.1.claims formID = true
  · simp only [hclaims, if_true]
    obtain ⟨h1, h2, -⟩ := AddToRelevantCollections_index g acc.1 formID
    exact Grows.of_eq _ _ h1 h2
  · simp only [hclaims, Bool.false_eq_true, if_false]
    split_ifs with hneg
    · exact Grows.refl _
    · refine ⟨rfl, fun id h => List.mem_append_left _ h, fun id h => ?_⟩
      simp only [List.mem_append, List.mem_singleton] at h
      rcases h with h | h
      · exact Or.inl h
      · right
        rw [h]
        simpa using hclaims

theorem processFold_grows (g : Game) (queuedItems : List FormID)
    (acc : CollectionManager × List String) :
    Grows acc.1 (queuedItems.foldl (processStep g) acc).1 := by
  induction queuedItems generalizing acc with
  | nil => exact Grows.refl _
  | cons x rest ih =>
      rw [List.foldl_cons]
      exact (processStep_grows g acc x).trans (ih _)

theorem ReconcileInventory_index (g : Game) (s : CollectionManager) :
    (ReconcileInventory g s).2.m_collectionsByFormID = s.m_collectionsByFormID ∧
    (ReconcileInventory g s).2.m_nonCollectionForms = s.m_nonCollectionForms := by
  unfold ReconcileInventory
  cases g.playerInventory with
  | none => exact ⟨rfl, rfl⟩
  | some inventory => exact ⟨rfl, rfl⟩

theorem ProcessAddedItems_grows (g : Game) (nowTime : Int) (s : CollectionManager) :
    Grows s (ProcessAddedItems g nowTime s).1 := by
  unfold ProcessAddedItems
  by_cases hactive : s.IsActive = true
  · simp only [hactive, Bool.not_true, Bool.false_eq_true, if_false]
    refine Grows.trans ?_ (processFold_grows g _ _)
    dsimp only
    obtain ⟨h1, h2⟩ := ReconcileInventory_index g { s with m_lastInventoryCheck := nowTime }
    split_ifs
    · exact Grows.of_eq _ _ h1 h2
    · exact Grows.of_eq _ _ h1 h2
    · exact Grows.refl _
  · simpa [hactive] using Grows.refl s

theorem resolveForm_negative (form : TESForm) (s : CollectionManager) :
    (resolveForm form s).m_nonCollectionForms = s.m_nonCollectionForms := rfl

theorem ResolveMembership_negative (ValidSignatures : List (String × FormType))
    (GetFormArray : FormType → List TESForm) (s : CollectionManager) :
    (ResolveMembership ValidSignatures GetFormArray s).m_nonCollectionForms =
      s.m_nonCollectionForms := by
  unfold ResolveMembership
  induction ValidSignatures generalizing s with
  | nil => rfl
  | cons sig rest ih =>
      rw [List.foldl_cons, ih]
      generalize GetFormArray sig.2 = forms
      induction forms generalizing s with
      | nil => rfl
      | cons f fs ihf => rw [List.foldl_cons, ihf, resolveForm_negative]

/-- C6: in every manager state reachable after membership resolution through
`TreatAsCollectible`, `CheckEnqueueAddedItem`, `ProcessAddedItems` and `OnGameReload`, no
identity is both a key of the reverse multimap and an element of the negative cache, and
every identity that has been passed to `TreatAsCollectible` on an active manager is in
exactly one of the two. -/
theorem index_and_negative_cache_partition
    (upd : SpecialObjectHandling → SpecialObjectHandling → SpecialObjectHandling)
    (s : CollectionManager) (q : List FormID) (hreach : Reachable upd s q) :
    (∀ id, ¬ (s.claims id = true ∧ id ∈ s.m_nonCollectionForms)) ∧
    (∀ id ∈ q, (s.claims id = true ∨ id ∈ s.m_nonCollectionForms) ∧
      ¬ (s.claims id = true ∧ id ∈ s.m_nonCollectionForms)) := by
  have step : ∀ (s s' : CollectionManager) (q extra : List FormID), Grows s s' →
      (∀ id ∈ extra, s.claims id = true ∨ id ∈ s'.m_nonCollectionForms) →
      ((∀ id, ¬ (s.claims id = true ∧ id ∈ s.m_nonCollectionForms)) ∧
        (∀ id ∈ q, (s.claims id = true ∨ id ∈ s.m_nonCollectionForms) ∧
          ¬ (s.claims id = true ∧ id ∈ s.m_nonCollectionForms))) →
      ((∀ id, ¬ (s'.claims id = true ∧ id ∈ s'.m_nonCollectionForms)) ∧
        (∀ id ∈ extra ++ q, (s'.claims id = true ∨ id ∈ s'.m_nonCollectionForms) ∧
          ¬ (s'.claims id = true ∧ id ∈ s'.m_nonCollectionForms))) := by
    intro s s' q extra hgrow hextra ⟨hdisj, hlog⟩
    obtain ⟨hmm, hmono, hnew⟩ := hgrow
    have hclaims : ∀ id, s'.claims id = s.claims id := claims_eq_of_multimap_eq hmm
    have hdisj' : ∀ id, ¬ (s'.claims id = true ∧ id ∈ s'.m_nonCollectionForms) := by
      rintro id ⟨hc, hn⟩
      rw [hclaims] at hc
      rcases hnew id hn with h | h
      · exact hdisj id ⟨hc, h⟩
      · rw [h] at hc
        cases hc
    refine ⟨hdisj', fun id hid => ⟨?_, hdisj' id⟩⟩
    rw [hclaims]
    rcases List.mem_append.mp hid with h | h
    · exact hextra id h
    · rcases (hlog id h).1 with h' | h'
      · exact Or.inl h'
      · exact Or.inr (hmono id h')
  induction hreach with
  | resolved registry groups files sigs arr =>
      have hneg : (loaded registry groups files sigs arr).m_nonCollectionForms = [] := by
        unfold loaded
        exact ResolveMembership_negative sigs arr _
      refine ⟨fun id h => ?_, fun id h => ?_⟩
      · rw [hneg] at h
        exact absurd h.2 (List.not_mem_nil _)
      · exact absurd h (List.not_mem_nil _)
  | treat s q matcher _ ih =>
      exact step s _ q _ (TreatAsCollectible_grows upd s matcher).1
        (TreatAsCollectible_grows upd s matcher).2 ih
  | enqueue s q formID _ ih =>
      exact step s _ q [] (CheckEnqueueAddedItem_grows s formID)
        (fun id h => absurd h (List.not_mem_nil _)) ih
  | process s q g nowTime _ ih =>
      exact step s _ q [] (ProcessAddedItems_grows g nowTime s)
        (fun id h => absurd h (List.not_mem_nil _)) ih
  | reload s q g _ ih =>
      exact step s _ q [] (OnGameReload_grows g s)
        (fun id h => absurd h (List.not_mem_nil _)) ih

/-- After a reload and queries for the identities 8 and 7, each of the two is either a
key of the reverse multimap or in the negative cache, and not both. -/
theorem index_and_negative_cache_partition_witness :
    Reachable UpdateSpecialObjectHandling exReached [7, 8] ∧
    ∀ id ∈ [7, 8],
      (exReached.claims id = true ∨ id ∈ exReached.m_nonCollectionForms) ∧
      ¬ (exReached.claims id = true ∧ id ∈ exReached.m_nonCollectionForms) :=
  have hreach : Reachable UpdateSpecialObjectHandling exReached [7, 8] :=
    Reachable.treat _ [8] exQuery
      (Reachable.treat _ [] (ConditionMatcher.ofFormScope (some exPlain) SecondaryType.itemObjects)
        (Reachable.reload _ [] exGameOn
          (Reachable.resolved [("G/Food", exFresh)] [("G", "G/Food")]
            [("G", "SHSE.Collections.G.json")] [("INGR", 30)] exCatalog)))
  ⟨hreach,
   (index_and_negative_cache_partition UpdateSpecialObjectHandling exReached [7, 8] hreach).2⟩

/-! ## Manager: membership resolution -/

theorem MatchesFilter_fst (c : Collection) (form : TESForm) :
    (c.MatchesFilter (ConditionMatcher.ofForm form)).1 = filterMatches c form := by
  unfold Collection.MatchesFilter filterMatches ConditionMatcher.ofForm
  dsimp only
  split_ifs with h
  · exact h.symm
  · simpa using h

theorem AddMemberID_members (c : Collection) (form : TESForm) :
    (c.AddMemberID (some form)).2.m_members =
      if form.formID ∈ c.m_members then c.m_members else c.m_members ++ [form.formID] := by
  unfold Collection.AddMemberID
  dsimp only
  split_ifs <;> rfl

theorem AddMemberID_rootFilter (c : Collection) (form : TESForm) :
    (c.AddMemberID (some form)).2.m_rootFilter = c.m_rootFilter := by
  unfold Collection.AddMemberID
  dsimp only
  split_ifs <;> rfl

theorem resolveCollection_rootFilter (form : TESForm) (c : Collection) :
    (resolveCollection form c).m_rootFilter = c.m_rootFilter := by
  unfold resolveCollection
  rw [MatchesFilter_fst]
  unfold Collection.MatchesFilter ConditionMatcher.ofForm
  dsimp only
  by_cases h : filterMatches c form = true
  · have h' : (c.m_rootFilter.eval ⟨some form, SecondaryType.NONE2, []⟩).1 = true := h
    simp only [h, h', if_true, AddMemberID_rootFilter, Collection.SetScopes]
  · have h' : ¬ (c.m_rootFilter.eval ⟨some form, SecondaryType.NONE2, []⟩).1 = true := h
    simp only [h, h', if_false, Bool.false_eq_true]

theorem resolveCollection_members (form : TESForm) (c : Collection) :
    (resolveCollection form c).m_members =
      if filterMatches c form = true ∧ form.formID ∉ c.m_members then c.m_members ++ [form.formID]
      else c.m_members := by
  unfold resolveCollection
  rw [MatchesFilter_fst]
  unfold Collection.MatchesFilter ConditionMatcher.ofForm
  dsimp only
  by_cases h : filterMatches c form = true
  · have h' : (c.m_rootFilter.eval ⟨some form, SecondaryType.NONE2, []⟩).1 = true := h
    simp only [h, h', if_true, true_and, AddMemberID_members, Collection.SetScopes]
    by_cases hm : form.formID ∈ c.m_members
    · simp [hm]
    · simp [hm]
  · have h' : ¬ (c.m_rootFilter.eval ⟨some form, SecondaryType.NONE2, []⟩).1 = true := h
    simp only [h, h', if_false, Bool.false_eq_true, false_and]

theorem resolveFold (form : TESForm) (entries : List (String × Collection))
    (acc : List (String × Collection) × List (FormID × String)) :
    entries.foldl (resolveStep form) acc =
      (acc.1 ++ entries.map (fun e => (e.1, resolveCollection form e.2)),
        acc.2 ++ (entries.filter (fun e => filterMatches e.2 form)).map
          (fun e => (form.formID, e.1))) := by
  induction entries generalizing acc with
  | nil => simp
  | cons e rest ih =>
      rw [List.foldl_cons, ih]
      unfold resolveStep resolveCollection
      simp only [MatchesFilter_fst]
      by_cases h : filterMatches e.2 form = true
      · simp [h, List.filter_cons]
      · simp [h, List.filter_cons]


theorem filterMatches_congr {c c' : Collection} (h : c'.m_rootFilter = c.m_rootFilter)
    (form : TESForm) : filterMatches c' form = filterMatches c form := by
  unfold filterMatches
  rw [h]

theorem resolveAll_rootFilter (forms : List TESForm) (c : Collection) :
    (resolveAll forms c).m_rootFilter = c.m_rootFilter := by
  unfold resolveAll
  induction forms generalizing c with
  | nil => rfl
  | cons f rest ih => rw [List.foldl_cons, ih, resolveCollection_rootFilter]

theorem resolveForm_eq (form : TESForm) (s : CollectionManager) :
    resolveForm form s =
      { s with
        m_allCollectionsByLabel :=
          s.m_allCollectionsByLabel.map (fun e => (e.1, resolveCollection form e.2)),
        m_collectionsByFormID :=
          s.m_collectionsByFormID ++
            (s.m_allCollectionsByLabel.filter (fun e => filterMatches e.2 form)).map
              (fun e => (form.formID, e.1)) } := by
  unfold resolveForm
  rw [resolveFold]
  simp

theorem resolveForms (forms : List TESForm) (s : CollectionManager) :
    (forms.foldl (fun s form => resolveForm form s) s).m_allCollectionsByLabel =
      s.m_allCollectionsByLabel.map (fun e => (e.1, resolveAll forms e.2)) ∧
    (forms.foldl (fun s form => resolveForm form s) s).m_collectionsByFormID =
      s.m_collectionsByFormID ++ forms.flatMap (fun form =>
        (s.m_allCollectionsByLabel.filter (fun e => filterMatches e.2 form)).map
          (fun e => (form.formID, e.1))) := by
  induction forms generalizing s with
  | nil => simp [resolveAll]
  | cons f rest ih =>
      rw [List.foldl_cons]
      obtain ⟨ih1, ih2⟩ := ih (resolveForm f s)
      rw [ih1, ih2, resolveForm_eq]
      dsimp only
      refine ⟨?_, ?_⟩
      · rw [List.map_map]
        rfl
      · rw [List.flatMap_cons, List.append_assoc]
        congr 2
        refine List.flatMap_congr ?_
        intro f' _
        rw [List.filter_map, List.map_map]
        congr 1
        · apply List.filter_congr
          intro e _
          exact filterMatches_congr (resolveCollection_rootFilter f e.2) f'


theorem ResolveMembership_eq (ValidSignatures : List (String × FormType))
    (GetFormArray : FormType → List TESForm) (s : CollectionManager) :
    ResolveMembership ValidSignatures GetFormArray s =
      (catalog ValidSignatures GetFormArray).foldl (fun s form => resolveForm form s) s := by
  unfold ResolveMembership catalog
  induction ValidSignatures generalizing s with
  | nil => rfl
  | cons sig rest ih => rw [List.foldl_cons, ih, List.flatMap_cons, List.foldl_append]

theorem resolveAll_members (forms : List TESForm) (c : Collection)
    (hnodup : (c.m_members ++ forms.map (fun form => form.formID)).Nodup) :
    (resolveAll forms c).m_members =
      c.m_members ++ (forms.filter (fun form => filterMatches c form)).map
        (fun form => form.formID) := by
  induction forms generalizing c with
  | nil => simp [resolveAll]
  | cons f rest ih =>
      have hnot : f.formID ∉ c.m_members := by
        intro hmem
        have := (List.nodup_append.mp hnodup).2.2
        exact this hmem (by simp)
      have hmembers : (resolveCollection f c).m_members =
          if filterMatches c f = true then c.m_members ++ [f.formID] else c.m_members := by
        rw [resolveCollection_members]
        simp [hnot]
      have hnodup' : ((resolveCollection f c).m_members ++
          rest.map (fun form => form.formID)).Nodup := by
        rw [hmembers]
        split_ifs
        · simpa [List.append_assoc] using hnodup
        · rw [List.map_cons] at hnodup
          exact hnodup.sublist
            (List.Sublist.append (List.Sublist.refl _) (List.sublist_cons_self _ _))
      have hstep : resolveAll (f :: rest) c = resolveAll rest (resolveCollection f c) := rfl
      rw [hstep, ih _ hnodup', hmembers]
      have hcongr : (rest.filter (fun form => filterMatches (resolveCollection f c) form)) =
          rest.filter (fun form => filterMatches c form) := by
        apply List.filter_congr
        intro form _
        exact filterMatches_congr (resolveCollection_rootFilter f c) form
      rw [hcongr]
      by_cases hm : filterMatches c f = true
      · simp [hm, List.filter_cons]
      · simp [hm, List.filter_cons]

/-- C10: after membership resolution over a catalog of forms with pairwise distinct
identities, run on a registry with distinct labels whose collections have no members yet
and an empty reverse multimap, for every collection c and every catalog form f of an
eligible type: the identity of f is in the member set of c if and only if the root filter
of c matches f, and if and only if the reverse multimap holds an entry (identity of f,
c); the member count of c equals the number of eligible catalog forms its root filter
matches. -/
theorem ResolveMembership_members (ValidSignatures : List (String × FormType))
    (GetFormArray : FormType → List TESForm) (s : CollectionManager)
    (hlabels : (s.m_allCollectionsByLabel.map (fun e => e.1)).Nodup)
    (hfresh : ∀ e ∈ s.m_allCollectionsByLabel, e.2.m_members = [])
    (hindex : s.m_collectionsByFormID = [])
    (hids : ((catalog ValidSignatures GetFormArray).map (fun form => form.formID)).Nodup) :
    ∀ e ∈ (ResolveMembership ValidSignatures GetFormArray s).m_allCollectionsByLabel,
      (∀ f ∈ catalog ValidSignatures GetFormArray,
        (f.formID ∈ e.2.m_members ↔ filterMatches e.2 f = true) ∧
        (filterMatches e.2 f = true ↔
          (f.formID, e.1) ∈
            (ResolveMembership ValidSignatures GetFormArray s).m_collectionsByFormID)) ∧
      e.2.m_members.length =
        ((catalog ValidSignatures GetFormArray).filter (fun f => filterMatches e.2 f)).length := by
  intro e he
  rw [ResolveMembership_eq] at he ⊢
  obtain ⟨hreg, hmm⟩ := resolveForms (catalog ValidSignatures GetFormArray) s
  rw [hreg] at he
  rw [hmm, hindex, List.nil_append]
  obtain ⟨e0, he0, rfl⟩ := List.mem_map.mp he
  dsimp only
  have hfilter : ∀ f, filterMatches (resolveAll (catalog ValidSignatures GetFormArray) e0.2) f =
      filterMatches e0.2 f :=
    fun f => filterMatches_congr (resolveAll_rootFilter _ _) f
  have hmembers := resolveAll_members (catalog ValidSignatures GetFormArray) e0.2
    (by rw [hfresh e0 he0, List.nil_append]; exact hids)
  rw [hfresh e0 he0, List.nil_append] at hmembers
  have hinj := List.inj_on_of_nodup_map hids
  have hlabel : ∀ e1 ∈ s.m_allCollectionsByLabel, e1.1 = e0.1 → e1 = e0 :=
    fun e1 he1 h => List.inj_on_of_nodup_map hlabels he1 he0 h
  refine ⟨fun f hf => ⟨?_, ?_⟩, ?_⟩
  · rw [hmembers, hfilter]
    simp only [List.mem_map, List.mem_filter]
    constructor
    · rintro ⟨f', ⟨hf', hmatch⟩, hid⟩
      rw [← hinj hf' hf hid]
      exact hmatch
    · intro hmatch
      exact ⟨f, ⟨hf, hmatch⟩, rfl⟩
  · rw [hfilter]
    simp only [List.mem_flatMap, List.mem_map, List.mem_filter, Prod.mk.injEq]
    constructor
    · intro hmatch
      exact ⟨f, hf, e0, ⟨he0, hmatch⟩, rfl, rfl⟩
    · rintro ⟨f', hf', e1, ⟨he1, hmatch⟩, hid, hlab⟩
      rw [← hinj hf' hf hid, ← hlabel e1 he1 hlab]
      exact hmatch
  · rw [hmembers, List.length_map]
    congr 1
    apply List.filter_congr
    intro f _
    exact (hfilter f).symm

theorem exUnresolved_fresh : ∀ e ∈ exUnresolved.m_allCollectionsByLabel, e.2.m_members = [] := by
  intro e he
  have : e = ("G/Food", exFresh) := by
    simpa [exUnresolved, CollectionManager.init] using he
  subst this
  rfl

/-- Over a catalog with one food ingredient and one other ingredient, the collection with
root filter `signature = [Ingredient] AND keyword = [IsFood]` ends with member count 1. -/
theorem ResolveMembership_members_witness :
    (ResolveMembership [("INGR", 30)] exCatalog exUnresolved).m_allCollectionsByLabel.map
      (fun e => (e.1, e.2.m_members.length)) = [("G/Food", 1)] ∧
    ∀ e ∈ (ResolveMembership [("INGR", 30)] exCatalog exUnresolved).m_allCollectionsByLabel,
      (∀ f ∈ catalog [("INGR", 30)] exCatalog,
        (f.formID ∈ e.2.m_members ↔ filterMatches e.2 f = true) ∧
        (filterMatches e.2 f = true ↔
          (f.formID, e.1) ∈
            (ResolveMembership [("INGR", 30)] exCatalog exUnresolved).m_collectionsByFormID)) ∧
      e.2.m_members.length =
        ((catalog [("INGR", 30)] exCatalog).filter (fun f => filterMatches e.2 f)).length :=
  ⟨by decide,
   ResolveMembership_members [("INGR", 30)] exCatalog exUnresolved (by decide)
     exUnresolved_fresh rfl (by decide)⟩

/-! ## Membership resolution: scopes -/

theorem SetScopes_mem (c : Collection) (scopes : List SecondaryType) (scope : SecondaryType) :
    scope ∈ (c.SetScopes scopes).m_scopes ↔ scope ∈ c.m_scopes ∨ scope ∈ scopes := by
  unfold Collection.SetScopes
  simp only [List.mem_append, List.mem_filter]
  by_cases h : scope ∈ c.m_scopes <;> simp [h]

theorem AddMemberID_scopes (c : Collection) (form : TESForm) :
    (c.AddMemberID (some form)).2.m_scopes = c.m_scopes := by
  unfold Collection.AddMemberID
  dsimp only
  split_ifs <;> rfl

theorem resolveCollection_scopes (form : TESForm) (c : Collection) (scope : SecondaryType) :
    scope ∈ (resolveCollection form c).m_scopes ↔
      scope ∈ c.m_scopes ∨ (filterMatches c form = true ∧ scope ∈ scopesSeenFor c form) := by
  unfold resolveCollection
  rw [MatchesFilter_fst]
  unfold Collection.MatchesFilter ConditionMatcher.ofForm scopesSeenFor
  dsimp only
  by_cases h : filterMatches c form = true
  · have h' : (c.m_rootFilter.eval ⟨some form, SecondaryType.NONE2, []⟩).1 = true := h
    simp only [h, h', if_true, true_and, AddMemberID_scopes, SetScopes_mem]
    rfl
  · have h' : ¬ (c.m_rootFilter.eval ⟨some form, SecondaryType.NONE2, []⟩).1 = true := h
    simp only [h, h', if_false, Bool.false_eq_true, false_and, or_false]

theorem resolveAll_scopes (forms : List TESForm) (c : Collection) (scope : SecondaryType) :
    scope ∈ (resolveAll forms c).m_scopes ↔
      scope ∈ c.m_scopes ∨
        ∃ form ∈ forms, filterMatches c form = true ∧ scope ∈ scopesSeenFor c form := by
  induction forms generalizing c with
  | nil => simp [resolveAll]
  | cons f rest ih =>
      have hstep : resolveAll (f :: rest) c = resolveAll rest (resolveCollection f c) := rfl
      have hroot := resolveCollection_rootFilter f c
      have hseen : ∀ form, scopesSeenFor (resolveCollection f c) form = scopesSeenFor c form := by
        intro form
        unfold scopesSeenFor
        rw [hroot]
      rw [hstep, ih, resolveCollection_scopes]
      simp only [filterMatches_congr hroot, hseen, List.mem_cons, exists_eq_or_imp]
      tauto

/-- C11: after membership resolution each collection is what the resolution loop makes
of it over the whole catalog, and its scope set contains every scope tag recorded on the
match context (`ScopesSeen`) during the evaluation of any catalog form that matched it;
scopes are merged: resolving one more form never removes a scope learned from the forms
before it. -/
theorem ResolveMembership_scopes (ValidSignatures : List (String × FormType))
    (GetFormArray : FormType → List TESForm) (s : CollectionManager) :
    (ResolveMembership ValidSignatures GetFormArray s).m_allCollectionsByLabel =
      s.m_allCollectionsByLabel.map
        (fun e => (e.1, resolveAll (catalog ValidSignatures GetFormArray) e.2)) ∧
    (∀ e ∈ (ResolveMembership ValidSignatures GetFormArray s).m_allCollectionsByLabel,
      ∀ f ∈ catalog ValidSignatures GetFormArray, filterMatches e.2 f = true →
        ∀ scope ∈ scopesSeenFor e.2 f, scope ∈ e.2.m_scopes) ∧
    (∀ (later : TESForm) (earlier : List TESForm) (c : Collection),
      ∀ scope ∈ (resolveAll earlier c).m_scopes,
        scope ∈ (resolveAll (earlier ++ [later]) c).m_scopes) := by
  have hreg : (ResolveMembership ValidSignatures GetFormArray s).m_allCollectionsByLabel =
      s.m_allCollectionsByLabel.map
        (fun e => (e.1, resolveAll (catalog ValidSignatures GetFormArray) e.2)) := by
    rw [ResolveMembership_eq]
    exact (resolveForms _ s).1
  refine ⟨hreg, ?_, ?_⟩
  · intro e he f hf hmatch scope hscope
    rw [hreg] at he
    obtain ⟨e0, -, rfl⟩ := List.mem_map.mp he
    dsimp only at hmatch hscope ⊢
    have hroot := resolveAll_rootFilter (catalog ValidSignatures GetFormArray) e0.2
    rw [filterMatches_congr hroot] at hmatch
    have hseen : scopesSeenFor (resolveAll (catalog ValidSignatures GetFormArray) e0.2) f =
        scopesSeenFor e0.2 f := by
      unfold scopesSeenFor
      rw [hroot]
    rw [hseen] at hscope
    exact (resolveAll_scopes _ _ _).mpr (Or.inr ⟨f, hf, hmatch, hscope⟩)
  · intro later earlier c scope hscope
    have happ : resolveAll (earlier ++ [later]) c = resolveCollection later (resolveAll earlier c) := by
      unfold resolveAll
      rw [List.foldl_append]
      rfl
    rw [happ, resolveCollection_scopes]
    exact Or.inl hscope

/-- The collection filtered by `exScopeFilter` learns the scope of container contents from
`exPlain` and keeps it although the later match `exForm` records no scope. -/
theorem ResolveMembership_scopes_witness :
    scopesSeenFor { exFresh with m_rootFilter := exScopeFilter } exPlain
      = [SecondaryType.containers] ∧
    scopesSeenFor { exFresh with m_rootFilter := exScopeFilter } exForm = [] ∧
    (ResolveMembership [("INGR", 30)] exScopeCatalog exScopeUnresolved).m_allCollectionsByLabel.map
      (fun e => (e.1, e.2.m_members, e.2.m_scopes)) =
        [("G/Scoped", [8, 7], [SecondaryType.containers])] ∧
    ∀ e ∈ (ResolveMembership [("INGR", 30)] exScopeCatalog
        exScopeUnresolved).m_allCollectionsByLabel,
      ∀ f ∈ catalog [("INGR", 30)] exScopeCatalog, filterMatches e.2 f = true →
        ∀ scope ∈ scopesSeenFor e.2 f, scope ∈ e.2.m_scopes :=
  ⟨by decide, by decide, by decide,
   (ResolveMembership_scopes [("INGR", 30)] exScopeCatalog exScopeUnresolved).2.1⟩

/-! ## Condition trees -/

theorem AddScope_form_scope (m : ConditionMatcher) (scope : SecondaryType) :
    (m.AddScope scope).m_form = m.m_form ∧ (m.AddScope scope).m_scope = m.m_scope := by
  unfold ConditionMatcher.AddScope
  split_ifs <;> exact ⟨rfl, rfl⟩

theorem foldl_AddScope_form_scope (scopes : List SecondaryType) (m : ConditionMatcher) :
    (scopes.foldl ConditionMatcher.AddScope m).m_form = m.m_form ∧
    (scopes.foldl ConditionMatcher.AddScope m).m_scope = m.m_scope := by
  induction scopes generalizing m with
  | nil => exact ⟨rfl, rfl⟩
  | cons x rest ih =>
      rw [List.foldl_cons]
      obtain ⟨h1, h2⟩ := ih (m.AddScope x)
      obtain ⟨k1, k2⟩ := AddScope_form_scope m x
      exact ⟨h1.trans k1, h2.trans k2⟩

mutual
theorem Condition.eval_context : ∀ (c : Condition) (m : ConditionMatcher),
    (c.eval m).2.m_form = m.m_form ∧ (c.eval m).2.m_scope = m.m_scope ∧
    ∀ m' : ConditionMatcher, m'.m_form = m.m_form → m'.m_scope = m.m_scope →
      (c.eval m').1 = (c.eval m).1
  | .PluginCondition plugins, m => by
      refine ⟨rfl, rfl, fun m' hf _ => ?_⟩
      simp only [Condition.eval, hf]
  | .FormListCondition members, m => by
      refine ⟨rfl, rfl, fun m' hf _ => ?_⟩
      simp only [Condition.eval, hf]
  | .KeywordCondition keywords, m => by
      refine ⟨rfl, rfl, fun m' hf _ => ?_⟩
      simp only [Condition.eval, hf]
  | .SignatureCondition formTypes, m => by
      refine ⟨rfl, rfl, fun m' hf _ => ?_⟩
      simp only [Condition.eval, hf]
  | .ScopeCondition scopes, m => by
      refine ⟨?_, ?_, fun m' _ hs => ?_⟩
      · simp only [Condition.eval]
        exact (foldl_AddScope_form_scope scopes m).1
      · simp only [Condition.eval]
        exact (foldl_AddScope_form_scope scopes m).2
      · simp only [Condition.eval, hs]
  | .ConditionTree op _ children, m => by
      simp only [Condition.eval]
      exact Conditions.eval_children_context op children m
theorem Conditions.eval_children_context : ∀ (op : Operator) (cs : Conditions) (m : ConditionMatcher),
    (Conditions.eval op cs m).2.m_form = m.m_form ∧
    (Conditions.eval op cs m).2.m_scope = m.m_scope ∧
    ∀ m' : ConditionMatcher, m'.m_form = m.m_form → m'.m_scope = m.m_scope →
      (Conditions.eval op cs m').1 = (Conditions.eval op cs m).1
  | .And, .nil, m => by
      simp [Conditions.eval]
  | .Or, .nil, m => by
      simp [Conditions.eval]
  | .And, .cons c rest, m => by
      obtain ⟨hf, hs, hv⟩ := Condition.eval_context c m
      obtain ⟨hf2, hs2, hv2⟩ := Conditions.eval_children_context .And rest (c.eval m).2
      simp only [Conditions.eval]
      refine ⟨?_, ?_, fun m' hf' hs' => ?_⟩
      · split_ifs
        · exact hf2.trans hf
        · exact hf
      · split_ifs
        · exact hs2.trans hs
        · exact hs
      · obtain ⟨hf3, hs3, -⟩ := Condition.eval_context c m'
        rw [hv m' hf' hs']
        split_ifs
        · exact hv2 _ (hf3.trans (hf'.trans hf.symm)) (hs3.trans (hs'.trans hs.symm))
        · rfl
  | .Or, .cons c rest, m => by
      obtain ⟨hf, hs, hv⟩ := Condition.eval_context c m
      obtain ⟨hf2, hs2, hv2⟩ := Conditions.eval_children_context .Or rest (c.eval m).2
      simp only [Conditions.eval]
      refine ⟨?_, ?_, fun m' hf' hs' => ?_⟩
      · split_ifs
        · exact hf
        · exact hf2.trans hf
      · split_ifs
        · exact hs
        · exact hs2.trans hs
      · obtain ⟨hf3, hs3, -⟩ := Condition.eval_context c m'
        rw [hv m' hf' hs']
        split_ifs
        · rfl
        · exact hv2 _ (hf3.trans (hf'.trans hf.symm)) (hs3.trans (hs'.trans hs.symm))
end


theorem contextAfter_context (cs : List Condition) (m : ConditionMatcher) :
    (contextAfter cs m).m_form = m.m_form ∧ (contextAfter cs m).m_scope = m.m_scope := by
  unfold contextAfter
  induction cs generalizing m with
  | nil => exact ⟨rfl, rfl⟩
  | cons c rest ih =>
      rw [List.foldl_cons]
      obtain ⟨h1, h2⟩ := ih (c.eval m).2
      obtain ⟨k1, k2, -⟩ := Condition.eval_context c m
      exact ⟨h1.trans k1, h2.trans k2⟩

theorem evaluatedChildren_congr (stop : Bool) (m m' : ConditionMatcher)
    (hf : m'.m_form = m.m_form) (hs : m'.m_scope = m.m_scope) (cs : List Condition) :
    evaluatedChildren stop m' cs = evaluatedChildren stop m cs := by
  induction cs with
  | nil => rfl
  | cons c rest ih =>
      simp only [evaluatedChildren, (Condition.eval_context c m).2.2 m' hf hs, ih]

theorem all_eval_congr (m m' : ConditionMatcher)
    (hf : m'.m_form = m.m_form) (hs : m'.m_scope = m.m_scope) (cs : List Condition) :
    cs.all (fun c => (c.eval m').1) = cs.all (fun c => (c.eval m).1) := by
  induction cs with
  | nil => rfl
  | cons c rest ih => simp only [List.all_cons, (Condition.eval_context c m).2.2 m' hf hs, ih]

theorem any_eval_congr (m m' : ConditionMatcher)
    (hf : m'.m_form = m.m_form) (hs : m'.m_scope = m.m_scope) (cs : List Condition) :
    cs.any (fun c => (c.eval m').1) = cs.any (fun c => (c.eval m).1) := by
  induction cs with
  | nil => rfl
  | cons c rest ih => simp only [List.any_cons, (Condition.eval_context c m).2.2 m' hf hs, ih]

theorem Conditions.eval_and : ∀ (cs : Conditions) (m : ConditionMatcher),
    Conditions.eval .And cs m =
      (cs.toList.all (fun c => (c.eval m).1),
        contextAfter (evaluatedChildren false m cs.toList) m)
  | .nil, m => rfl
  | .cons c rest, m => by
      obtain ⟨hf, hs, -⟩ := Condition.eval_context c m
      have ih := Conditions.eval_and rest (c.eval m).2
      simp only [Conditions.eval, Conditions.toList, List.all_cons, evaluatedChildren]
      cases hc : (c.eval m).1 with
      | false => simp [contextAfter, hc]
      | true =>
          simp only [if_true, Bool.true_and, Bool.true_eq_false, if_false, ih]
          rw [all_eval_congr m (c.eval m).2 hf hs,
            evaluatedChildren_congr false m (c.eval m).2 hf hs]
          rfl

theorem Conditions.eval_or : ∀ (cs : Conditions) (m : ConditionMatcher),
    Conditions.eval .Or cs m =
      (cs.toList.any (fun c => (c.eval m).1),
        contextAfter (evaluatedChildren true m cs.toList) m)
  | .nil, m => rfl
  | .cons c rest, m => by
      obtain ⟨hf, hs, -⟩ := Condition.eval_context c m
      have ih := Conditions.eval_or rest (c.eval m).2
      simp only [Conditions.eval, Conditions.toList, List.any_cons, evaluatedChildren]
      cases hc : (c.eval m).1 with
      | true => simp [contextAfter, hc]
      | false =>
          simp only [Bool.false_eq_true, if_false, Bool.false_or, ih]
          rw [any_eval_congr m (c.eval m).2 hf hs,
            evaluatedChildren_congr true m (c.eval m).2 hf hs]
          rfl

theorem evaluatedChildren_stop (stop : Bool) (m : ConditionMatcher)
    (before : List Condition) (c : Condition) (after : List Condition)
    (hbefore : ∀ b ∈ before, (b.eval m).1 ≠ stop) (hc : (c.eval m).1 = stop) :
    evaluatedChildren stop m (before ++ c :: after) = before ++ [c] := by
  induction before with
  | nil => simp [evaluatedChildren, hc]
  | cons b rest ih =>
      have hb : (b.eval m).1 ≠ stop := hbefore b (List.mem_cons_self _ _)
      have ih' := ih (fun x hx => hbefore x (List.mem_cons_of_mem _ hx))
      show evaluatedChildren stop m (b :: (rest ++ c :: after)) = b :: (rest ++ [c])
      simp only [evaluatedChildren, hb, if_false, ih']

theorem evaluatedChildren_all (stop : Bool) (m : ConditionMatcher) (cs : List Condition)
    (hall : ∀ c ∈ cs, (c.eval m).1 ≠ stop) : evaluatedChildren stop m cs = cs := by
  induction cs with
  | nil => rfl
  | cons c rest ih =>
      have hc : (c.eval m).1 ≠ stop := hall c (List.mem_cons_self _ _)
      simp only [evaluatedChildren, hc, if_false]
      rw [ih (fun x hx => hall x (List.mem_cons_of_mem _ hx))]

/-- C12: a `ConditionTree` with operator AND is true on a match context exactly when
every child is true on it, and with operator OR exactly when some child is; the children
are run left to right, each on the context the previous one left, and only up to and
including the first false child (AND) or first true child (OR), all of them when there is
none; with no children the result is true for AND and false for OR and the context is
untouched. -/
theorem ConditionTree_eval (depth : Nat) (children : Conditions) (m : ConditionMatcher) :
    ((Condition.eval (.ConditionTree .And depth children) m).1 = true ↔
      ∀ c ∈ children.toList, (c.eval m).1 = true) ∧
    ((Condition.eval (.ConditionTree .Or depth children) m).1 = true ↔
      ∃ c ∈ children.toList, (c.eval m).1 = true) ∧
    (Condition.eval (.ConditionTree .And depth children) m).2 =
      contextAfter (evaluatedChildren false m children.toList) m ∧
    (Condition.eval (.ConditionTree .Or depth children) m).2 =
      contextAfter (evaluatedChildren true m children.toList) m ∧
    (∀ (stop : Bool) (before : List Condition) (c : Condition) (after : List Condition),
      children.toList = before ++ c :: after →
      (∀ b ∈ before, (b.eval m).1 ≠ stop) → (c.eval m).1 = stop →
        evaluatedChildren stop m children.toList = before ++ [c]) ∧
    (∀ stop : Bool, (∀ c ∈ children.toList, (c.eval m).1 ≠ stop) →
        evaluatedChildren stop m children.toList = children.toList) ∧
    Condition.eval (.ConditionTree .And depth .nil) m = (true, m) ∧
    Condition.eval (.ConditionTree .Or depth .nil) m = (false, m) := by
  have hand : Condition.eval (.ConditionTree .And depth children) m =
      Conditions.eval .And children m := by simp only [Condition.eval]
  have hor : Condition.eval (.ConditionTree .Or depth children) m =
      Conditions.eval .Or children m := by simp only [Condition.eval]
  refine ⟨?_, ?_, ?_, ?_, ?_, ?_, ?_, ?_⟩
  · rw [hand, Conditions.eval_and]
    simp [List.all_eq_true]
  · rw [hor, Conditions.eval_or]
    simp [List.any_eq_true]
  · rw [hand, Conditions.eval_and]
  · rw [hor, Conditions.eval_or]
  · intro stop before c after hsplit hbefore hc
    rw [hsplit]
    exact evaluatedChildren_stop stop m before c after hbefore hc
  · intro stop hall
    exact evaluatedChildren_all stop m _ hall
  · simp only [Condition.eval, Conditions.eval]
  · simp only [Condition.eval, Conditions.eval]

/-- The tree `signature = [Ingredient] AND keyword = [IsFood]` is true on the food
`exForm`; the OR tree `exScopeFilter` stops at its first child on food and so records no
scope. -/
theorem ConditionTree_eval_witness :
    (Condition.eval (.ConditionTree .And 0
      (.cons (.SignatureCondition [30]) (.cons (.KeywordCondition [100]) .nil)))
      (ConditionMatcher.ofForm exForm)).1 = true ∧
    evaluatedChildren true (ConditionMatcher.ofForm exForm)
      [.KeywordCondition [100], .ScopeCondition [SecondaryType.containers]] =
        [.KeywordCondition [100]] :=
  ⟨(ConditionTree_eval 0
      (.cons (.SignatureCondition [30]) (.cons (.KeywordCondition [100]) .nil))
      (ConditionMatcher.ofForm exForm)).1.mpr (by decide),
   (ConditionTree_eval 0
      (.cons (.KeywordCondition [100]) (.cons (.ScopeCondition [SecondaryType.containers]) .nil))
      (ConditionMatcher.ofForm exForm)).2.2.2.2.1 true [] (.KeywordCondition [100])
        [.ScopeCondition [SecondaryType.containers]] rfl
        (fun b hb => absurd hb (List.not_mem_nil b)) (by decide)⟩

/-! ## Loading the definitions and the policy accessors -/

theorem registered_eq_isSome (s : CollectionManager) (label : String) :
    s.registered label = (s.collection label).isSome := by
  unfold CollectionManager.registered CollectionManager.collection
  induction s.m_allCollectionsByLabel with
  | nil => rfl
  | cons e rest ih =>
      obtain ⟨k, v⟩ := e
      by_cases h : label = k
      · subst h
        simp [List.lookup]
      · have h1 : (k == label) = false := by simpa using fun hh => h hh.symm
        have h2 : (label == k) = false := by simpa using h
        simp only [List.any_cons, h1, Bool.false_or, List.lookup, h2]
        exact ih

theorem lookup_append_of_some {registry : List (String × Collection)} {label : String}
    {c : Collection} (h : registry.lookup label = some c) (extra : List (String × Collection)) :
    (registry ++ extra).lookup label = some c := by
  induction registry with
  | nil => simp [List.lookup] at h
  | cons e rest ih =>
      obtain ⟨k, v⟩ := e
      by_cases hk : (label == k) = true
      · simpa [List.lookup, hk] using h
      · have hk' : (label == k) = false := by simpa using hk
        simp only [List.cons_append, List.lookup, hk'] at h ⊢
        exact ih h

theorem lookup_append_of_none {registry : List (String × Collection)} {label : String}
    (h : registry.lookup label = none) (c : Collection) :
    (registry ++ [(label, c)]).lookup label = some c := by
  induction registry with
  | nil => simp [List.lookup]
  | cons e rest ih =>
      obtain ⟨k, v⟩ := e
      by_cases hk : (label == k) = true
      · simp [List.lookup, hk] at h
      · have hk' : (label == k) = false := by simpa using hk
        simp only [List.cons_append, List.lookup, hk'] at h ⊢
        exact ih h

theorem buildStep_bound (ParseCollection : Definition → Option Collection) (groupName : String)
    (s : CollectionManager) (definition : Definition) (label : String) (c : Collection)
    (h : s.collection label = some c) :
    (buildStep ParseCollection groupName s definition).collection label = some c ∧
    (buildStep ParseCollection groupName s definition).m_collectionsByGroupName.count
        (groupName, label) = s.m_collectionsByGroupName.count (groupName, label) := by
  unfold buildStep
  cases ParseCollection definition with
  | none => exact ⟨h, rfl⟩
  | some filter =>
      dsimp only
      by_cases hreg : s.registered (MakeLabel groupName definition.name) = true
      · rw [if_pos hreg]
        exact ⟨h, rfl⟩
      · rw [if_neg hreg]
        refine ⟨lookup_append_of_some h _, ?_⟩
        have hne : MakeLabel groupName definition.name ≠ label := by
          intro heq
          rw [heq, registered_eq_isSome, h] at hreg
          exact hreg rfl
        rw [List.count_append, List.count_singleton]
        simp [hne]

theorem BuildDecisionTrees_bound (ParseCollection : Definition → Option Collection)
    (groupName : String) (collections : List Definition) (s : CollectionManager)
    (label : String) (c : Collection) (h : s.collection label = some c) :
    (BuildDecisionTrees ParseCollection collections groupName s).collection label = some c ∧
    (BuildDecisionTrees ParseCollection collections groupName s).m_collectionsByGroupName.count
        (groupName, label) = s.m_collectionsByGroupName.count (groupName, label) := by
  unfold BuildDecisionTrees
  induction collections generalizing s with
  | nil => exact ⟨h, rfl⟩
  | cons d rest ih =>
      rw [List.foldl_cons]
      obtain ⟨h1, h2⟩ := buildStep_bound ParseCollection groupName s d label c h
      obtain ⟨k1, k2⟩ := ih _ h1
      exact ⟨k1, k2.trans h2⟩

theorem buildStep_fresh (ParseCollection : Definition → Option Collection) (groupName : String)
    (s : CollectionManager) (definition : Definition) (c : Collection)
    (hparse : ParseCollection definition = some c)
    (h : s.collection (MakeLabel groupName definition.name) = none) :
    (buildStep ParseCollection groupName s definition).collection
        (MakeLabel groupName definition.name) = some c ∧
    (buildStep ParseCollection groupName s definition).m_collectionsByGroupName.count
        (groupName, MakeLabel groupName definition.name) =
      s.m_collectionsByGroupName.count (groupName, MakeLabel groupName definition.name) + 1 := by
  unfold buildStep
  have hreg : s.registered (MakeLabel groupName definition.name) = false := by
    rw [registered_eq_isSome, h]
    rfl
  simp only [hparse, hreg, Bool.false_eq_true, if_false]
  refine ⟨lookup_append_of_none h c, ?_⟩
  rw [List.count_append, List.count_singleton]
  simp

theorem BuildDecisionTrees_append (ParseCollection : Definition → Option Collection)
    (groupName : String) (before after : List Definition) (s : CollectionManager) :
    BuildDecisionTrees ParseCollection (before ++ after) groupName s =
      BuildDecisionTrees ParseCollection after groupName
        (BuildDecisionTrees ParseCollection before groupName s) := by
  unfold BuildDecisionTrees
  rw [List.foldl_append]

/-- C13: while `BuildDecisionTrees` processes a sequence of definitions on any registry
state, a definition whose group/name label is already bound when it is reached (by the
registry or by an earlier definition) leaves the label bound to the first collection and
adds no entry for it to the group index; a definition whose label is fresh is registered
with exactly one entry in the group index; every binding the registry had before stays. -/
theorem BuildDecisionTrees_first_wins (ParseCollection : Definition → Option Collection)
    (groupName : String) (s : CollectionManager) (before : List Definition)
    (definition : Definition) (after : List Definition) (c : Collection)
    (hparse : ParseCollection definition = some c) :
    (∀ first : Collection,
      (BuildDecisionTrees ParseCollection before groupName s).collection
          (MakeLabel groupName definition.name) = some first →
        (BuildDecisionTrees ParseCollection (before ++ definition :: after) groupName
          s).collection (MakeLabel groupName definition.name) = some first ∧
        (BuildDecisionTrees ParseCollection (before ++ definition :: after) groupName
          s).m_collectionsByGroupName.count (groupName, MakeLabel groupName definition.name) =
          (BuildDecisionTrees ParseCollection before groupName s).m_collectionsByGroupName.count
            (groupName, MakeLabel groupName definition.name)) ∧
    ((BuildDecisionTrees ParseCollection before groupName s).collection
        (MakeLabel groupName definition.name) = none →
      (BuildDecisionTrees ParseCollection (before ++ definition :: after) groupName
        s).collection (MakeLabel groupName definition.name) = some c ∧
      (BuildDecisionTrees ParseCollection (before ++ definition :: after) groupName
        s).m_collectionsByGroupName.count (groupName, MakeLabel groupName definition.name) =
        (BuildDecisionTrees ParseCollection before groupName s).m_collectionsByGroupName.count
          (groupName, MakeLabel groupName definition.name) + 1) ∧
    (∀ (label : String) (bound : Collection), s.collection label = some bound →
      (BuildDecisionTrees ParseCollection (before ++ definition :: after) groupName
        s).collection label = some bound) := by
  refine ⟨fun first hfirst => ?_, fun hfresh => ?_, fun label bound hbound => ?_⟩
  · rw [BuildDecisionTrees_append]
    exact BuildDecisionTrees_bound ParseCollection groupName _ _ _ first hfirst
  · rw [BuildDecisionTrees_append]
    have hstep : BuildDecisionTrees ParseCollection (definition :: after) groupName
        (BuildDecisionTrees ParseCollection before groupName s) =
        BuildDecisionTrees ParseCollection after groupName
          (buildStep ParseCollection groupName
            (BuildDecisionTrees ParseCollection before groupName s) definition) := rfl
    rw [hstep]
    obtain ⟨h1, h2⟩ := buildStep_fresh ParseCollection groupName _ definition c hparse hfresh
    obtain ⟨k1, k2⟩ := BuildDecisionTrees_bound ParseCollection groupName after _ _ c h1
    exact ⟨k1, k2.trans h2⟩
  · exact (BuildDecisionTrees_bound ParseCollection groupName _ s label bound hbound).1

/-- Of two definitions named Food in group G the first is registered and the second is
discarded; the group index holds the label once. -/
theorem BuildDecisionTrees_first_wins_witness :
    (BuildDecisionTrees exParse [⟨"Food", "first"⟩, ⟨"Food", "second"⟩] "G"
      CollectionManager.init).m_allCollectionsByLabel.map (fun e => (e.1, e.2.m_description))
        = [("G/Food", "first")] ∧
    (BuildDecisionTrees exParse [⟨"Food", "first"⟩, ⟨"Food", "second"⟩] "G"
      CollectionManager.init).m_collectionsByGroupName = [("G", "G/Food")] ∧
    (BuildDecisionTrees exParse ([⟨"Food", "first"⟩] ++ ⟨"Food", "second"⟩ :: []) "G"
      CollectionManager.init).collection (MakeLabel "G" "Food")
        = some { exFresh with m_description := "first" } :=
  ⟨by decide, by decide,
   ((BuildDecisionTrees_first_wins exParse "G" CollectionManager.init [⟨"Food", "first"⟩]
      ⟨"Food", "second"⟩ [] { exFresh with m_description := "second" } rfl).1
        { exFresh with m_description := "first" } rfl).1⟩

/-- C14: for a definition file that cannot be opened, cannot be parsed or fails schema
validation, `LoadCollectionsFromFile` returns false and leaves the manager, with its label
registry, group index and file map, exactly as it was; the state after the files before
it is untouched by it, and `LoadData` gives the same result as if the file were not in
the directory, so the remaining files are loaded. -/
theorem LoadCollectionsFromFile_rejects (ParseCollection : Definition → Option Collection)
    (s : CollectionManager) (before after : List DirectoryEntry) (bad : DirectoryEntry)
    (hbad : ∀ collections, bad.content ≠ DefinitionFile.valid collections) :
    (∀ groupName : String,
      LoadCollectionsFromFile ParseCollection bad.path bad.content groupName s = (false, s)) ∧
    (before ++ [bad]).foldl (loadStep ParseCollection) s =
      before.foldl (loadStep ParseCollection) s ∧
    (∀ (schemaLoadable : Bool) (ValidSignatures : List (String × FormType))
      (GetFormArray : FormType → List TESForm),
      LoadData ParseCollection schemaLoadable (before ++ bad :: after) ValidSignatures
          GetFormArray s =
        LoadData ParseCollection schemaLoadable (before ++ after) ValidSignatures
          GetFormArray s) := by
  have hload : ∀ (groupName : String) (s' : CollectionManager),
      LoadCollectionsFromFile ParseCollection bad.path bad.content groupName s' = (false, s') := by
    intro groupName s'
    unfold LoadCollectionsFromFile
    cases hc : bad.content with
    | valid collections => exact absurd hc (hbad collections)
    | unreadable => rfl
    | malformed => rfl
    | invalid => rfl
  have hstep : ∀ s' : CollectionManager, loadStep ParseCollection s' bad = s' := by
    intro s'
    unfold loadStep
    split_ifs
    · rfl
    · cases bad.group with
      | none => rfl
      | some groupName => simp only [hload]
  refine ⟨fun groupName => hload groupName s, ?_, ?_⟩
  · rw [List.foldl_append, List.foldl_cons, List.foldl_nil, hstep]
  · intro schemaLoadable ValidSignatures GetFormArray
    unfold LoadData
    rw [List.foldl_append, List.foldl_cons, hstep, List.foldl_append]


/-- A malformed file between two valid ones is skipped: loading gives the same registry as
without it. -/
theorem LoadCollectionsFromFile_rejects_witness :
    LoadCollectionsFromFile exParse "SHSE.Collections.Bad.json" DefinitionFile.malformed "Bad"
      exUnresolved = (false, exUnresolved) ∧
    (LoadData exParse true
      ([exFileA] ++ ⟨true, "SHSE.Collections.Bad.json", some "Bad", .malformed⟩ :: [exFileB])
      [("INGR", 30)] exCatalog CollectionManager.init).2.m_allCollectionsByLabel.map
        (fun e => e.1) = ["A/Food", "B/Food"] :=
  ⟨(LoadCollectionsFromFile_rejects exParse exUnresolved [exFileA] [exFileB]
      ⟨true, "SHSE.Collections.Bad.json", some "Bad", .malformed⟩
      (fun _ h => DefinitionFile.noConfusion h)).1 "Bad",
   (congrArg (fun r => r.2.m_allCollectionsByLabel.map (fun e => e.1))
     ((LoadCollectionsFromFile_rejects exParse CollectionManager.init [exFileA] [exFileB]
      ⟨true, "SHSE.Collections.Bad.json", some "Bad", .malformed⟩
      (fun _ h => DefinitionFile.noConfusion h)).2.2 true [("INGR", 30)] exCatalog)).trans
     (by decide)⟩

theorem lookup_store (registry : List (String × Collection)) (label label' : String)
    (c : Collection) :
    (store registry label c).lookup label' =
      if label' = label then (registry.lookup label).map (fun _ => c)
      else registry.lookup label' := by
  unfold CollectionManager.store
  induction registry with
  | nil => simp [List.lookup]
  | cons e rest ih =>
      obtain ⟨k, v⟩ := e
      have hmap : (if ((k, v).1 == label) = true then ((k, v).1, c) else (k, v)) =
          (k, if k = label then c else v) := by
        by_cases hk : k = label <;> simp [hk]
      rw [List.map_cons, hmap]
      by_cases hb : label' = k
      · subst hb
        by_cases hl : label' = label
        · simp [List.lookup, hl]
        · simp [List.lookup, hl]
      · have hbeq : (label' == k) = false := by simpa using hb
        have hcons : ∀ (x : Collection) (l : List (String × Collection)),
            List.lookup label' ((k, x) :: l) = List.lookup label' l := by
          intro x l
          simp [List.lookup, hbeq]
        rw [hcons, ih]
        by_cases hl : label' = label
        · subst hl
          simp [List.lookup, hbeq]
        · simp [hl, hcons]

/-- C16: for a registered label, each policy setter makes the matching getter return
the value set and leaves the other two policy fields of that collection as they were;
every setter leaves the collections under all other labels unchanged; for an
unregistered label the setters change nothing, the getters return `DoNotLoot`, false and
false, and `TotalItems` and `ItemsObtained` return 0. -/
theorem policy_accessors (s : CollectionManager) (groupName collectionName : String)
    (action : SpecialObjectHandling) (allowRepeats notify : Bool) :
    (∀ c, s.collection (MakeLabel groupName collectionName) = some c →
      ((PolicySetAction s groupName collectionName action).PolicyAction groupName collectionName
          = action ∧
        (PolicySetAction s groupName collectionName action).PolicyRepeat groupName collectionName
          = s.PolicyRepeat groupName collectionName ∧
        (PolicySetAction s groupName collectionName action).PolicyNotify groupName collectionName
          = s.PolicyNotify groupName collectionName) ∧
      ((PolicySetRepeat s groupName collectionName allowRepeats).PolicyRepeat groupName
          collectionName = allowRepeats ∧
        (PolicySetRepeat s groupName collectionName allowRepeats).PolicyAction groupName
          collectionName = s.PolicyAction groupName collectionName ∧
        (PolicySetRepeat s groupName collectionName allowRepeats).PolicyNotify groupName
          collectionName = s.PolicyNotify groupName collectionName) ∧
      ((PolicySetNotify s groupName collectionName notify).PolicyNotify groupName collectionName
          = notify ∧
        (PolicySetNotify s groupName collectionName notify).PolicyAction groupName collectionName
          = s.PolicyAction groupName collectionName ∧
        (PolicySetNotify s groupName collectionName notify).PolicyRepeat groupName collectionName
          = s.PolicyRepeat groupName collectionName)) ∧
    (∀ other : String, other ≠ MakeLabel groupName collectionName →
      (PolicySetAction s groupName collectionName action).collection other = s.collection other ∧
      (PolicySetRepeat s groupName collectionName allowRepeats).collection other
        = s.collection other ∧
      (PolicySetNotify s groupName collectionName notify).collection other
        = s.collection other) ∧
    (s.collection (MakeLabel groupName collectionName) = none →
      PolicySetAction s groupName collectionName action = s ∧
      PolicySetRepeat s groupName collectionName allowRepeats = s ∧
      PolicySetNotify s groupName collectionName notify = s ∧
      s.PolicyAction groupName collectionName = SpecialObjectHandling.DoNotLoot ∧
      s.PolicyRepeat groupName collectionName = false ∧
      s.PolicyNotify groupName collectionName = false ∧
      s.TotalItems groupName collectionName = 0 ∧
      s.ItemsObtained groupName collectionName = 0) := by
  refine ⟨fun c hc => ?_, fun other hother => ?_, fun hnone => ?_⟩
  · have hl : s.m_allCollectionsByLabel.lookup (MakeLabel groupName collectionName) = some c := hc
    simp [PolicySetAction, PolicySetRepeat, PolicySetNotify, PolicyAction, PolicyRepeat,
      PolicyNotify, CollectionManager.collection, hl, lookup_store]
  · cases hc : s.m_allCollectionsByLabel.lookup (MakeLabel groupName collectionName) with
    | none =>
        simp [PolicySetAction, PolicySetRepeat, PolicySetNotify, CollectionManager.collection, hc]
    | some c =>
        simp [PolicySetAction, PolicySetRepeat, PolicySetNotify, hc,
          CollectionManager.collection, lookup_store, hother]
  · simp [PolicySetAction, PolicySetRepeat, PolicySetNotify, PolicyAction, PolicyRepeat,
      PolicyNotify, TotalItems, ItemsObtained, hnone]

/-- Setting the action of collection G/A to Print is read back as Print and leaves the
action of G/B as it was. -/
theorem policy_accessors_witness :
    (PolicySetAction (twoClaims .GlowTarget .DoLoot) "G" "A" .Print).PolicyAction "G" "A"
      = .Print ∧
    (PolicySetAction (twoClaims .GlowTarget .DoLoot) "G" "A" .Print).PolicyAction "G" "B"
      = .DoLoot ∧
    (twoClaims .GlowTarget .DoLoot).PolicyAction "G" "C" = .DoNotLoot :=
  ⟨((policy_accessors (twoClaims .GlowTarget .DoLoot) "G" "A" .Print true true).1
      (exMember .GlowTarget) rfl).1.1,
   by decide,
   ((policy_accessors (twoClaims .GlowTarget .DoLoot) "G" "C" .Print true true).2.2 rfl).2.2.2.1⟩

/-! ## Manager: draining the pending queue -/

theorem ProcessAddedItems_eq (g : Game) (nowTime : Int) (s : CollectionManager)
    (hactive : s.IsActive = true) :
    ProcessAddedItems g nowTime s =
      (drained g nowTime s).foldl (processStep g)
        ({ reconciled g nowTime s with m_addedItemQueue := [] }, []) := by
  unfold ProcessAddedItems drained reconciled
  simp only [hactive, Bool.not_true, Bool.false_eq_true, if_false]

theorem reconciled_frame (g : Game) (nowTime : Int) (s : CollectionManager) :
    (reconciled g nowTime s).m_allCollectionsByLabel = s.m_allCollectionsByLabel ∧
    (reconciled g nowTime s).m_collectionsByFormID = s.m_collectionsByFormID ∧
    (reconciled g nowTime s).m_gameTime = s.m_gameTime := by
  have h : ∀ s' : CollectionManager,
      (ReconcileInventory g s').2.m_allCollectionsByLabel = s'.m_allCollectionsByLabel ∧
      (ReconcileInventory g s').2.m_collectionsByFormID = s'.m_collectionsByFormID ∧
      (ReconcileInventory g s').2.m_gameTime = s'.m_gameTime := by
    intro s'
    unfold ReconcileInventory
    cases g.playerInventory <;> exact ⟨rfl, rfl, rfl⟩
  unfold reconciled
  obtain ⟨h1, h2, h3⟩ := h { s with m_lastInventoryCheck := nowTime }
  split_ifs
  · exact ⟨h1, h2, h3⟩
  · exact ⟨h1, h2, h3⟩
  · exact ⟨rfl, rfl, rfl⟩

theorem recordStep_collection (g : Game) (itemID : FormID) (form : TESForm)
    (acc : CollectionManager × List String) (target : FormID × String) (label : String) :
    (recordStep g itemID form acc target).1.collection label =
      (acc.1.collection label).map
        (fun c => recordInto g acc.1.m_gameTime itemID form label c target) ∧
    (recordStep g itemID form acc target).1.m_gameTime = acc.1.m_gameTime := by
  unfold recordStep recordInto
  cases hc : acc.1.collection target.2 with
  | none =>
      refine ⟨?_, rfl⟩
      cases hl : acc.1.collection label with
      | none => rfl
      | some c =>
          have hne : target.2 ≠ label := by
            intro h
            rw [h, hl] at hc
            cases hc
          simp [hne]
  | some c =>
      have hc' : acc.1.m_allCollectionsByLabel.lookup target.2 = some c := hc
      dsimp only
      by_cases hcond : (c.m_policy.m_action ≠ SpecialObjectHandling.DoNotLoot
          && c.IsMemberOf (some form)) = true
      · rw [if_pos hcond]
        refine ⟨?_, rfl⟩
        have hcond' : c.m_policy.m_action ≠ SpecialObjectHandling.DoNotLoot ∧
            c.IsMemberOf (some form) = true := by simpa using hcond
        unfold CollectionManager.collection
        dsimp only
        rw [lookup_store]
        by_cases hl : label = target.2
        · subst hl
          simp [hc', hcond']
        · have hne : target.2 ≠ label := fun h => hl h.symm
          simp only [hl, if_false]
          cases acc.1.m_allCollectionsByLabel.lookup label with
          | none => rfl
          | some c2 => simp [hne]
      · rw [if_neg hcond]
        refine ⟨?_, rfl⟩
        cases hl : acc.1.collection label with
        | none => rfl
        | some c2 =>
            by_cases hlab : target.2 = label
            · rw [hlab, hl] at hc
              cases hc
              have : ¬ (c.m_policy.m_action ≠ SpecialObjectHandling.DoNotLoot ∧
                  c.IsMemberOf (some form) = true) := by simpa using hcond
              simp [hlab, this]
            · simp [hlab]


theorem recordFold_collection (g : Game) (itemID : FormID) (form : TESForm)
    (targets : List (FormID × String)) (acc : CollectionManager × List String) (label : String) :
    (targets.foldl (recordStep g itemID form) acc).1.collection label =
      (acc.1.collection label).map
        (fun c => targets.foldl (recordInto g acc.1.m_gameTime itemID form label) c) ∧
    (targets.foldl (recordStep g itemID form) acc).1.m_gameTime = acc.1.m_gameTime := by
  induction targets generalizing acc with
  | nil =>
      refine ⟨?_, rfl⟩
      show acc.1.collection label = _
      cases acc.1.collection label <;> rfl
  | cons t rest ih =>
      rw [List.foldl_cons]
      obtain ⟨h1, h2⟩ := ih (recordStep g itemID form acc t)
      obtain ⟨k1, k2⟩ := recordStep_collection g itemID form acc t label
      rw [h1, h2, k1, k2]
      refine ⟨?_, rfl⟩
      cases acc.1.collection label <;> rfl

theorem processStep_collection (g : Game) (acc : CollectionManager × List String)
    (formID : FormID) (label : String) :
    (processStep g acc formID).1.collection label =
      (acc.1.collection label).map
        (fun c => observeIn g acc.1.m_collectionsByFormID acc.1.m_gameTime label c formID) ∧
    (processStep g acc formID).1.m_gameTime = acc.1.m_gameTime ∧
    (processStep g acc formID).1.m_collectionsByFormID = acc.1.m_collectionsByFormID ∧
    (processStep g acc formID).1.m_addedItemQueue = acc.1.m_addedItemQueue := by
  unfold processStep observeIn
  by_cases hclaims : acc.1.claims formID = true
  · have hany : acc.1.m_collectionsByFormID.any (fun e => e.1 == formID) = true := hclaims
    simp only [hclaims, hany, if_true]
    obtain ⟨h1, -, h3⟩ := AddToRelevantCollections_index g acc.1 formID
    refine ⟨?_, ?_, h1, h3⟩
    · unfold AddToRelevantCollections
      cases g.LookupByID formID with
      | none =>
          show acc.1.collection label = _
          cases acc.1.collection label <;> rfl
      | some form => exact (recordFold_collection g formID form _ (acc.1, []) label).1
    · unfold AddToRelevantCollections
      cases g.LookupByID formID with
      | none => rfl
      | some form => exact (recordFold_collection g formID form _ (acc.1, []) label).2
  · have hany : ¬ acc.1.m_collectionsByFormID.any (fun e => e.1 == formID) = true := hclaims
    simp only [hclaims, hany, Bool.false_eq_true, if_false]
    split_ifs
    · refine ⟨?_, rfl, rfl, rfl⟩
      show acc.1.collection label = _
      cases acc.1.collection label <;> rfl
    · refine ⟨?_, rfl, rfl, rfl⟩
      show acc.1.collection label = _
      cases acc.1.collection label <;> rfl

theorem processFold_collection (g : Game) (items : List FormID)
    (acc : CollectionManager × List String) (label : String) :
    (items.foldl (processStep g) acc).1.collection label =
      (acc.1.collection label).map
        (fun c => items.foldl
          (observeIn g acc.1.m_collectionsByFormID acc.1.m_gameTime label) c) ∧
    (items.foldl (processStep g) acc).1.m_addedItemQueue = acc.1.m_addedItemQueue := by
  induction items generalizing acc with
  | nil =>
      refine ⟨?_, rfl⟩
      show acc.1.collection label = _
      cases acc.1.collection label <;> rfl
  | cons x rest ih =>
      rw [List.foldl_cons]
      obtain ⟨h1, h2⟩ := ih (processStep g acc x)
      obtain ⟨k1, k2, k3, k4⟩ := processStep_collection g acc x label
      rw [h1, h2, k1, k2, k3, k4]
      refine ⟨?_, rfl⟩
      cases acc.1.collection label <;> rfl

theorem observedContains_RecordItem (Replace : String → String → String → String)
    (newMemberText : String) (position : Position) (c : Collection) (itemID : FormID)
    (form : TESForm) (gameTime : Int) (place : Option FormID) (Y : FormID) :
    observedContains
      (c.RecordItem Replace newMemberText position itemID form gameTime place).1.m_observed Y
        = true ↔ observedContains c.m_observed Y = true ∨ Y = itemID := by
  rw [Collection.RecordItem_fst]
  by_cases h : observedContains c.m_observed itemID = true
  · simp only [h, if_true]
    constructor
    · exact Or.inl
    · rintro (h' | h')
      · exact h'
      · rw [h']
        exact h
  · rw [if_neg h]
    simp only [observedContains, List.any_append, List.any_cons,
      List.any_nil, Bool.or_false, Bool.or_eq_true, beq_iff_eq]
    constructor
    · rintro (h' | h')
      · exact Or.inl h'
      · exact Or.inr h'.symm
    · rintro (h' | h')
      · exact Or.inl h'
      · exact Or.inr h'.symm

theorem recordInto_spec (g : Game) (gameTime : Int) (itemID : FormID) (form : TESForm)
    (label : String) (targets : List (FormID × String)) (c : Collection) :
    (targets.foldl (recordInto g gameTime itemID form label) c).m_policy = c.m_policy ∧
    (targets.foldl (recordInto g gameTime itemID form label) c).m_members = c.m_members ∧
    (c.m_policy.m_action = SpecialObjectHandling.DoNotLoot →
      targets.foldl (recordInto g gameTime itemID form label) c = c) ∧
    ∀ Y, observedContains
        (targets.foldl (recordInto g gameTime itemID form label) c).m_observed Y = true ↔
      observedContains c.m_observed Y = true ∨
        (Y = itemID ∧ (∃ t ∈ targets, t.2 = label) ∧
          c.m_policy.m_action ≠ SpecialObjectHandling.DoNotLoot ∧
          c.IsMemberOf (some form) = true) := by
  induction targets generalizing c with
  | nil => simp
  | cons t rest ih =>
      rw [List.foldl_cons]
      obtain ⟨h1, h2, h3, h4⟩ := ih (recordInto g gameTime itemID form label c t)
      have hframe := Collection.RecordItem_frame g.Replace g.newMemberText g.PlayerPosition c
        itemID form gameTime g.CurrentPlayerPlace
      have hpol : (recordInto g gameTime itemID form label c t).m_policy = c.m_policy := by
        unfold recordInto
        split_ifs
        · exact hframe.2.2.1
        · rfl
      have hmem : (recordInto g gameTime itemID form label c t).m_members = c.m_members := by
        unfold recordInto
        split_ifs
        · exact hframe.2.2.2.2.2
        · rfl
      have hismem : (recordInto g gameTime itemID form label c t).IsMemberOf (some form) =
          c.IsMemberOf (some form) := by
        simp only [Collection.IsMemberOf, hmem]
      refine ⟨h1.trans hpol, h2.trans hmem, fun hD => ?_, fun Y => ?_⟩
      · have hstep : recordInto g gameTime itemID form label c t = c := by
          unfold recordInto
          simp [hD]
        have h3' := h3 (by rw [hpol]; exact hD)
        rw [hstep] at h3'
        rw [hstep]
        exact h3'
      · rw [h4, hpol, hismem]
        by_cases hcond : t.2 = label ∧ c.m_policy.m_action ≠ SpecialObjectHandling.DoNotLoot ∧
            c.IsMemberOf (some form) = true
        · have hstep : recordInto g gameTime itemID form label c t =
              (c.RecordItem g.Replace g.newMemberText g.PlayerPosition itemID form gameTime
                g.CurrentPlayerPlace).1 := by
            unfold recordInto
            rw [if_pos hcond]
          rw [hstep, observedContains_RecordItem]
          simp only [List.mem_cons, exists_eq_or_imp, hcond.1, true_or, true_and]
          constructor
          · rintro ((h | h) | h)
            · exact Or.inl h
            · exact Or.inr ⟨h, hcond.2⟩
            · exact Or.inr ⟨h.1, h.2.2⟩
          · rintro (h | h)
            · exact Or.inl (Or.inl h)
            · exact Or.inl (Or.inr h.1)
        · have hstep : recordInto g gameTime itemID form label c t = c := by
            unfold recordInto
            rw [if_neg hcond]
          rw [hstep]
          simp only [List.mem_cons, exists_eq_or_imp]
          constructor
          · rintro (h | ⟨hY, hex, hact, hm⟩)
            · exact Or.inl h
            · exact Or.inr ⟨hY, Or.inr hex, hact, hm⟩
          · rintro (h | ⟨hY, hex | hex, hact, hm⟩)
            · exact Or.inl h
            · exact absurd ⟨hex, hact, hm⟩ hcond
            · exact Or.inr ⟨hY, hex, hact, hm⟩


theorem observeIn_spec (g : Game) (multimap : List (FormID × String)) (gameTime : Int)
    (label : String) (c : Collection) (X : FormID)
    (hlookup : ∀ id form, g.LookupByID id = some form → form.formID = id) :
    (observeIn g multimap gameTime label c X).m_policy = c.m_policy ∧
    (observeIn g multimap gameTime label c X).m_members = c.m_members ∧
    (c.m_policy.m_action = SpecialObjectHandling.DoNotLoot →
      observeIn g multimap gameTime label c X = c) ∧
    ∀ Y, observedContains (observeIn g multimap gameTime label c X).m_observed Y = true ↔
      observedContains c.m_observed Y = true ∨
        (Y = X ∧ (g.LookupByID X).isSome = true ∧ (X, label) ∈ multimap ∧
          c.m_policy.m_action ≠ SpecialObjectHandling.DoNotLoot ∧ X ∈ c.m_members) := by
  unfold observeIn
  by_cases hany : multimap.any (fun e => e.1 == X) = true
  · rw [if_pos hany]
    cases hform : g.LookupByID X with
    | none => simp
    | some form =>
        have hid : form.formID = X := hlookup X form hform
        obtain ⟨h1, h2, h3, h4⟩ :=
          recordInto_spec g gameTime X form label (equal_range multimap form.formID) c
        refine ⟨h1, h2, h3, fun Y => ?_⟩
        rw [h4]
        have htargets : (∃ t ∈ equal_range multimap form.formID, t.2 = label) ↔
            (X, label) ∈ multimap := by
          rw [hid]
          simp only [equal_range, List.mem_filter, beq_iff_eq]
          constructor
          · rintro ⟨⟨k, l⟩, ⟨hmem, hk⟩, hl⟩
            simp only at hk hl
            subst hk hl
            exact hmem
          · intro hmem
            exact ⟨(X, label), ⟨hmem, rfl⟩, rfl⟩
        have hmember : c.IsMemberOf (some form) = true ↔ X ∈ c.m_members := by
          simp [Collection.IsMemberOf, hid]
        simp only [htargets, hmember, Option.isSome_some, true_and]
  · rw [if_neg hany]
    have hnot : ∀ l, (X, l) ∉ multimap := by
      intro l hmem
      apply hany
      simp only [List.any_eq_true, beq_iff_eq]
      exact ⟨(X, l), hmem, rfl⟩
    simp [hnot]

theorem observeFold_spec (g : Game) (multimap : List (FormID × String)) (gameTime : Int)
    (label : String) (items : List FormID) (c : Collection)
    (hlookup : ∀ id form, g.LookupByID id = some form → form.formID = id) :
    (items.foldl (observeIn g multimap gameTime label) c).m_policy = c.m_policy ∧
    (items.foldl (observeIn g multimap gameTime label) c).m_members = c.m_members ∧
    (c.m_policy.m_action = SpecialObjectHandling.DoNotLoot →
      items.foldl (observeIn g multimap gameTime label) c = c) ∧
    ∀ Y, observedContains (items.foldl (observeIn g multimap gameTime label) c).m_observed Y
        = true ↔
      observedContains c.m_observed Y = true ∨
        (Y ∈ items ∧ (g.LookupByID Y).isSome = true ∧ (Y, label) ∈ multimap ∧
          c.m_policy.m_action ≠ SpecialObjectHandling.DoNotLoot ∧ Y ∈ c.m_members) := by
  induction items generalizing c with
  | nil => simp
  | cons X rest ih =>
      rw [List.foldl_cons]
      obtain ⟨h1, h2, h3, h4⟩ := ih (observeIn g multimap gameTime label c X)
      obtain ⟨k1, k2, k3, k4⟩ := observeIn_spec g multimap gameTime label c X hlookup
      refine ⟨h1.trans k1, h2.trans k2, fun hD => ?_, fun Y => ?_⟩
      · have h3' := h3 (by rw [k1]; exact hD)
        rw [k3 hD] at h3' ⊢
        exact h3'
      · rw [h4, k4, k1, k2]
        simp only [List.mem_cons]
        constructor
        · rintro ((h | ⟨hY, hrest⟩) | ⟨hY, hrest⟩)
          · exact Or.inl h
          · subst hY
            exact Or.inr ⟨Or.inl rfl, hrest⟩
          · exact Or.inr ⟨Or.inr hY, hrest⟩
        · rintro (h | ⟨hY | hY, hrest⟩)
          · exact Or.inl (Or.inl h)
          · subst hY
            exact Or.inl (Or.inr ⟨rfl, hrest⟩)
          · exact Or.inr ⟨hY, hrest⟩

/-- C15: on an active manager whose reverse-multimap entries are members of the
collections they point to, and with a form lookup that returns the form of the identity
asked for, `ProcessAddedItems` leaves the pending queue empty; afterwards a collection has
an identity X observed exactly when it had it observed before or X was drained, resolves
to a form, is claimed by that collection and the policy action of the collection is not
`DoNotLoot`; policy and member set are unchanged, and a collection whose policy action is
`DoNotLoot` is left exactly as it was. -/
theorem ProcessAddedItems_records (g : Game) (nowTime : Int) (s : CollectionManager)
    (hactive : s.IsActive = true)
    (hlookup : ∀ id form, g.LookupByID id = some form → form.formID = id)
    (hmembers : ∀ e ∈ s.m_collectionsByFormID,
      ∃ c, s.collection e.2 = some c ∧ e.1 ∈ c.m_members) :
    (ProcessAddedItems g nowTime s).1.m_addedItemQueue = [] ∧
    ∀ (label : String) (c0 : Collection), s.collection label = some c0 →
      ∃ c, (ProcessAddedItems g nowTime s).1.collection label = some c ∧
        c.m_policy = c0.m_policy ∧ c.m_members = c0.m_members ∧
        (c0.m_policy.m_action = SpecialObjectHandling.DoNotLoot → c = c0) ∧
        ∀ X, observedContains c.m_observed X = true ↔
          observedContains c0.m_observed X = true ∨
            (X ∈ drained g nowTime s ∧ (g.LookupByID X).isSome = true ∧
              (X, label) ∈ s.m_collectionsByFormID ∧
              c0.m_policy.m_action ≠ SpecialObjectHandling.DoNotLoot) := by
  rw [ProcessAddedItems_eq g nowTime s hactive]
  obtain ⟨hreg, hmm, htime⟩ := reconciled_frame g nowTime s
  obtain ⟨start, hstart⟩ : ∃ st : CollectionManager,
      st = { reconciled g nowTime s with m_addedItemQueue := [] } := ⟨_, rfl⟩
  have e1 : start.m_collectionsByFormID = s.m_collectionsByFormID := by rw [hstart]; exact hmm
  have e2 : start.m_gameTime = s.m_gameTime := by rw [hstart]; exact htime
  have e3 : ∀ label, start.collection label = s.collection label := by
    intro label
    rw [hstart]
    show (reconciled g nowTime s).m_allCollectionsByLabel.lookup label = _
    rw [hreg]
    rfl
  have e4 : start.m_addedItemQueue = [] := by rw [hstart]
  rw [← hstart]
  refine ⟨((processFold_collection g _ (start, []) "").2).trans e4, fun label c0 hc0 => ?_⟩
  have hfold := (processFold_collection g (drained g nowTime s) (start, []) label).1
  simp only [e1, e2, e3, hc0, Option.map_some'] at hfold
  obtain ⟨h1, h2, h3, h4⟩ := observeFold_spec g s.m_collectionsByFormID s.m_gameTime label
    (drained g nowTime s) c0 hlookup
  refine ⟨_, hfold, h1, h2, h3, fun X => ?_⟩
  rw [h4]
  constructor
  · rintro (h | ⟨hX, hsome, hmem, hact, -⟩)
    · exact Or.inl h
    · exact Or.inr ⟨hX, hsome, hmem, hact⟩
  · rintro (h | ⟨hX, hsome, hmem, hact⟩)
    · exact Or.inl h
    · obtain ⟨c, hc, hin⟩ := hmembers (X, label) hmem
      rw [hc0] at hc
      cases hc
      exact Or.inr ⟨hX, hsome, hmem, hact, hin⟩

theorem exGame_lookup : ∀ id form, exGame.LookupByID id = some form → form.formID = id := by
  intro id form h
  unfold exGame at h
  dsimp only at h
  split_ifs at h with hid
  · cases h
    exact hid.symm

theorem exQueued_members : ∀ e ∈ exQueued.m_collectionsByFormID,
    ∃ c, exQueued.collection e.2 = some c ∧ e.1 ∈ c.m_members := by
  intro e he
  have hmm : exQueued.m_collectionsByFormID = [(7, "G/Food")] := by decide
  rw [hmm] at he
  have : e = (7, "G/Food") := by simpa using he
  subst this
  exact ⟨exColl, rfl, by decide⟩

/-- Draining the queue that holds identity 7 empties it and records 7 in the one
collection, which claims it and has the action Glow. -/
theorem ProcessAddedItems_records_witness :
    exQueued.IsActive = true ∧
    (ProcessAddedItems exGame 0 exQueued).1.m_addedItemQueue = [] ∧
    (ProcessAddedItems exGame 0 exQueued).1.m_allCollectionsByLabel.map
      (fun e => (e.1, e.2.m_observed.map (fun o => o.1))) = [("G/Food", [7])] :=
  ⟨rfl,
   (ProcessAddedItems_records exGame 0 exQueued rfl exGame_lookup exQueued_members).1,
   by decide⟩

/-! ## The looting decision: effects of the guards -/

open TryLootREFR

theorem NoDispatch_nil : NoDispatch [] := by
  intro e he; cases he

theorem NoDispatch_append {xs ys : List Effect} (hx : NoDispatch xs) (hy : NoDispatch ys) :
    NoDispatch (xs ++ ys) := by
  intro e he
  rcases List.mem_append.mp he with h | h
  · exact hx e h
  · exact hy e h

theorem resolveProducer_error (env : LootContext) (self : TryLootREFR) (refr : TESObjectREFR)
    (refrEx : LootableREFR) (objType : ObjectType) (dryRun : Bool) (out : Outcome)
    (h : resolveProducer env self refr refrEx objType dryRun = .error out) :
    NoDispatch out.effects := by
  unfold resolveProducer at h
  by_cases h1 : (!dryRun && decide (objType = ObjectType.critter)) = true
  · rw [if_pos h1] at h
    cases hl : env.GetLootableForProducer refr.baseObject with
    | some l => rw [hl] at h; cases h
    | none =>
        rw [hl] at h
        injection h with h
        subst h
        intro e he
        dsimp only at he
        by_cases hs : env.SetLootableForProducer refr.baseObject = true
        · rw [if_pos hs] at he
          simp at he
          rcases he with rfl | rfl <;> rfl
        · rw [if_neg hs] at he
          simp at he
          subst he; rfl
  · rw [if_neg h1] at h; cases h

theorem collectibilityGuard_error (env : LootContext) (refr : TESObjectREFR) (dryRun : Bool)
    (L : ItemLocals) (out : Outcome) (hL : NoDispatch L.effects)
    (h : collectibilityGuard env refr dryRun L = .error out) : NoDispatch out.effects := by
  unfold collectibilityGuard at h
  by_cases h1 : L.collectible.1 = true
  · rw [if_pos h1] at h
    dsimp only at h
    by_cases h2 : (!env.CanLootCollectible L.collectible.2) = true
    · rw [if_pos h2] at h
      by_cases h3 : L.collectible.2 = SpecialObjectHandling.Print
      · rw [if_pos h3] at h
        injection h with h
        subst h
        dsimp only
        cases dryRun
        · exact NoDispatch_append hL (by intro e he; simp at he; subst he; rfl)
        · exact hL
      · rw [if_neg h3] at h
        by_cases h4 : L.collectible.2 = SpecialObjectHandling.GlowTarget
        · rw [if_pos h4] at h; cases h
        · rw [if_neg h4] at h
          injection h with h
          subst h
          dsimp only
          cases dryRun
          · exact NoDispatch_append hL (by intro e he; simp at he; subst he; rfl)
          · exact hL
    · rw [if_neg h2] at h; cases h
  · rw [if_neg h1] at h; cases h

theorem collectibilityGuard_ok (env : LootContext) (refr : TESObjectREFR) (dryRun : Bool)
    (L L1 : ItemLocals) (h : collectibilityGuard env refr dryRun L = .ok L1) :
    L1.effects = L.effects := by
  unfold collectibilityGuard at h
  by_cases h1 : L.collectible.1 = true
  · rw [if_pos h1] at h
    dsimp only at h
    by_cases h2 : (!env.CanLootCollectible L.collectible.2) = true
    · rw [if_pos h2] at h
      by_cases h3 : L.collectible.2 = SpecialObjectHandling.Print
      · rw [if_pos h3] at h; cases h
      · rw [if_neg h3] at h
        by_cases h4 : L.collectible.2 = SpecialObjectHandling.GlowTarget
        · rw [if_pos h4] at h; injection h with h; subst h; rfl
        · rw [if_neg h4] at h; cases h
    · rw [if_neg h2] at h; injection h with h; subst h; rfl
  · rw [if_neg h1] at h; injection h with h; subst h; rfl

theorem collectibilityGuard_stolen (env : LootContext) (refr : TESObjectREFR) (dryRun : Bool)
    (L L1 : ItemLocals) (h : collectibilityGuard env refr dryRun L = .ok L1) :
    L1.self.m_stolen = L.self.m_stolen := by
  unfold collectibilityGuard at h
  by_cases h1 : L.collectible.1 = true
  · rw [if_pos h1] at h
    dsimp only at h
    by_cases h2 : (!env.CanLootCollectible L.collectible.2) = true
    · rw [if_pos h2] at h
      by_cases h3 : L.collectible.2 = SpecialObjectHandling.Print
      · rw [if_pos h3] at h; cases h
      · rw [if_neg h3] at h
        by_cases h4 : L.collectible.2 = SpecialObjectHandling.GlowTarget
        · rw [if_pos h4] at h; injection h with h; subst h; rfl
        · rw [if_neg h4] at h; cases h
    · rw [if_neg h2] at h; injection h with h; subst h; rfl
  · rw [if_neg h1] at h; injection h with h; subst h; rfl

theorem collectibilityGuard_targetType (env : LootContext) (refr : TESObjectREFR)
    (dryRun : Bool) (L L1 : ItemLocals) (h : collectibilityGuard env refr dryRun L = .ok L1) :
    L1.self.m_targetType = L.self.m_targetType := by
  unfold collectibilityGuard at h
  by_cases h1 : L.collectible.1 = true
  · rw [if_pos h1] at h
    dsimp only at h
    by_cases h2 : (!env.CanLootCollectible L.collectible.2) = true
    · rw [if_pos h2] at h
      by_cases h3 : L.collectible.2 = SpecialObjectHandling.Print
      · rw [if_pos h3] at h; cases h
      · rw [if_neg h3] at h
        by_cases h4 : L.collectible.2 = SpecialObjectHandling.GlowTarget
        · rw [if_pos h4] at h; injection h with h; subst h; rfl
        · rw [if_neg h4] at h; cases h
    · rw [if_neg h2] at h; injection h with h; subst h; rfl
  · rw [if_neg h1] at h; injection h with h; subst h; rfl

theorem typeGuard_error (env : LootContext) (refr : TESObjectREFR) (objType : ObjectType)
    (dryRun : Bool) (L : ItemLocals) (out : Outcome) (hL : NoDispatch L.effects)
    (h : typeGuard env refr objType dryRun L = .error out) : NoDispatch out.effects := by
  unfold typeGuard at h
  by_cases h1 : objType = ObjectType.unknown
  · rw [if_pos h1] at h
    injection h with h
    subst h
    dsimp only
    cases dryRun
    · exact NoDispatch_append hL (by intro e he; simp at he; subst he; rfl)
    · exact hL
  · rw [if_neg h1] at h
    by_cases h2 : env.BlackListContains refr.baseObject = true
    · rw [if_pos h2] at h; injection h with h; subst h; exact hL
    · rw [if_neg h2] at h; cases h

theorem typeGuard_ok (env : LootContext) (refr : TESObjectREFR) (objType : ObjectType)
    (dryRun : Bool) (L L1 : ItemLocals)
    (h : typeGuard env refr objType dryRun L = .ok L1) : L1 = L := by
  unfold typeGuard at h
  by_cases h1 : objType = ObjectType.unknown
  · rw [if_pos h1] at h; cases h
  · rw [if_neg h1] at h
    by_cases h2 : env.BlackListContains refr.baseObject = true
    · rw [if_pos h2] at h; cases h
    · rw [if_neg h2] at h; injection h with h; exact h.symm

theorem entryGuards_error (env : LootContext) (self : TryLootREFR) (refr : TESObjectREFR)
    (dryRun : Bool) (out : Outcome) (h : entryGuards env self refr dryRun = .error out) :
    NoDispatch out.effects := by
  unfold entryGuards at h
  dsimp only at h
  split at h
  · rename_i out1 h1
    injection h with h
    subst h
    exact resolveProducer_error _ _ _ _ _ _ _ h1
  · rename_i refrEx1 h1
    split at h
    · rename_i out2 h2
      injection h with h
      subst h
      exact collectibilityGuard_error _ _ _ _ _ NoDispatch_nil h2
    · rename_i L1 h2
      have e1 := collectibilityGuard_ok _ _ _ _ _ h2
      split at h
      · rename_i out3 h3
        injection h with h
        subst h
        exact typeGuard_error _ _ _ _ _ _ (by rw [e1]; exact NoDispatch_nil) h3
      · cases h

theorem entryGuards_ok (env : LootContext) (self : TryLootREFR) (refr : TESObjectREFR)
    (dryRun : Bool) (refrEx : LootableREFR) (objType : ObjectType) (L : ItemLocals)
    (h : entryGuards env self refr dryRun = .ok (refrEx, objType, L)) :
    L.effects = [] ∧ L.self.m_stolen = self.m_stolen ∧ L.self.m_targetType = self.m_targetType := by
  unfold entryGuards at h
  dsimp only at h
  split at h
  · cases h
  · rename_i refrEx1 h1
    split at h
    · cases h
    · rename_i L1 h2
      split at h
      · cases h
      · rename_i L2 h3
        injection h with h
        injection h with _ h
        injection h with _ h
        subst h
        have e3 := typeGuard_ok _ _ _ _ _ _ h3
        subst e3
        refine ⟨collectibilityGuard_ok _ _ _ _ _ h2, ?_, ?_⟩
        · exact collectibilityGuard_stolen _ _ _ _ _ h2
        · exact collectibilityGuard_targetType _ _ _ _ _ h2

theorem LootingLegality_frame (env : LootContext) (self : TryLootREFR) (refr : TESObjectREFR)
    (targetType : SecondaryType) :
    (LootingLegality env self refr targetType).2.m_stolen = self.m_stolen ∧
    (LootingLegality env self refr targetType).2.m_targetType = self.m_targetType := by
  unfold LootingLegality
  dsimp only
  split_ifs <;> exact ⟨rfl, rfl⟩

theorem LootingLegality_verdict_congr (env : LootContext) (self self1 : TryLootREFR)
    (refr : TESObjectREFR) (targetType : SecondaryType) (h : self1.m_stolen = self.m_stolen) :
    (LootingLegality env self1 refr targetType).1 =
      (LootingLegality env self refr targetType).1 := by
  unfold LootingLegality
  dsimp only
  rw [h]
  split_ifs <;> rfl

theorem ItemLootingLegality_frame (env : LootContext) (self : TryLootREFR)
    (refr : TESObjectREFR) (isCollectible : Bool) :
    (ItemLootingLegality env self refr isCollectible).2.m_stolen = self.m_stolen ∧
    (ItemLootingLegality env self refr isCollectible).2.m_targetType = self.m_targetType := by
  unfold ItemLootingLegality
  dsimp only
  split_ifs <;> exact LootingLegality_frame env self refr _

theorem ItemLootingLegality_verdict (env : LootContext) (self : TryLootREFR)
    (refr : TESObjectREFR) (isCollectible : Bool) :
    (ItemLootingLegality env self refr isCollectible).1 =
      if isCollectible = true ∧
          env.LootOwnedItemIfCollectible
            (LootingLegality env self refr SecondaryType.itemObjects).1 = true
      then Lootability.Lootable
      else (LootingLegality env self refr SecondaryType.itemObjects).1 := by
  unfold ItemLootingLegality
  dsimp only
  by_cases h : (isCollectible &&
      env.LootOwnedItemIfCollectible
        (LootingLegality env self refr SecondaryType.itemObjects).1) = true
  · rw [if_pos h, if_pos (by simpa using h)]
  · rw [if_neg h, if_neg (by simpa using h)]

theorem ItemLootingLegality_verdict_congr (env : LootContext) (self self1 : TryLootREFR)
    (refr : TESObjectREFR) (isCollectible : Bool) (h : self1.m_stolen = self.m_stolen) :
    (ItemLootingLegality env self1 refr isCollectible).1 =
      (ItemLootingLegality env self refr isCollectible).1 := by
  rw [ItemLootingLegality_verdict, ItemLootingLegality_verdict,
    LootingLegality_verdict_congr env self self1 refr _ h]

theorem questGuard_frame (env : LootContext) (refr : TESObjectREFR) (refrEx : LootableREFR)
    (objType : ObjectType) (L : ItemLocals) :
    (questGuard env refr refrEx objType L).effects = L.effects ∧
    (questGuard env refr refrEx objType L).self.m_stolen = L.self.m_stolen ∧
    (questGuard env refr refrEx objType L).self.m_targetType = L.self.m_targetType := by
  unfold questGuard
  dsimp only
  split_ifs <;> exact ⟨rfl, rfl, rfl⟩

theorem valuableGuard_frame (env : LootContext) (refrEx : LootableREFR) (L : ItemLocals) :
    (valuableGuard env refrEx L).effects = L.effects ∧
    (valuableGuard env refrEx L).self.m_stolen = L.self.m_stolen ∧
    (valuableGuard env refrEx L).self.m_targetType = L.self.m_targetType ∧
    (valuableGuard env refrEx L).collectible = L.collectible := by
  unfold valuableGuard
  dsimp only
  split_ifs <;> exact ⟨rfl, rfl, rfl, rfl⟩

theorem ammoGuard_frame (env : LootContext) (refr : TESObjectREFR) (objType : ObjectType)
    (L : ItemLocals) :
    (ammoGuard env refr objType L).effects = L.effects ∧
    (ammoGuard env refr objType L).self = L.self ∧
    (ammoGuard env refr objType L).collectible = L.collectible := by
  unfold ammoGuard
  split_ifs <;> exact ⟨rfl, rfl, rfl⟩

theorem policyGuards_frame (env : LootContext) (refr : TESObjectREFR) (refrEx : LootableREFR)
    (objType : ObjectType) (L : ItemLocals) :
    (policyGuards env refr refrEx objType L).effects = L.effects ∧
    (policyGuards env refr refrEx objType L).self.m_stolen = L.self.m_stolen ∧
    (policyGuards env refr refrEx objType L).self.m_targetType = L.self.m_targetType := by
  unfold policyGuards
  obtain ⟨a1, a2, a3⟩ := ammoGuard_frame env refr objType
    (valuableGuard env refrEx (questGuard env refr refrEx objType L))
  obtain ⟨v1, v2, v3, _⟩ := valuableGuard_frame env refrEx (questGuard env refr refrEx objType L)
  obtain ⟨q1, q2, q3⟩ := questGuard_frame env refr refrEx objType L
  refine ⟨by rw [a1, v1, q1], by rw [a2, v2, q2], by rw [a2, v3, q3]⟩

theorem legalityGuard_frame (env : LootContext) (refr : TESObjectREFR) (L : ItemLocals) :
    (legalityGuard env refr L).1.effects = L.effects ∧
    (legalityGuard env refr L).1.self.m_stolen = L.self.m_stolen ∧
    (legalityGuard env refr L).1.self.m_targetType = L.self.m_targetType ∧
    (legalityGuard env refr L).1.collectible = L.collectible ∧
    (legalityGuard env refr L).2 = (ItemLootingLegality env L.self refr L.collectible.1).1 := by
  unfold legalityGuard
  dsimp only
  obtain ⟨f1, f2⟩ := ItemLootingLegality_frame env L.self refr L.collectible.1
  split_ifs <;> exact ⟨rfl, f1, f2, rfl, rfl⟩

theorem legalityGuard_skip (env : LootContext) (refr : TESObjectREFR) (L : ItemLocals)
    (h : (ItemLootingLegality env L.self refr L.collectible.1).1 ≠ Lootability.Lootable) :
    (legalityGuard env refr L).1.skipLooting = true := by
  unfold legalityGuard
  dsimp only
  rw [if_pos h]

theorem glowStage_frame (refr : TESObjectREFR) (dryRun : Bool) (L : ItemLocals) :
    (NoDispatch L.effects → NoDispatch (glowStage refr dryRun L).effects) ∧
    (glowStage refr dryRun L).self = L.self ∧
    (glowStage refr dryRun L).collectible = L.collectible ∧
    (glowStage refr dryRun L).skipLooting = L.skipLooting ∧
    (glowStage refr dryRun L).result = L.result := by
  unfold glowStage
  split_ifs
  · refine ⟨fun h => NoDispatch_append h ?_, rfl, rfl, rfl, rfl⟩
    intro e he
    simp at he
    subst he
    rfl
  · exact ⟨id, rfl, rfl, rfl, rfl⟩

theorem locationGuard_frame (env : LootContext) (refr : TESObjectREFR) (objType : ObjectType)
    (L : ItemLocals) :
    (locationGuard env refr objType L).effects = L.effects ∧
    (locationGuard env refr objType L).self = L.self ∧
    (locationGuard env refr objType L).collectible = L.collectible ∧
    (L.skipLooting = true → (locationGuard env refr objType L).skipLooting = true) := by
  unfold locationGuard
  split_ifs
  · exact ⟨rfl, rfl, rfl, fun _ => rfl⟩
  · exact ⟨rfl, rfl, rfl, id⟩

theorem lootingTypeStage_frame (env : LootContext) (refr : TESObjectREFR)
    (objType : ObjectType) (dryRun : Bool) (forbidden : Lootability) (L : ItemLocals) :
    (NoDispatch L.effects →
      NoDispatch (lootingTypeStage env refr objType dryRun forbidden L).1.effects) ∧
    (lootingTypeStage env refr objType dryRun forbidden L).1.self = L.self ∧
    (lootingTypeStage env refr objType dryRun forbidden L).1.collectible = L.collectible := by
  have one : ∀ e : Effect, e.isDispatch = false → NoDispatch L.effects →
      NoDispatch (L.effects ++ [e]) := by
    intro e he h
    refine NoDispatch_append h ?_
    intro e1 he1
    simp at he1
    subst he1
    exact he
  unfold lootingTypeStage
  dsimp only
  split_ifs <;> first
    | exact ⟨id, rfl, rfl⟩
    | exact ⟨one _ rfl, rfl, rfl⟩

theorem lootingTypeStage_skip (env : LootContext) (refr : TESObjectREFR)
    (objType : ObjectType) (dryRun : Bool) (forbidden : Lootability) (L : ItemLocals)
    (hf : forbidden ≠ Lootability.Lootable) (hs : L.skipLooting = true) :
    (lootingTypeStage env refr objType dryRun forbidden L).1.skipLooting = true := by
  unfold lootingTypeStage
  dsimp only
  split_ifs with h1 h2 h3 h4 h5
  all_goals first
    | rfl
    | exact hs
    | (simp only [decide_eq_true_eq]; exact hf)

theorem finalDispatch_skip (env : LootContext) (refr : TESObjectREFR) (refrEx : LootableREFR)
    (objType : ObjectType) (dryRun : Bool) (lootingType : LootingType) (L : ItemLocals)
    (h : L.skipLooting = true ∨ dryRun = true) :
    finalDispatch env refr refrEx objType dryRun lootingType L =
      { verdict := L.result, effects := L.effects, self := L.self } := by
  unfold finalDispatch
  rw [if_pos (by simpa using h)]

theorem finalDispatch_cases (env : LootContext) (refr : TESObjectREFR) (refrEx : LootableREFR)
    (objType : ObjectType) (dryRun : Bool) (lootingType : LootingType) (L : ItemLocals) :
    ((L.skipLooting = true ∨ dryRun = true) ∧
      finalDispatch env refr refrEx objType dryRun lootingType L =
        { verdict := L.result, effects := L.effects, self := L.self }) ∨
    (L.skipLooting = false ∧ dryRun = false ∧ theftCheckDue env L.self refr = true ∧
      finalDispatch env refr refrEx objType dryRun lootingType L =
        { verdict := Lootability.ItemTheftTriggered
          effects := L.effects ++ [Effect.DelayStealableItem refr.formID L.self.m_targetType]
          self := L.self }) ∨
    (L.skipLooting = false ∧ dryRun = false ∧ theftCheckDue env L.self refr = false ∧
      objType = ObjectType.oreVein ∧
      finalDispatch env refr refrEx objType dryRun lootingType L =
        { verdict := L.result
          effects :=
            L.effects ++
              [Effect.BlockReference refr.formID Lootability.CannotMineTwiceInSameCellVisit,
               Effect.TriggerMining refr.formID (env.OreVeinResourceType refr.baseObject)
                 env.ManualLootTargetNotify]
          self := L.self }) ∨
    (L.skipLooting = false ∧ dryRun = false ∧ theftCheckDue env L.self refr = false ∧
      objType ≠ ObjectType.oreVein ∧
      env.LockHarvest refr (!env.LootingRequiresNotification lootingType) = false ∧
      finalDispatch env refr refrEx objType dryRun lootingType L =
        { verdict := Lootability.HarvestOperationPending
          effects :=
            L.effects ++
              [Effect.LockHarvest refr.formID (!env.LootingRequiresNotification lootingType)
                false]
          self := L.self }) ∨
    (L.skipLooting = false ∧ dryRun = false ∧ theftCheckDue env L.self refr = false ∧
      objType ≠ ObjectType.oreVein ∧
      env.LockHarvest refr (!env.LootingRequiresNotification lootingType) = true ∧
      finalDispatch env refr refrEx objType dryRun lootingType L =
        { verdict := L.result
          effects :=
            L.effects ++
              [Effect.LockHarvest refr.formID (!env.LootingRequiresNotification lootingType)
                true,
               Effect.TriggerHarvest refr.formID objType (env.GetItemCount refrEx)
                 (!env.LootingRequiresNotification lootingType ||
                   decide (env.PendingHarvestNotifications > HarvestSpamLimit))
                 L.collectible.1 env.PerkIngredientMultiplier]
          self := L.self }) := by
  by_cases h1 : (L.skipLooting || dryRun) = true
  · left
    exact ⟨by simpa using h1, finalDispatch_skip _ _ _ _ _ _ _ (by simpa using h1)⟩
  · right
    have hs : L.skipLooting = false := by
      cases h : L.skipLooting
      · rfl
      · rw [h] at h1; simp at h1
    have hd : dryRun = false := by
      cases dryRun
      · rfl
      · simp at h1
    unfold finalDispatch
    rw [if_neg h1]
    by_cases h2 : theftCheckDue env L.self refr = true
    · left
      refine ⟨hs, hd, h2, ?_⟩
      unfold theftCheckDue at h2
      rw [if_pos h2]
    · right
      have h2f : theftCheckDue env L.self refr = false := by
        cases h : theftCheckDue env L.self refr
        · rfl
        · exact absurd h h2
      unfold theftCheckDue at h2
      rw [if_neg h2]
      by_cases h3 : objType = ObjectType.oreVein
      · left
        refine ⟨hs, hd, h2f, h3, ?_⟩
        rw [if_pos h3]
      · right
        rw [if_neg h3]
        dsimp only
        cases h4 : env.LockHarvest refr (!env.LootingRequiresNotification lootingType)
        · left
          exact ⟨hs, hd, h2f, h3, rfl, by simp⟩
        · right
          exact ⟨hs, hd, h2f, h3, rfl, by simp⟩

theorem ProcessItemObjects_error (env : LootContext) (self : TryLootREFR)
    (refr : TESObjectREFR) (dryRun : Bool) (out : Outcome)
    (h : entryGuards env self refr dryRun = .error out) :
    ProcessItemObjects env self refr dryRun = out := by
  unfold ProcessItemObjects
  rw [h]

theorem legalityInput_none (env : LootContext) (self : TryLootREFR)
    (refr : TESObjectREFR) (dryRun : Bool)
    (h : legalityInput env self refr dryRun = none) :
    ∃ out, entryGuards env self refr dryRun = .error out := by
  unfold legalityInput at h
  cases hg : entryGuards env self refr dryRun with
  | error out => exact ⟨out, rfl⟩
  | ok v => rw [hg] at h; cases h

theorem legalityInput_some (env : LootContext) (self : TryLootREFR)
    (refr : TESObjectREFR) (dryRun : Bool) (refrEx : LootableREFR) (objType : ObjectType)
    (L : ItemLocals) (h : legalityInput env self refr dryRun = some (refrEx, objType, L)) :
    ∃ L2, entryGuards env self refr dryRun = .ok (refrEx, objType, L2) ∧
      L = policyGuards env refr refrEx objType L2 := by
  unfold legalityInput at h
  cases hg : entryGuards env self refr dryRun with
  | error out => rw [hg] at h; cases h
  | ok v =>
      obtain ⟨r, o, L2⟩ := v
      rw [hg] at h
      simp only [Option.some.injEq, Prod.mk.injEq] at h
      obtain ⟨rfl, rfl, rfl⟩ := h
      exact ⟨L2, rfl, rfl⟩

theorem legalityInput_frame (env : LootContext) (self : TryLootREFR)
    (refr : TESObjectREFR) (dryRun : Bool) (refrEx : LootableREFR) (objType : ObjectType)
    (L : ItemLocals) (h : legalityInput env self refr dryRun = some (refrEx, objType, L)) :
    L.effects = [] ∧ L.self.m_stolen = self.m_stolen ∧
      L.self.m_targetType = self.m_targetType := by
  obtain ⟨L2, hg, rfl⟩ := legalityInput_some _ _ _ _ _ _ _ h
  obtain ⟨e1, e2, e3⟩ := entryGuards_ok _ _ _ _ _ _ _ hg
  obtain ⟨p1, p2, p3⟩ := policyGuards_frame env refr refrEx objType L2
  exact ⟨by rw [p1, e1], by rw [p2, e2], by rw [p3, e3]⟩

theorem ProcessItemObjects_of_legalityInput (env : LootContext) (self : TryLootREFR)
    (refr : TESObjectREFR) (dryRun : Bool) (refrEx : LootableREFR) (objType : ObjectType)
    (L : ItemLocals) (h : legalityInput env self refr dryRun = some (refrEx, objType, L)) :
    ProcessItemObjects env self refr dryRun =
      finalDispatch env refr refrEx objType dryRun
        (lootingStages env refr objType dryRun (legalityGuard env refr L).2
          (legalityGuard env refr L).1).2
        (lootingStages env refr objType dryRun (legalityGuard env refr L).2
          (legalityGuard env refr L).1).1 := by
  obtain ⟨L2, hg, rfl⟩ := legalityInput_some _ _ _ _ _ _ _ h
  unfold ProcessItemObjects
  rw [hg]

theorem lootingStages_frame (env : LootContext) (refr : TESObjectREFR)
    (objType : ObjectType) (dryRun : Bool) (forbidden : Lootability) (L : ItemLocals) :
    (NoDispatch L.effects →
      NoDispatch (lootingStages env refr objType dryRun forbidden L).1.effects) ∧
    (lootingStages env refr objType dryRun forbidden L).1.self = L.self ∧
    (lootingStages env refr objType dryRun forbidden L).1.collectible = L.collectible := by
  unfold lootingStages
  obtain ⟨t1, t2, t3⟩ := lootingTypeStage_frame env refr objType dryRun forbidden
    (locationGuard env refr objType (glowStage refr dryRun L))
  obtain ⟨l1, l2, l3, _⟩ := locationGuard_frame env refr objType (glowStage refr dryRun L)
  obtain ⟨g1, g2, g3, _, _⟩ := glowStage_frame refr dryRun L
  refine ⟨fun h => t1 (by rw [l1]; exact g1 h), by rw [t2, l2, g2], by rw [t3, l3, g3]⟩

theorem lootingStages_skip (env : LootContext) (refr : TESObjectREFR)
    (objType : ObjectType) (dryRun : Bool) (forbidden : Lootability) (L : ItemLocals)
    (hf : forbidden ≠ Lootability.Lootable) (hs : L.skipLooting = true) :
    (lootingStages env refr objType dryRun forbidden L).1.skipLooting = true := by
  unfold lootingStages
  apply lootingTypeStage_skip _ _ _ _ _ _ hf
  apply (locationGuard_frame env refr objType _).2.2.2
  rw [(glowStage_frame refr dryRun L).2.2.2.1]
  exact hs

theorem dispatchInput_frame (env : LootContext) (self : TryLootREFR)
    (refr : TESObjectREFR) (dryRun : Bool) (refrEx : LootableREFR) (objType : ObjectType)
    (L : ItemLocals) (lootingType : LootingType)
    (h : dispatchInput env self refr dryRun = some (refrEx, objType, L, lootingType)) :
    NoDispatch L.effects ∧ L.self.m_stolen = self.m_stolen ∧
      L.self.m_targetType = self.m_targetType ∧
      ProcessItemObjects env self refr dryRun =
        finalDispatch env refr refrEx objType dryRun lootingType L := by
  unfold dispatchInput at h
  cases hin : legalityInput env self refr dryRun with
  | none => rw [hin] at h; cases h
  | some v =>
      obtain ⟨r, o, L5⟩ := v
      rw [hin] at h
      simp only [Option.some.injEq, Prod.mk.injEq] at h
      obtain ⟨rfl, rfl, rfl, rfl⟩ := h
      obtain ⟨f1, f2, f3⟩ := legalityInput_frame _ _ _ _ _ _ _ hin
      obtain ⟨g1, g2, g3, _, _⟩ := legalityGuard_frame env refr L5
      obtain ⟨s1, s2, _⟩ := lootingStages_frame env refr o dryRun (legalityGuard env refr L5).2
        (legalityGuard env refr L5).1
      refine ⟨s1 (by rw [g1, f1]; exact NoDispatch_nil), by rw [s2, g2, f2], by rw [s2, g3, f3],
        ProcessItemObjects_of_legalityInput _ _ _ _ _ _ _ hin⟩

theorem dispatchInput_none (env : LootContext) (self : TryLootREFR)
    (refr : TESObjectREFR) (dryRun : Bool) (h : dispatchInput env self refr dryRun = none) :
    NoDispatch (ProcessItemObjects env self refr dryRun).effects := by
  unfold dispatchInput at h
  cases hin : legalityInput env self refr dryRun with
  | none =>
      obtain ⟨out, hg⟩ := legalityInput_none _ _ _ _ hin
      rw [ProcessItemObjects_error _ _ _ _ _ hg]
      exact entryGuards_error _ _ _ _ _ hg
  | some v =>
      obtain ⟨r, o, L5⟩ := v
      rw [hin] at h
      cases h

theorem theftCheckDue_congr (env : LootContext) (self self1 : TryLootREFR)
    (refr : TESObjectREFR) (h : self1.m_stolen = self.m_stolen) :
    theftCheckDue env self1 refr = theftCheckDue env self refr := by
  unfold theftCheckDue
  rw [h]

theorem filter_isDispatch_of_NoDispatch {es : List Effect} (h : NoDispatch es) :
    es.filter Effect.isDispatch = [] := by
  rw [List.filter_eq_nil_iff]
  intro e he
  rw [h e he]
  simp

/-! ## The looting decision: the legality guard -/

/-- C17: in a single-object call of `Process` that reaches the legality guard, if
`ItemLootingLegality` returns a verdict other than `Lootable` then the call makes no
harvest, mining or theft-check call, for every collectible action, whitelist and
blacklist content and looting type (all of them arbitrary in `env`); and
`ItemLootingLegality` departs from `LootingLegality` only for a collectible object whose
verdict `LootOwnedItemIfCollectible` accepts, for which it returns `Lootable`. -/
theorem legality_guard_authoritative (env : LootContext) (self : TryLootREFR)
    (refr : TESObjectREFR) (dryRun : Bool) (refrEx : LootableREFR) (objType : ObjectType)
    (L : ItemLocals)
    (hin : legalityInput env self refr dryRun = some (refrEx, objType, L))
    (hforbidden :
      (ItemLootingLegality env L.self refr L.collectible.1).1 ≠ Lootability.Lootable) :
    NoDispatch (ProcessItemObjects env self refr dryRun).effects ∧
    ∀ isCollectible : Bool,
      (ItemLootingLegality env L.self refr isCollectible).1 =
        if isCollectible = true ∧
            env.LootOwnedItemIfCollectible
              (LootingLegality env L.self refr SecondaryType.itemObjects).1 = true
        then Lootability.Lootable
        else (LootingLegality env L.self refr SecondaryType.itemObjects).1 := by
  refine ⟨?_, fun b => ItemLootingLegality_verdict env L.self refr b⟩
  rw [ProcessItemObjects_of_legalityInput _ _ _ _ _ _ _ hin]
  obtain ⟨f1, _, _⟩ := legalityInput_frame _ _ _ _ _ _ _ hin
  obtain ⟨g1, _, _, _, g5⟩ := legalityGuard_frame env refr L
  have hskip := lootingStages_skip env refr objType dryRun (legalityGuard env refr L).2
    (legalityGuard env refr L).1 (by rw [g5]; exact hforbidden)
    (legalityGuard_skip env refr L hforbidden)
  rw [finalDispatch_skip _ _ _ _ _ _ _ (Or.inl hskip)]
  exact (lootingStages_frame env refr objType dryRun _ _).1
    (by rw [g1, f1]; exact NoDispatch_nil)

theorem legality_guard_authoritative_witness :
    legalityInput exWantedContext exOwnedTry exOwnedRefr false =
      some (⟨exOwnedRefr, SecondaryType.itemObjects, none⟩, ObjectType.other 0,
        { self := { exOwnedTry with m_typeName := "flora" }
          result := Lootability.Lootable
          skipLooting := false
          collectible := (true, SpecialObjectHandling.DoLoot)
          effects := [] }) ∧
    (ItemLootingLegality exWantedContext { exOwnedTry with m_typeName := "flora" } exOwnedRefr
      true).1 = Lootability.CrimeToLoot ∧
    NoDispatch (ProcessItemObjects exWantedContext exOwnedTry exOwnedRefr false).effects :=
  ⟨rfl, rfl,
   (legality_guard_authoritative exWantedContext exOwnedTry exOwnedRefr false
      ⟨exOwnedRefr, SecondaryType.itemObjects, none⟩ (ObjectType.other 0)
      { self := { exOwnedTry with m_typeName := "flora" }
        result := Lootability.Lootable
        skipLooting := false
        collectible := (true, SpecialObjectHandling.DoLoot)
        effects := [] } rfl (by decide)).1⟩

/-! ## The looting decision: collectibles that are not looted -/

theorem pastProducerResolution_some (env : LootContext) (self : TryLootREFR)
    (refr : TESObjectREFR) (dryRun : Bool) (refrEx : LootableREFR)
    (h : pastProducerResolution env self refr dryRun = some refrEx) :
    resolveProducer env
      { self with
        m_typeName := env.GetTypeName
          { m_ref := refr, m_scope := self.m_targetType, m_lootable := none } }
      refr { m_ref := refr, m_scope := self.m_targetType, m_lootable := none }
      (env.GetObjectType { m_ref := refr, m_scope := self.m_targetType, m_lootable := none })
      dryRun = .ok refrEx := by
  unfold pastProducerResolution at h
  dsimp only at h
  split at h
  · cases h
  · rename_i r hr
    injection h with h
    rw [← h]
    exact hr

/-- C19: in a single-object call of `Process` that is past producer resolution, when the
collectibility check returns `(true, a)` for an action `a` that `CanLootCollectible`
rejects: if `a` is `Print` the call returns `ManualLootTarget`, and if `a` is neither
`Print` nor `Glow` it returns `ObjectIsInBlacklistCollection`. The outcome is given in
full: the only call made is `ProcessManualLootItem` on the reference, respectively
`BlockFormPermanently` on the base object, and none in a dry run; nothing that the
object-type, base-blacklist, quest, valuable, legality and location guards read takes
part in it, and no harvest, mining or theft check is dispatched. -/
theorem collectible_early_verdicts (env : LootContext) (self : TryLootREFR)
    (refr : TESObjectREFR) (dryRun : Bool) (refrEx : LootableREFR)
    (a : SpecialObjectHandling)
    (hpast : pastProducerResolution env self refr dryRun = some refrEx)
    (hcoll : env.TreatAsCollectible refrEx = (true, a))
    (hcan : env.CanLootCollectible a = false) :
    (a = SpecialObjectHandling.Print →
      ProcessItemObjects env self refr dryRun =
        { verdict := Lootability.ManualLootTarget
          effects := if dryRun = true then [] else [Effect.ProcessManualLootItem refr.formID]
          self :=
            { self with
              m_typeName := env.GetTypeName
                { m_ref := refr, m_scope := self.m_targetType, m_lootable := none }
              m_glowReason := GlowReason.None } }) ∧
    (a ≠ SpecialObjectHandling.Print → a ≠ SpecialObjectHandling.GlowTarget →
      ProcessItemObjects env self refr dryRun =
        { verdict := Lootability.ObjectIsInBlacklistCollection
          effects :=
            if dryRun = true then []
            else [Effect.BlockFormPermanently refr.baseObject
                    Lootability.ObjectIsInBlacklistCollection]
          self :=
            { self with
              m_typeName := env.GetTypeName
                { m_ref := refr, m_scope := self.m_targetType, m_lootable := none }
              m_glowReason := GlowReason.None } }) ∧
    (a ≠ SpecialObjectHandling.GlowTarget →
      NoDispatch (ProcessItemObjects env self refr dryRun).effects) := by
  have hres := pastProducerResolution_some env self refr dryRun refrEx hpast
  have hprint : a = SpecialObjectHandling.Print →
      ProcessItemObjects env self refr dryRun =
        { verdict := Lootability.ManualLootTarget
          effects := if dryRun = true then [] else [Effect.ProcessManualLootItem refr.formID]
          self :=
            { self with
              m_typeName := env.GetTypeName
                { m_ref := refr, m_scope := self.m_targetType, m_lootable := none }
              m_glowReason := GlowReason.None } } := by
    intro ha
    subst ha
    unfold ProcessItemObjects entryGuards
    dsimp only
    rw [hres]
    dsimp only
    unfold collectibilityGuard
    rw [hcoll]
    dsimp only
    rw [hcan]
    cases dryRun <;> simp
  have hblack : a ≠ SpecialObjectHandling.Print → a ≠ SpecialObjectHandling.GlowTarget →
      ProcessItemObjects env self refr dryRun =
        { verdict := Lootability.ObjectIsInBlacklistCollection
          effects :=
            if dryRun = true then []
            else [Effect.BlockFormPermanently refr.baseObject
                    Lootability.ObjectIsInBlacklistCollection]
          self :=
            { self with
              m_typeName := env.GetTypeName
                { m_ref := refr, m_scope := self.m_targetType, m_lootable := none }
              m_glowReason := GlowReason.None } } := by
    intro h1 h2
    unfold ProcessItemObjects entryGuards
    dsimp only
    rw [hres]
    dsimp only
    unfold collectibilityGuard
    rw [hcoll]
    dsimp only
    rw [hcan]
    cases dryRun <;> simp [h1, h2]
  refine ⟨hprint, hblack, ?_⟩
  intro hglow
  by_cases hp : a = SpecialObjectHandling.Print
  · rw [hprint hp]
    intro e he
    dsimp only at he
    cases dryRun
    · simp at he; subst he; rfl
    · simp at he
  · rw [hblack hp hglow]
    intro e he
    dsimp only at he
    cases dryRun
    · simp at he; subst he; rfl
    · simp at he

theorem collectible_early_verdicts_witness :
    pastProducerResolution exManualContext exTry exRefr false =
      some ⟨exRefr, SecondaryType.itemObjects, none⟩ ∧
    ProcessItemObjects exManualContext exTry exRefr false =
      { verdict := Lootability.ManualLootTarget
        effects := [Effect.ProcessManualLootItem 100]
        self := { exTry with m_typeName := "flora" } } ∧
    ProcessItemObjects exBlacklistContext exTry exRefr true =
      { verdict := Lootability.ObjectIsInBlacklistCollection
        effects := []
        self := { exTry with m_typeName := "flora" } } :=
  ⟨rfl,
   (collectible_early_verdicts exManualContext exTry exRefr false
      ⟨exRefr, SecondaryType.itemObjects, none⟩ SpecialObjectHandling.Print rfl rfl rfl).1 rfl,
   (collectible_early_verdicts exBlacklistContext exTry exRefr true
      ⟨exRefr, SecondaryType.itemObjects, none⟩ SpecialObjectHandling.DoNotLoot rfl rfl
      rfl).2.1 (by decide) (by decide)⟩

/-! ## The looting decision: the final dispatch -/

theorem not_TriggerHarvest_of_NoDispatch {es : List Effect} (h : NoDispatch es)
    (r : FormID) (o : ObjectType) (n : Int) (s c : Bool) (m : Nat) :
    Effect.TriggerHarvest r o n s c m ∉ es := by
  intro he
  have := h _ he
  simp [Effect.isDispatch] at this

theorem TriggerHarvest_position (base : List Effect) (hbase : NoDispatch base)
    (tail : List Effect) (htail : NoDispatch tail)
    (pre post : List Effect) (r : FormID) (o : ObjectType) (n : Int) (s c : Bool) (m : Nat)
    (h : base ++ tail = pre ++ Effect.TriggerHarvest r o n s c m :: post) : False := by
  have hmem : Effect.TriggerHarvest r o n s c m ∈ base ++ tail := by
    rw [h]; simp
  exact not_TriggerHarvest_of_NoDispatch (NoDispatch_append hbase htail) r o n s c m hmem

theorem TriggerHarvest_last (base : List Effect) (hbase : NoDispatch base)
    (x e : Effect) (hx : x.isDispatch = false)
    (pre post : List Effect) (r : FormID) (o : ObjectType) (n : Int) (s c : Bool) (m : Nat)
    (h : base ++ [x, e] = pre ++ Effect.TriggerHarvest r o n s c m :: post) :
    pre = base ++ [x] ∧ e = Effect.TriggerHarvest r o n s c m := by
  rcases List.append_eq_append_iff.mp h with ⟨a1, h1, h2⟩ | ⟨c1, h1, h2⟩
  · match a1, h2 with
    | [], h2 =>
        simp only [List.nil_append, List.cons.injEq] at h2
        rw [h2.1] at hx
        simp [Effect.isDispatch] at hx
    | [y], h2 =>
        simp only [List.cons_append, List.nil_append, List.cons.injEq] at h2
        obtain ⟨rfl, rfl, _⟩ := h2
        exact ⟨h1, rfl⟩
    | y :: z :: rest, h2 =>
        simp at h2
  · match c1, h2 with
    | [], h2 =>
        simp only [List.nil_append, List.cons.injEq] at h2
        rw [← h2.1] at hx
        simp [Effect.isDispatch] at hx
    | y :: rest, h2 =>
        simp only [List.cons_append, List.cons.injEq] at h2
        exfalso
        apply not_TriggerHarvest_of_NoDispatch hbase r o n s c m
        rw [h1, h2.1]
        simp

/-- C20: in every single-object call of `Process`, a `TriggerHarvest` call is made for
the candidate itself and comes straight after a `LockHarvest` call on the same reference
that returned true. When the call reaches the final dispatch for an object that is not
an ore vein (not skipped, not a dry run, no theft check due) and `LockHarvest` returns
false, the verdict is `HarvestOperationPending`, the failed lock is the last call and no
harvest, mining or theft check is dispatched; when it returns true the harvest
follows it. -/
theorem TriggerHarvest_requires_lock (env : LootContext) (self : TryLootREFR)
    (refr : TESObjectREFR) (dryRun : Bool) :
    (∀ (pre post : List Effect) (r : FormID) (o : ObjectType) (n : Int) (s c : Bool) (m : Nat),
      (ProcessItemObjects env self refr dryRun).effects =
          pre ++ Effect.TriggerHarvest r o n s c m :: post →
        r = refr.formID ∧
        ∃ (pre1 : List Effect) (isSilent : Bool),
          pre = pre1 ++ [Effect.LockHarvest refr.formID isSilent true] ∧
          env.LockHarvest refr isSilent = true) ∧
    (∀ (refrEx : LootableREFR) (objType : ObjectType) (L : ItemLocals)
        (lootingType : LootingType),
      dispatchInput env self refr dryRun = some (refrEx, objType, L, lootingType) →
      L.skipLooting = false → dryRun = false → theftCheckDue env self refr = false →
      objType ≠ ObjectType.oreVein →
        (env.LockHarvest refr (!env.LootingRequiresNotification lootingType) = false →
          (ProcessItemObjects env self refr dryRun).verdict =
              Lootability.HarvestOperationPending ∧
          (ProcessItemObjects env self refr dryRun).effects =
              L.effects ++
                [Effect.LockHarvest refr.formID
                  (!env.LootingRequiresNotification lootingType) false] ∧
          NoDispatch (ProcessItemObjects env self refr dryRun).effects) ∧
        (env.LockHarvest refr (!env.LootingRequiresNotification lootingType) = true →
          (ProcessItemObjects env self refr dryRun).effects =
              L.effects ++
                [Effect.LockHarvest refr.formID
                  (!env.LootingRequiresNotification lootingType) true,
                 Effect.TriggerHarvest refr.formID objType (env.GetItemCount refrEx)
                   (!env.LootingRequiresNotification lootingType ||
                     decide (env.PendingHarvestNotifications > HarvestSpamLimit))
                   L.collectible.1 env.PerkIngredientMultiplier])) := by
  constructor
  · intro pre post r o n s c m h
    cases hd : dispatchInput env self refr dryRun with
    | none =>
        exfalso
        have hn := dispatchInput_none _ _ _ _ hd
        apply not_TriggerHarvest_of_NoDispatch hn r o n s c m
        rw [h]
        simp
    | some v =>
        obtain ⟨refrEx, objType, L, lootingType⟩ := v
        obtain ⟨hL, _, _, hP⟩ := dispatchInput_frame _ _ _ _ _ _ _ _ hd
        rw [hP] at h
        rcases finalDispatch_cases env refr refrEx objType dryRun lootingType L with
          ⟨_, e⟩ | ⟨_, _, _, e⟩ | ⟨_, _, _, _, e⟩ | ⟨_, _, _, _, _, e⟩ | ⟨_, _, _, _, hlock, e⟩
        · rw [e] at h
          exfalso
          apply not_TriggerHarvest_of_NoDispatch hL r o n s c m
          dsimp only at h
          rw [h]
          simp
        · rw [e] at h
          exfalso
          dsimp only at h
          have hmem : Effect.TriggerHarvest r o n s c m ∈ L.effects ++
              [Effect.DelayStealableItem refr.formID L.self.m_targetType] := by
            rw [h]; simp
          rcases List.mem_append.mp hmem with h1 | h1
          · exact not_TriggerHarvest_of_NoDispatch hL r o n s c m h1
          · simp at h1
        · rw [e] at h
          exfalso
          dsimp only at h
          have hmem : Effect.TriggerHarvest r o n s c m ∈ L.effects ++
              [Effect.BlockReference refr.formID Lootability.CannotMineTwiceInSameCellVisit,
               Effect.TriggerMining refr.formID (env.OreVeinResourceType refr.baseObject)
                 env.ManualLootTargetNotify] := by
            rw [h]; simp
          rcases List.mem_append.mp hmem with h1 | h1
          · exact not_TriggerHarvest_of_NoDispatch hL r o n s c m h1
          · simp at h1
        · rw [e] at h
          exact (TriggerHarvest_position L.effects hL _
            (by intro x hx; simp at hx; subst hx; rfl) pre post r o n s c m h).elim
        · rw [e] at h
          dsimp only at h
          obtain ⟨hpre, he⟩ := TriggerHarvest_last L.effects hL
            (Effect.LockHarvest refr.formID (!env.LootingRequiresNotification lootingType) true)
            _ rfl pre post r o n s c m h
          injection he with e1
          exact ⟨e1.symm, L.effects, _, hpre, hlock⟩
  · intro refrEx objType L lootingType hd hs hdry htheft hore
    obtain ⟨hL, hst, _, hP⟩ := dispatchInput_frame _ _ _ _ _ _ _ _ hd
    have htheft1 : theftCheckDue env L.self refr = false := by
      rw [theftCheckDue_congr env self L.self refr hst]; exact htheft
    rcases finalDispatch_cases env refr refrEx objType dryRun lootingType L with
      ⟨h1, _⟩ | ⟨_, _, h1, _⟩ | ⟨_, _, _, h1, _⟩ | ⟨_, _, _, _, hlock, e⟩ |
      ⟨_, _, _, _, hlock, e⟩
    · rcases h1 with h1 | h1
      · rw [hs] at h1; cases h1
      · rw [hdry] at h1; cases h1
    · rw [htheft1] at h1; cases h1
    · exact absurd h1 hore
    · refine ⟨fun _ => ?_, fun h => ?_⟩
      · rw [hP, e]
        refine ⟨rfl, rfl, ?_⟩
        exact NoDispatch_append hL (by intro x hx; simp at hx; subst hx; rfl)
      · rw [hlock] at h; cases h
    · refine ⟨fun h => ?_, fun _ => ?_⟩
      · rw [hlock] at h; cases h
      · rw [hP, e]

theorem TriggerHarvest_requires_lock_witness :
    dispatchInput exBusyContext exTry exRefr false =
      some (⟨exRefr, SecondaryType.itemObjects, none⟩, ObjectType.other 0,
        { self := { exTry with m_typeName := "flora" }
          result := Lootability.Lootable
          skipLooting := false
          collectible := (false, SpecialObjectHandling.DoNotLoot)
          effects := [] }, LootingType.LootAlwaysNotify) ∧
    (ProcessItemObjects exBusyContext exTry exRefr false).verdict =
      Lootability.HarvestOperationPending ∧
    (ProcessItemObjects exBusyContext exTry exRefr false).effects =
      [Effect.LockHarvest 100 false false] ∧
    (ProcessItemObjects exLootContext exTry exRefr false).effects =
      [Effect.LockHarvest 100 false true,
       Effect.TriggerHarvest 100 (ObjectType.other 0) 1 false false 1] :=
  ⟨rfl,
   (((TriggerHarvest_requires_lock exBusyContext exTry exRefr false).2
      ⟨exRefr, SecondaryType.itemObjects, none⟩ (ObjectType.other 0)
      { self := { exTry with m_typeName := "flora" }
        result := Lootability.Lootable
        skipLooting := false
        collectible := (false, SpecialObjectHandling.DoNotLoot)
        effects := [] } LootingType.LootAlwaysNotify rfl rfl rfl rfl (by decide)).1 rfl).1,
   (((TriggerHarvest_requires_lock exBusyContext exTry exRefr false).2
      ⟨exRefr, SecondaryType.itemObjects, none⟩ (ObjectType.other 0)
      { self := { exTry with m_typeName := "flora" }
        result := Lootability.Lootable
        skipLooting := false
        collectible := (false, SpecialObjectHandling.DoNotLoot)
        effects := [] } LootingType.LootAlwaysNotify rfl rfl rfl rfl (by decide)).1 rfl).2.1,
   ((TriggerHarvest_requires_lock exLootContext exTry exRefr false).2
      ⟨exRefr, SecondaryType.itemObjects, none⟩ (ObjectType.other 0)
      { self := { exTry with m_typeName := "flora" }
        result := Lootability.Lootable
        skipLooting := false
        collectible := (false, SpecialObjectHandling.DoNotLoot)
        effects := [] } LootingType.LootAlwaysNotify rfl rfl rfl rfl (by decide)).2 rfl⟩

/-! ## The looting decision: collectibility against the other guards -/

theorem lootingTypeStage_collectible (env : LootContext) (refr : TESObjectREFR)
    (objType : ObjectType) (dryRun : Bool) (forbidden : Lootability) (L : ItemLocals)
    (hc : L.collectible.1 = true) (hcan : env.CanLootCollectible L.collectible.2 = true) :
    lootingTypeStage env refr objType dryRun forbidden L =
      ({ L with skipLooting := decide (forbidden ≠ Lootability.Lootable) },
        LootingType.LootAlwaysSilent) := by
  unfold lootingTypeStage
  rw [if_pos hc]
  dsimp only
  rw [if_pos hcan]

theorem lootingStages_collectible (env : LootContext) (refr : TESObjectREFR)
    (objType : ObjectType) (dryRun : Bool) (L : ItemLocals)
    (hc : L.collectible.1 = true) (hcan : env.CanLootCollectible L.collectible.2 = true) :
    (lootingStages env refr objType dryRun Lootability.Lootable L).1.skipLooting = false ∧
    (lootingStages env refr objType dryRun Lootability.Lootable L).2 =
      LootingType.LootAlwaysSilent := by
  obtain ⟨_, _, l3, _⟩ := locationGuard_frame env refr objType (glowStage refr dryRun L)
  obtain ⟨_, _, g3, _, _⟩ := glowStage_frame refr dryRun L
  unfold lootingStages
  rw [lootingTypeStage_collectible env refr objType dryRun Lootability.Lootable _
    (by rw [l3, g3]; exact hc) (by rw [l3, g3]; exact hcan)]
  exact ⟨by simp, rfl⟩

/-- C18 (counterexample): a valuable object that the valuable-object policy blocks, for
which the legality guard returns `Lootable` and which is collectible with the action
Loot, not in a dry run. Taking it is a crime and the player steals when undetected: the
call queues the theft check and returns `ItemTheftTriggered`. With the reference
already locked for harvesting, it returns `HarvestOperationPending`. In neither call is a
harvest dispatched or `Lootable` returned. -/
theorem collectible_override_not_always_harvest :
    legalityInput exThiefContext exOwnedTry exOwnedRefr false =
      some (⟨exOwnedRefr, SecondaryType.itemObjects, none⟩, ObjectType.other 0,
        { self := { exOwnedTry with m_typeName := "flora" }
          result := Lootability.CannotLootValuableObject
          skipLooting := true
          collectible := (true, SpecialObjectHandling.DoLoot)
          effects := [] }) ∧
    (ItemLootingLegality exThiefContext { exOwnedTry with m_typeName := "flora" } exOwnedRefr
      true).1 = Lootability.Lootable ∧
    exThiefContext.CanLootCollectible SpecialObjectHandling.DoLoot = true ∧
    ProcessItemObjects exThiefContext exOwnedTry exOwnedRefr false =
      { verdict := Lootability.ItemTheftTriggered
        effects := [Effect.DelayStealableItem 100 SecondaryType.itemObjects]
        self := { exOwnedTry with m_typeName := "flora" } } ∧
    legalityInput exBusyValuableContext exTry exRefr false =
      some (⟨exRefr, SecondaryType.itemObjects, none⟩, ObjectType.other 0,
        { self := { exTry with m_typeName := "flora" }
          result := Lootability.CannotLootValuableObject
          skipLooting := true
          collectible := (true, SpecialObjectHandling.DoLoot)
          effects := [] }) ∧
    (ItemLootingLegality exBusyValuableContext { exTry with m_typeName := "flora" } exRefr
      true).1 = Lootability.Lootable ∧
    ProcessItemObjects exBusyValuableContext exTry exRefr false =
      { verdict := Lootability.HarvestOperationPending
        effects := [Effect.LockHarvest 100 true false]
        self := { exTry with m_typeName := "flora" } } :=
  ⟨rfl, rfl, rfl, rfl, rfl, rfl, rfl⟩

/-- When the harvest of a collectible goes ahead although the valuable-object policy
blocked the object, the verdict returned is still the one of that policy. -/
theorem collectible_override_keeps_verdict :
    ProcessItemObjects exValuableContext exTry exRefr false =
      { verdict := Lootability.CannotLootValuableObject
        effects :=
          [Effect.LockHarvest 100 true true,
           Effect.TriggerHarvest 100 (ObjectType.other 0) 1 true true 1]
        self := { exTry with m_typeName := "flora" } } :=
  rfl

/-- C18 (amended): in a single-object call of `Process` that is not a dry run and reaches
the legality guard with the object still collectible, with an action that
`CanLootCollectible` accepts, and in which `ItemLootingLegality` returns `Lootable`, the
object is not skipped, whatever the valuable, ammunition and population-center guards
decided: the final dispatch is reached with looting type `LootAlwaysSilent`. There the
call dispatches exactly one action: the theft check (verdict `ItemTheftTriggered`) when
one is due; otherwise the mining of an ore vein; otherwise, after `LockHarvest`
succeeded, the harvest of the object flagged as collectible; and nothing, with verdict
`HarvestOperationPending`, when `LockHarvest` fails. -/
theorem collectible_override_reaches_dispatch (env : LootContext) (self : TryLootREFR)
    (refr : TESObjectREFR) (refrEx : LootableREFR) (objType : ObjectType) (L : ItemLocals)
    (hin : legalityInput env self refr false = some (refrEx, objType, L))
    (hcoll : L.collectible.1 = true)
    (hcan : env.CanLootCollectible L.collectible.2 = true)
    (hlegal : (ItemLootingLegality env L.self refr L.collectible.1).1 = Lootability.Lootable) :
    (∃ L9 : ItemLocals,
      dispatchInput env self refr false =
        some (refrEx, objType, L9, LootingType.LootAlwaysSilent) ∧
      L9.skipLooting = false ∧ L9.collectible = L.collectible) ∧
    (theftCheckDue env self refr = true →
      (ProcessItemObjects env self refr false).verdict = Lootability.ItemTheftTriggered ∧
      (ProcessItemObjects env self refr false).effects.filter Effect.isDispatch =
        [Effect.DelayStealableItem refr.formID self.m_targetType]) ∧
    (theftCheckDue env self refr = false → objType = ObjectType.oreVein →
      (ProcessItemObjects env self refr false).effects.filter Effect.isDispatch =
        [Effect.TriggerMining refr.formID (env.OreVeinResourceType refr.baseObject)
          env.ManualLootTargetNotify]) ∧
    (theftCheckDue env self refr = false → objType ≠ ObjectType.oreVein →
      env.LockHarvest refr
          (!env.LootingRequiresNotification LootingType.LootAlwaysSilent) = true →
      (ProcessItemObjects env self refr false).effects.filter Effect.isDispatch =
        [Effect.TriggerHarvest refr.formID objType (env.GetItemCount refrEx)
          (!env.LootingRequiresNotification LootingType.LootAlwaysSilent ||
            decide (env.PendingHarvestNotifications > HarvestSpamLimit))
          true env.PerkIngredientMultiplier]) ∧
    (theftCheckDue env self refr = false → objType ≠ ObjectType.oreVein →
      env.LockHarvest refr
          (!env.LootingRequiresNotification LootingType.LootAlwaysSilent) = false →
      (ProcessItemObjects env self refr false).verdict = Lootability.HarvestOperationPending ∧
      (ProcessItemObjects env self refr false).effects.filter Effect.isDispatch = []) := by
  obtain ⟨g1, g2, g3, g4, g5⟩ := legalityGuard_frame env refr L
  rw [hlegal] at g5
  have hstage := lootingStages_collectible env refr objType false (legalityGuard env refr L).1
    (by rw [g4]; exact hcoll) (by rw [g4]; exact hcan)
  obtain ⟨_, _, s3⟩ := lootingStages_frame env refr objType false Lootability.Lootable
    (legalityGuard env refr L).1
  have hd : dispatchInput env self refr false =
      some (refrEx, objType,
        (lootingStages env refr objType false Lootability.Lootable
          (legalityGuard env refr L).1).1, LootingType.LootAlwaysSilent) := by
    unfold dispatchInput
    rw [hin]
    dsimp only
    rw [g5, hstage.2]
  obtain ⟨hL, hst, htt, hP⟩ := dispatchInput_frame _ _ _ _ _ _ _ _ hd
  have hc9 : (lootingStages env refr objType false Lootability.Lootable
      (legalityGuard env refr L).1).1.collectible.1 = true := by
    rw [s3, g4]; exact hcoll
  have hth := theftCheckDue_congr env self
    (lootingStages env refr objType false Lootability.Lootable
      (legalityGuard env refr L).1).1.self refr hst
  have hfilter := filter_isDispatch_of_NoDispatch hL
  refine ⟨⟨_, hd, hstage.1, by rw [s3, g4]⟩, ?_, ?_, ?_, ?_⟩
  all_goals
    rw [hP]
    rcases finalDispatch_cases env refr refrEx objType false LootingType.LootAlwaysSilent
      (lootingStages env refr objType false Lootability.Lootable
        (legalityGuard env refr L).1).1 with
      ⟨h1, _⟩ | ⟨_, _, h1, e⟩ | ⟨_, _, h1, h2, e⟩ | ⟨_, _, h1, h2, h3, e⟩ |
      ⟨_, _, h1, h2, h3, e⟩
    · rcases h1 with h1 | h1
      · rw [hstage.1] at h1; cases h1
      · cases h1
  · intro _
    rw [e]
    refine ⟨rfl, ?_⟩
    dsimp only
    rw [List.filter_append, hfilter, htt]
    rfl
  · intro ht; rw [hth, ht] at h1; cases h1
  · intro ht; rw [hth, ht] at h1; cases h1
  · intro ht; rw [hth, ht] at h1; cases h1
  · intro ht; rw [hth, ht] at h1; cases h1
  · intro _ _
    rw [e]
    dsimp only
    rw [List.filter_append, hfilter]
    rfl
  · intro _ ho; exact absurd ho h2
  · intro _ ho; exact absurd ho h2
  · intro ht; rw [hth, ht] at h1; cases h1
  · intro _ ho; exact absurd h2 ho
  · intro _ _ hl; rw [h3] at hl; cases hl
  · intro _ _ _
    rw [e]
    dsimp only
    rw [List.filter_append, hfilter, hc9]
    rfl
  · intro ht; rw [hth, ht] at h1; cases h1
  · intro _ ho; exact absurd h2 ho
  · intro _ _ _
    rw [e]
    refine ⟨rfl, ?_⟩
    dsimp only
    rw [List.filter_append, hfilter]
    rfl
  · intro _ _ hl; rw [h3] at hl; cases hl

theorem collectible_override_reaches_dispatch_witness :
    legalityInput exValuableContext exTry exRefr false =
      some (⟨exRefr, SecondaryType.itemObjects, none⟩, ObjectType.other 0,
        { self := { exTry with m_typeName := "flora" }
          result := Lootability.CannotLootValuableObject
          skipLooting := true
          collectible := (true, SpecialObjectHandling.DoLoot)
          effects := [] }) ∧
    (ItemLootingLegality exValuableContext { exTry with m_typeName := "flora" } exRefr
      true).1 = Lootability.Lootable ∧
    (ProcessItemObjects exValuableContext exTry exRefr false).effects.filter Effect.isDispatch =
      [Effect.TriggerHarvest 100 (ObjectType.other 0) 1 true true 1] :=
  ⟨rfl, rfl,
   (collectible_override_reaches_dispatch exValuableContext exTry exRefr
      ⟨exRefr, SecondaryType.itemObjects, none⟩ (ObjectType.other 0)
      { self := { exTry with m_typeName := "flora" }
        result := Lootability.CannotLootValuableObject
        skipLooting := true
        collectible := (true, SpecialObjectHandling.DoLoot)
        effects := [] } rfl rfl rfl rfl).2.2.2.1 rfl (by decide) rfl⟩


/-! ## The looting decision: legality -/

theorem LootingLegality_verdict (env : LootContext) (self : TryLootREFR) (refr : TESObjectREFR)
    (targetType : SecondaryType) :
    (LootingLegality env self refr targetType).1 =
      if self.m_stolen = true ∨ targetType = SecondaryType.deadbodies then Lootability.Lootable
      else if refr.IsOffLimits = false ∧ env.IsPlayerOwned refr = true ∧
          refr.isProjectileArrow = false then
        if env.IsSpecialObjectLootable env.BelongingsCheck = true then Lootability.Lootable
        else Lootability.PlayerOwned
      else if env.EffectiveOwnershipRule = OwnershipRule.AllowCrimeIfUndetected then
        Lootability.Lootable
      else if refr.IsOffLimits = true then Lootability.CrimeToLoot
      else if env.EffectiveOwnershipRule = OwnershipRule.Ownerless ∧
          env.IsPlayerOwned refr = false ∧ refr.isProjectileArrow = false ∧
          (refr.GetOwner.isSome = true ∨ env.IsPlayerInFriendlyCell = false) then
        Lootability.CellOrItemOwnerPreventsOwnerlessLooting
      else Lootability.Lootable := by
  unfold LootingLegality
  cases hs : self.m_stolen
  · by_cases ht : targetType = SecondaryType.deadbodies
    · simp [ht]
    · cases ho : refr.IsOffLimits <;> cases hp : env.IsPlayerOwned refr <;>
        cases ha : refr.isProjectileArrow <;>
        cases hb : env.IsSpecialObjectLootable env.BelongingsCheck <;>
        by_cases hr : env.EffectiveOwnershipRule = OwnershipRule.AllowCrimeIfUndetected <;>
        by_cases hr2 : env.EffectiveOwnershipRule = OwnershipRule.Ownerless <;>
        cases hw : refr.GetOwner.isSome <;> cases hf : env.IsPlayerInFriendlyCell <;>
        simp [ht, hr, hr2, hw, hf, hb]
  · simp

/-- C24: `LootingLegality(targetType)` returns `CrimeToLoot` exactly when the reference is
not already being stolen, the target type is not `deadbodies`, looting the reference is a
crime (`IsOffLimits`) and the effective ownership rule is not `AllowCrimeIfUndetected`; it
returns `Lootable` whenever `m_stolen` is set or the target type is `deadbodies`. -/
theorem LootingLegality_CrimeToLoot_iff (env : LootContext) (self : TryLootREFR)
    (refr : TESObjectREFR) (targetType : SecondaryType) :
    ((LootingLegality env self refr targetType).1 = Lootability.CrimeToLoot ↔
      self.m_stolen = false ∧ targetType ≠ SecondaryType.deadbodies ∧
        refr.IsOffLimits = true ∧
        env.EffectiveOwnershipRule ≠ OwnershipRule.AllowCrimeIfUndetected) ∧
    (self.m_stolen = true ∨ targetType = SecondaryType.deadbodies →
      (LootingLegality env self refr targetType).1 = Lootability.Lootable) := by
  rw [LootingLegality_verdict]
  constructor
  · constructor
    · intro h
      split_ifs at h with h1 h2 h3 h4 h5 h6
      · have hs : self.m_stolen = false := by
          cases hst : self.m_stolen
          · rfl
          · exact absurd (Or.inl hst) h1
        exact ⟨hs, fun ht => h1 (Or.inr ht), h5, h4⟩
    · rintro ⟨hs, ht, ho, hr⟩
      rw [if_neg (by simp [hs, ht]), if_neg (by simp [ho]), if_neg hr, if_pos ho]
  · intro h
    rw [if_pos h]

theorem LootingLegality_CrimeToLoot_iff_witness :
    (LootingLegality exLootContext exOwnedTry exOwnedRefr SecondaryType.itemObjects).1 =
      Lootability.CrimeToLoot ∧
    (LootingLegality exLootContext exOwnedTry exOwnedRefr SecondaryType.deadbodies).1 =
      Lootability.Lootable :=
  ⟨(LootingLegality_CrimeToLoot_iff exLootContext exOwnedTry exOwnedRefr
      SecondaryType.itemObjects).1.2 ⟨rfl, by decide, rfl, by decide⟩,
   (LootingLegality_CrimeToLoot_iff exLootContext exOwnedTry exOwnedRefr
      SecondaryType.deadbodies).2 (Or.inr rfl)⟩

/-- C27 (counterexample): a fired arrow that it is a crime to take, for a law-abiding
player: `LootingLegality` returns `CrimeToLoot`, for a single object and for a
container alike. -/
theorem fired_arrow_crime_prevents_pickup :
    exArrow.isProjectileArrow = true ∧
    (LootingLegality exLootContext (TryLootREFR.init (some exArrow) SecondaryType.itemObjects
      false) exArrow SecondaryType.itemObjects).1 = Lootability.CrimeToLoot ∧
    (LootingLegality exLootContext (TryLootREFR.init (some exArrow) SecondaryType.containers
      false) exArrow SecondaryType.containers).1 = Lootability.CrimeToLoot :=
  ⟨rfl, rfl, rfl⟩

/-- C27 (amended): for a candidate whose form type is `ProjectileArrow`,
`LootingLegality` never prevents pickup on grounds of ownership: whoever owns the arrow
or the cell, and whatever the belongings setting, it returns `CrimeToLoot` when looting
the reference is a crime, the reference is not already being stolen, the target type is
not `deadbodies` and the rule is not `AllowCrimeIfUndetected`, and `Lootable` in every
other case. -/
theorem fired_arrow_legality (env : LootContext) (self : TryLootREFR) (refr : TESObjectREFR)
    (targetType : SecondaryType) (harrow : refr.isProjectileArrow = true) :
    (LootingLegality env self refr targetType).1 =
      if self.m_stolen = false ∧ targetType ≠ SecondaryType.deadbodies ∧
          refr.IsOffLimits = true ∧
          env.EffectiveOwnershipRule ≠ OwnershipRule.AllowCrimeIfUndetected
      then Lootability.CrimeToLoot else Lootability.Lootable := by
  rw [LootingLegality_verdict]
  cases hs : self.m_stolen <;> by_cases ht : targetType = SecondaryType.deadbodies <;>
    cases ho : refr.IsOffLimits <;>
    by_cases hr : env.EffectiveOwnershipRule = OwnershipRule.AllowCrimeIfUndetected <;>
    simp [harrow, ht, hr]

theorem fired_arrow_legality_witness :
    (LootingLegality
      { exLootContext with
        IsPlayerOwned := fun _ => true
        BelongingsCheck := SpecialObjectHandling.DoNotLoot }
      exTry { exRefr with isProjectileArrow := true } SecondaryType.itemObjects).1 =
      Lootability.Lootable :=
  fired_arrow_legality
    { exLootContext with
      IsPlayerOwned := fun _ => true
      BelongingsCheck := SpecialObjectHandling.DoNotLoot }
    exTry { exRefr with isProjectileArrow := true } SecondaryType.itemObjects rfl

/-! ## The looting decision: one terminal action -/

/-- C22: in every single-object call of `Process`, the calls made contain at most one
`TriggerHarvest`, `TriggerMining` or `DelayStealableItem` in all; in a dry run, and when
the final dispatch is reached with `skipLooting` set, they contain none. -/
theorem at_most_one_dispatch (env : LootContext) (self : TryLootREFR) (refr : TESObjectREFR)
    (dryRun : Bool) :
    ((ProcessItemObjects env self refr dryRun).effects.filter Effect.isDispatch).length ≤ 1 ∧
    (dryRun = true → NoDispatch (ProcessItemObjects env self refr dryRun).effects) ∧
    (∀ (refrEx : LootableREFR) (objType : ObjectType) (L : ItemLocals)
        (lootingType : LootingType),
      dispatchInput env self refr dryRun = some (refrEx, objType, L, lootingType) →
      L.skipLooting = true → NoDispatch (ProcessItemObjects env self refr dryRun).effects) := by
  have hskip : ∀ (refrEx : LootableREFR) (objType : ObjectType) (L : ItemLocals)
      (lootingType : LootingType),
      dispatchInput env self refr dryRun = some (refrEx, objType, L, lootingType) →
      L.skipLooting = true ∨ dryRun = true →
      NoDispatch (ProcessItemObjects env self refr dryRun).effects := by
    intro refrEx objType L lootingType hd h
    obtain ⟨hL, _, _, hP⟩ := dispatchInput_frame _ _ _ _ _ _ _ _ hd
    rw [hP, finalDispatch_skip _ _ _ _ _ _ _ h]
    exact hL
  refine ⟨?_, ?_, fun refrEx objType L lootingType hd h =>
    hskip refrEx objType L lootingType hd (Or.inl h)⟩
  · cases hd : dispatchInput env self refr dryRun with
    | none =>
        rw [filter_isDispatch_of_NoDispatch (dispatchInput_none _ _ _ _ hd)]
        exact Nat.zero_le _
    | some v =>
        obtain ⟨refrEx, objType, L, lootingType⟩ := v
        obtain ⟨hL, _, _, hP⟩ := dispatchInput_frame _ _ _ _ _ _ _ _ hd
        have hf := filter_isDispatch_of_NoDispatch hL
        rw [hP]
        rcases finalDispatch_cases env refr refrEx objType dryRun lootingType L with
          ⟨_, e⟩ | ⟨_, _, _, e⟩ | ⟨_, _, _, _, e⟩ | ⟨_, _, _, _, _, e⟩ | ⟨_, _, _, _, _, e⟩
        all_goals
          rw [e]
          dsimp only
          first
            | (rw [hf]; exact Nat.zero_le _)
            | (rw [List.filter_append, hf]; simp [List.filter, Effect.isDispatch])
  · intro hdry
    cases hd : dispatchInput env self refr dryRun with
    | none => exact dispatchInput_none _ _ _ _ hd
    | some v =>
        obtain ⟨refrEx, objType, L, lootingType⟩ := v
        exact hskip refrEx objType L lootingType hd (Or.inr hdry)

theorem at_most_one_dispatch_witness :
    NoDispatch (ProcessItemObjects exLootContext exTry exRefr true).effects ∧
    ((ProcessItemObjects exLootContext exTry exRefr false).effects.filter
      Effect.isDispatch).length = 1 :=
  ⟨(at_most_one_dispatch exLootContext exTry exRefr true).2.1 rfl, by decide⟩

/-! ## The looting decision: quest items -/

theorem entryGuards_refrEx (env : LootContext) (self : TryLootREFR) (refr : TESObjectREFR)
    (dryRun : Bool) (refrEx : LootableREFR) (objType : ObjectType) (L : ItemLocals)
    (h : entryGuards env self refr dryRun = .ok (refrEx, objType, L)) :
    pastProducerResolution env self refr dryRun = some refrEx := by
  unfold entryGuards at h
  unfold pastProducerResolution
  dsimp only at h ⊢
  split at h
  · cases h
  · rename_i refrEx1 h1
    split at h
    · cases h
    · split at h
      · cases h
      · injection h with h
        injection h with h _
        rw [h]

theorem questGuard_block (env : LootContext) (refr : TESObjectREFR) (refrEx : LootableREFR)
    (objType : ObjectType) (L : ItemLocals)
    (hquest : env.IsQuestItem refrEx env.questObjectScope = true)
    (hpolicy : env.IsSpecialObjectLootable env.questObjectLoot = false) :
    (questGuard env refr refrEx objType L).skipLooting = true ∧
    (questGuard env refr refrEx objType L).collectible.1 = false := by
  unfold questGuard
  dsimp only
  rw [if_pos hquest, hpolicy]
  exact ⟨rfl, rfl⟩

theorem valuableGuard_skip (env : LootContext) (refrEx : LootableREFR) (L : ItemLocals)
    (h : L.skipLooting = true) : (valuableGuard env refrEx L).skipLooting = true := by
  unfold valuableGuard
  dsimp only
  split_ifs <;> first | rfl | exact h

theorem ammoGuard_skip (env : LootContext) (refr : TESObjectREFR) (objType : ObjectType)
    (L : ItemLocals) (h : L.skipLooting = true) :
    (ammoGuard env refr objType L).skipLooting = true := by
  unfold ammoGuard
  split_ifs <;> first | rfl | exact h

theorem legalityGuard_skip_mono (env : LootContext) (refr : TESObjectREFR) (L : ItemLocals)
    (h : L.skipLooting = true) : (legalityGuard env refr L).1.skipLooting = true := by
  unfold legalityGuard
  dsimp only
  split_ifs <;> first | rfl | exact h

theorem lootingTypeStage_blocked (env : LootContext) (refr : TESObjectREFR)
    (objType : ObjectType) (dryRun : Bool) (forbidden : Lootability) (L : ItemLocals)
    (hc : L.collectible.1 = false) (hw : env.WhiteListContains refr.baseObject = false)
    (hs : L.skipLooting = true) :
    (lootingTypeStage env refr objType dryRun forbidden L).1.skipLooting = true := by
  unfold lootingTypeStage
  rw [if_neg (by rw [hc]; simp), if_neg (by rw [hw]; simp)]
  by_cases hb : env.BlackListContains refr.baseObject = true
  · rw [if_pos hb]
  · rw [if_neg hb, if_neg (by rw [hs]; simp)]
    exact hs

/-- C23 (counterexample): a quest item that the quest-object policy does not allow to
loot, on the whitelist and in a collection whose action is Loot; looting it is legal.
The call locks the reference and dispatches the harvest. -/
theorem quest_item_on_whitelist_harvested :
    pastProducerResolution exQuestContext exTry exRefr false =
      some ⟨exRefr, SecondaryType.itemObjects, none⟩ ∧
    exQuestContext.IsQuestItem ⟨exRefr, SecondaryType.itemObjects, none⟩
      exQuestContext.questObjectScope = true ∧
    exQuestContext.IsSpecialObjectLootable exQuestContext.questObjectLoot = false ∧
    exQuestContext.TreatAsCollectible ⟨exRefr, SecondaryType.itemObjects, none⟩ =
      (true, SpecialObjectHandling.DoLoot) ∧
    (ProcessItemObjects exQuestContext exTry exRefr false).effects =
      [Effect.LockHarvest 100 true true,
       Effect.TriggerHarvest 100 (ObjectType.other 0) 1 true false 1] :=
  ⟨rfl, rfl, rfl, rfl, rfl⟩

/-- C23 (amended): in a single-object call of `Process` in which the object is a quest
item, the quest-object policy is not lootable (`IsSpecialObjectLootable` false) and the
base object is not on the whitelist, no harvest, mining or theft check is dispatched,
whatever the collectibility check returned. -/
theorem quest_policy_blocks (env : LootContext) (self : TryLootREFR) (refr : TESObjectREFR)
    (dryRun : Bool) (refrEx : LootableREFR)
    (hpast : pastProducerResolution env self refr dryRun = some refrEx)
    (hquest : env.IsQuestItem refrEx env.questObjectScope = true)
    (hpolicy : env.IsSpecialObjectLootable env.questObjectLoot = false)
    (hwhite : env.WhiteListContains refr.baseObject = false) :
    NoDispatch (ProcessItemObjects env self refr dryRun).effects := by
  cases hin : legalityInput env self refr dryRun with
  | none =>
      obtain ⟨out, hg⟩ := legalityInput_none _ _ _ _ hin
      rw [ProcessItemObjects_error _ _ _ _ _ hg]
      exact entryGuards_error _ _ _ _ _ hg
  | some v =>
      obtain ⟨refrEx1, objType, L⟩ := v
      obtain ⟨L2, hg, hL⟩ := legalityInput_some _ _ _ _ _ _ _ hin
      have hsame : refrEx1 = refrEx := by
        have := entryGuards_refrEx _ _ _ _ _ _ _ hg
        rw [hpast] at this
        injection this with this
        exact this.symm
      subst hsame
      obtain ⟨q1, q2⟩ := questGuard_block env refr refrEx1 objType L2 hquest hpolicy
      obtain ⟨_, _, _, v4⟩ := valuableGuard_frame env refrEx1
        (questGuard env refr refrEx1 objType L2)
      obtain ⟨_, _, a3⟩ := ammoGuard_frame env refr objType
        (valuableGuard env refrEx1 (questGuard env refr refrEx1 objType L2))
      have hLs : L.skipLooting = true := by
        rw [hL]
        unfold policyGuards
        exact ammoGuard_skip _ _ _ _ (valuableGuard_skip _ _ _ q1)
      have hLc : L.collectible.1 = false := by
        rw [hL]
        unfold policyGuards
        rw [a3, v4]
        exact q2
      obtain ⟨f1, _, _⟩ := legalityInput_frame _ _ _ _ _ _ _ hin
      obtain ⟨g1, _, _, g4, _⟩ := legalityGuard_frame env refr L
      have hGs := legalityGuard_skip_mono env refr L hLs
      obtain ⟨gl1, _, gl3, gl4, _⟩ := glowStage_frame refr dryRun (legalityGuard env refr L).1
      obtain ⟨l1, _, l3, l4⟩ := locationGuard_frame env refr objType
        (glowStage refr dryRun (legalityGuard env refr L).1)
      rw [ProcessItemObjects_of_legalityInput _ _ _ _ _ _ _ hin]
      have hskip : (lootingStages env refr objType dryRun (legalityGuard env refr L).2
          (legalityGuard env refr L).1).1.skipLooting = true := by
        unfold lootingStages
        apply lootingTypeStage_blocked
        · rw [l3, gl3, g4]; exact hLc
        · exact hwhite
        · exact l4 (by rw [gl4]; exact hGs)
      rw [finalDispatch_skip _ _ _ _ _ _ _ (Or.inl hskip)]
      exact (lootingStages_frame env refr objType dryRun _ _).1
        (by rw [g1, f1]; exact NoDispatch_nil)

theorem quest_policy_blocks_witness :
    NoDispatch
      (ProcessItemObjects { exQuestContext with WhiteListContains := fun _ => false }
        exTry exRefr false).effects :=
  quest_policy_blocks { exQuestContext with WhiteListContains := fun _ => false }
    exTry exRefr false ⟨exRefr, SecondaryType.itemObjects, none⟩ rfl rfl rfl rfl


/-! ## Manager: the pending queue holds claimed identities -/

theorem resolveForms_queue (forms : List TESForm) (s : CollectionManager) :
    (forms.foldl (fun s form => resolveForm form s) s).m_addedItemQueue = s.m_addedItemQueue := by
  induction forms generalizing s with
  | nil => rfl
  | cons f rest ih =>
      rw [List.foldl_cons, ih, resolveForm_eq]

theorem ReconcileInventory_claimed (g : Game) (s : CollectionManager) :
    (∀ id ∈ (ReconcileInventory g s).1, s.claims id = true) ∧
    (ReconcileInventory g s).2.m_addedItemQueue = s.m_addedItemQueue := by
  unfold ReconcileInventory
  cases hinv : g.playerInventory with
  | none => exact ⟨fun id h => absurd h (List.not_mem_nil _), rfl⟩
  | some inventory =>
      refine ⟨fun id h => ?_, rfl⟩
      dsimp only at h
      rw [(reconcile_fold s inventory ([], [])).1] at h
      simp only [List.nil_append, List.mem_filter, Bool.and_eq_true] at h
      exact h.2.2

theorem processFold_claimed (g : Game) (items : List FormID)
    (acc : CollectionManager × List String)
    (h : ∀ id ∈ items, acc.1.claims id = true) :
    (items.foldl (processStep g) acc).1.m_nonCollectionForms = acc.1.m_nonCollectionForms ∧
    (items.foldl (processStep g) acc).1.m_addedItemQueue = acc.1.m_addedItemQueue := by
  induction items generalizing acc with
  | nil => exact ⟨rfl, rfl⟩
  | cons x rest ih =>
      rw [List.foldl_cons]
      have hx : acc.1.claims x = true := h x (List.mem_cons_self _ _)
      have hstep : processStep g acc x =
          ((AddToRelevantCollections g acc.1 x).1, acc.2 ++ (AddToRelevantCollections g acc.1 x).2) := by
        unfold processStep
        rw [if_pos hx]
      obtain ⟨k1, k2, k3⟩ := AddToRelevantCollections_index g acc.1 x
      have hrest : ∀ id ∈ rest, (processStep g acc x).1.claims id = true := by
        intro id hid
        rw [hstep]
        rw [claims_eq_of_multimap_eq k1]
        exact h id (List.mem_cons_of_mem _ hid)
      obtain ⟨i1, i2⟩ := ih (processStep g acc x) hrest
      rw [i1, i2, hstep]
      exact ⟨k2, k3⟩

theorem reconciled_queue (g : Game) (nowTime : Int) (s : CollectionManager)
    (h : ∀ id ∈ s.m_addedItemQueue, s.claims id = true) :
    (reconciled g nowTime s).m_nonCollectionForms = s.m_nonCollectionForms ∧
    ∀ id ∈ (reconciled g nowTime s).m_addedItemQueue, s.claims id = true := by
  obtain ⟨r1, r2⟩ := ReconcileInventory_claimed g { s with m_lastInventoryCheck := nowTime }
  obtain ⟨_, x2⟩ := ReconcileInventory_index g { s with m_lastInventoryCheck := nowTime }
  unfold reconciled
  split_ifs with hdue hnew
  · refine ⟨x2, fun id hid => ?_⟩
    dsimp only at hid
    rw [r2] at hid
    rcases List.mem_append.mp hid with h1 | h1
    · exact h id h1
    · exact r1 id h1
  · refine ⟨x2, fun id hid => ?_⟩
    rw [r2] at hid
    exact h id hid
  · exact ⟨rfl, h⟩

theorem ProcessAddedItems_claimed (g : Game) (nowTime : Int) (s : CollectionManager)
    (h : ∀ id ∈ s.m_addedItemQueue, s.claims id = true) :
    (ProcessAddedItems g nowTime s).1.m_nonCollectionForms = s.m_nonCollectionForms ∧
    ∀ id ∈ (ProcessAddedItems g nowTime s).1.m_addedItemQueue,
      (ProcessAddedItems g nowTime s).1.claims id = true := by
  by_cases hactive : s.IsActive = true
  · rw [ProcessAddedItems_eq g nowTime s hactive]
    obtain ⟨q1, q2⟩ := reconciled_queue g nowTime s h
    obtain ⟨_, f2, _⟩ := reconciled_frame g nowTime s
    obtain ⟨p1, p2⟩ := processFold_claimed g (drained g nowTime s)
      ({ reconciled g nowTime s with m_addedItemQueue := [] }, [])
      (fun id hid => by
        have : ({ reconciled g nowTime s with m_addedItemQueue := [] } :
            CollectionManager).claims id = s.claims id := claims_eq_of_multimap_eq f2 id
        rw [this]
        exact q2 id hid)
    refine ⟨p1.trans q1, fun id hid => ?_⟩
    rw [p2] at hid
    exact absurd hid (List.not_mem_nil _)
  · have hin : (!s.IsActive) = true := by simpa using hactive
    unfold ProcessAddedItems
    rw [if_pos hin]
    exact ⟨rfl, h⟩

theorem TreatAsCollectible_queue
    (upd : SpecialObjectHandling → SpecialObjectHandling → SpecialObjectHandling)
    (s : CollectionManager) (matcher : ConditionMatcher) :
    (TreatAsCollectible upd s matcher).2.m_addedItemQueue = s.m_addedItemQueue := by
  unfold TreatAsCollectible
  split_ifs
  · rfl
  · cases matcher.m_form with
    | none => rfl
    | some f =>
        dsimp only
        split_ifs <;> rfl

theorem OnGameReload_queue (g : Game) (s : CollectionManager) :
    (OnGameReload g s).m_addedItemQueue = s.m_addedItemQueue := by
  unfold OnGameReload
  dsimp only
  split_ifs <;> rfl

/-- C28: in every manager state reachable after membership resolution through
`CheckEnqueueAddedItem`, `ProcessAddedItems` (with its inventory reconciliation),
`TreatAsCollectible` and `OnGameReload`, every identity in the pending added-items queue
is a key of the reverse multimap; and `ProcessAddedItems`, run on such a state for any
game and clock reading, leaves the negative cache exactly as it was. -/
theorem queue_holds_claimed_identities
    (upd : SpecialObjectHandling → SpecialObjectHandling → SpecialObjectHandling)
    (s : CollectionManager) (q : List FormID) (hreach : Reachable upd s q) :
    (∀ id ∈ s.m_addedItemQueue, s.claims id = true) ∧
    ∀ (g : Game) (nowTime : Int),
      (ProcessAddedItems g nowTime s).1.m_nonCollectionForms = s.m_nonCollectionForms := by
  have hinv : ∀ id ∈ s.m_addedItemQueue, s.claims id = true := by
    induction hreach with
    | resolved registry groups files sigs arr =>
        intro id hid
        have hq : (loaded registry groups files sigs arr).m_addedItemQueue = [] := by
          unfold loaded
          dsimp only
          rw [ResolveMembership_eq, resolveForms_queue]
          rfl
        rw [hq] at hid
        exact absurd hid (List.not_mem_nil _)
    | treat s q matcher _ ih =>
        intro id hid
        rw [TreatAsCollectible_queue] at hid
        rw [claims_eq_of_multimap_eq (TreatAsCollectible_grows upd s matcher).1.1]
        exact ih id hid
    | enqueue s q formID _ ih =>
        intro id hid
        rw [claims_eq_of_multimap_eq (CheckEnqueueAddedItem_grows s formID).1]
        unfold CheckEnqueueAddedItem EnqueueAddedItem at hid
        split_ifs at hid with h1 h2
        · exact ih id hid
        · rcases List.mem_append.mp hid with h | h
          · exact ih id h
          · rw [List.mem_singleton] at h
            rw [h]
            exact h2
        · exact ih id hid
    | process s q g nowTime _ ih =>
        exact (ProcessAddedItems_claimed g nowTime s ih).2
    | reload s q g _ ih =>
        intro id hid
        rw [OnGameReload_queue] at hid
        rw [claims_eq_of_multimap_eq (OnGameReload_grows g s).1]
        exact ih id hid
  exact ⟨hinv, fun g nowTime => (ProcessAddedItems_claimed g nowTime s hinv).1⟩

theorem queue_holds_claimed_identities_witness :
    exPending.m_addedItemQueue = [7] ∧
    (∀ id ∈ exPending.m_addedItemQueue, exPending.claims id = true) ∧
    (ProcessAddedItems exGameOn 5000 exPending).1.m_nonCollectionForms =
      exPending.m_nonCollectionForms :=
  have hreach : Reachable UpdateSpecialObjectHandling exPending [] :=
    Reachable.enqueue _ [] 8
      (Reachable.enqueue _ [] 7
        (Reachable.reload _ [] exGameOn
          (Reachable.resolved [("G/Food", exFresh)] [("G", "G/Food")]
            [("G", "SHSE.Collections.G.json")] [("INGR", 30)] exCatalog)))
  ⟨by decide,
   (queue_holds_claimed_identities UpdateSpecialObjectHandling exPending [] hreach).1,
   (queue_holds_claimed_identities UpdateSpecialObjectHandling exPending [] hreach).2
      exGameOn 5000⟩


/-! ## The looting decision: containers and dead bodies -/

theorem Unsettled_nil : Unsettled [] := by
  intro e he; cases he

theorem Unsettled_append {xs ys : List Effect} (hx : Unsettled xs) (hy : Unsettled ys) :
    Unsettled (xs ++ ys) := by
  intro e he
  rcases List.mem_append.mp he with h | h
  · exact hx e h
  · exact hy e h

theorem Unsettled_singleton (e : Effect) (h : e.isContainerOutcome = false) :
    Unsettled [e] := by
  intro x hx
  rw [List.mem_singleton] at hx
  rw [hx]
  exact h

theorem UpdateGlowReason_frame (env : LootContext) (self : TryLootREFR) (r : GlowReason) :
    (self.UpdateGlowReason env r).m_candidate = self.m_candidate ∧
    (self.UpdateGlowReason env r).m_targetType = self.m_targetType ∧
    (self.UpdateGlowReason env r).m_stolen = self.m_stolen :=
  ⟨rfl, rfl, rfl⟩

theorem LootingLegality_candidate (env : LootContext) (self : TryLootREFR) (refr : TESObjectREFR)
    (targetType : SecondaryType) :
    (LootingLegality env self refr targetType).2.m_candidate = self.m_candidate := by
  unfold LootingLegality
  dsimp only
  split_ifs <;> rfl

theorem ItemLootingLegality_candidate (env : LootContext) (self : TryLootREFR)
    (refr : TESObjectREFR) (isCollectible : Bool) :
    (ItemLootingLegality env self refr isCollectible).2.m_candidate = self.m_candidate := by
  unfold ItemLootingLegality
  dsimp only
  split_ifs <;> exact LootingLegality_candidate env self refr _

theorem lockedChestGuard_frame (env : LootContext) (box : ContainerContext)
    (refr : TESObjectREFR) (L : ContainerLocals) :
    (lockedChestGuard env box refr L).effects = L.effects ∧
    (lockedChestGuard env box refr L).self.m_candidate = L.self.m_candidate ∧
    (lockedChestGuard env box refr L).self.m_targetType = L.self.m_targetType ∧
    (lockedChestGuard env box refr L).self.m_stolen = L.self.m_stolen := by
  unfold lockedChestGuard
  dsimp only
  split_ifs <;> exact ⟨rfl, rfl, rfl, rfl⟩

theorem bossChestGuard_frame (env : LootContext) (box : ContainerContext)
    (refr : TESObjectREFR) (L : ContainerLocals) :
    (bossChestGuard env box refr L).effects = L.effects ∧
    (bossChestGuard env box refr L).self.m_candidate = L.self.m_candidate ∧
    (bossChestGuard env box refr L).self.m_targetType = L.self.m_targetType ∧
    (bossChestGuard env box refr L).self.m_stolen = L.self.m_stolen := by
  unfold bossChestGuard
  dsimp only
  split_ifs <;> exact ⟨rfl, rfl, rfl, rfl⟩

theorem chestGuards_frame (env : LootContext) (box : ContainerContext)
    (refr : TESObjectREFR) (L : ContainerLocals) :
    (chestGuards env box refr L).effects = L.effects ∧
    (chestGuards env box refr L).self.m_candidate = L.self.m_candidate ∧
    (chestGuards env box refr L).self.m_targetType = L.self.m_targetType ∧
    (chestGuards env box refr L).self.m_stolen = L.self.m_stolen := by
  unfold chestGuards
  split_ifs
  · obtain ⟨b1, b2, b3, b4⟩ := bossChestGuard_frame env box refr (lockedChestGuard env box refr L)
    obtain ⟨l1, l2, l3, l4⟩ := lockedChestGuard_frame env box refr L
    exact ⟨b1.trans l1, b2.trans l2, b3.trans l3, b4.trans l4⟩
  · exact ⟨rfl, rfl, rfl, rfl⟩

theorem questItemsGuard_frame (env : LootContext) (box : ContainerContext)
    (L : ContainerLocals) :
    (questItemsGuard env box L).effects = L.effects ∧
    (questItemsGuard env box L).self.m_candidate = L.self.m_candidate ∧
    (questItemsGuard env box L).self.m_targetType = L.self.m_targetType ∧
    (questItemsGuard env box L).self.m_stolen = L.self.m_stolen := by
  unfold questItemsGuard
  dsimp only
  split_ifs <;> exact ⟨rfl, rfl, rfl, rfl⟩

theorem enchantedItemsGuard_frame (env : LootContext) (box : ContainerContext)
    (L : ContainerLocals) :
    (enchantedItemsGuard env box L).effects = L.effects ∧
    (enchantedItemsGuard env box L).self.m_candidate = L.self.m_candidate ∧
    (enchantedItemsGuard env box L).self.m_targetType = L.self.m_targetType ∧
    (enchantedItemsGuard env box L).self.m_stolen = L.self.m_stolen := by
  unfold enchantedItemsGuard
  split_ifs <;> exact ⟨rfl, rfl, rfl, rfl⟩

theorem valuableItemsGuard_frame (env : LootContext) (box : ContainerContext)
    (L : ContainerLocals) :
    (valuableItemsGuard env box L).effects = L.effects ∧
    (valuableItemsGuard env box L).self.m_candidate = L.self.m_candidate ∧
    (valuableItemsGuard env box L).self.m_targetType = L.self.m_targetType ∧
    (valuableItemsGuard env box L).self.m_stolen = L.self.m_stolen := by
  unfold valuableItemsGuard
  dsimp only
  split_ifs <;> exact ⟨rfl, rfl, rfl, rfl⟩

theorem collectibleItemsGuard_frame (env : LootContext) (box : ContainerContext)
    (L : ContainerLocals) :
    (collectibleItemsGuard env box L).effects = L.effects ∧
    (collectibleItemsGuard env box L).self.m_candidate = L.self.m_candidate ∧
    (collectibleItemsGuard env box L).self.m_targetType = L.self.m_targetType ∧
    (collectibleItemsGuard env box L).self.m_stolen = L.self.m_stolen := by
  unfold collectibleItemsGuard
  dsimp only
  split_ifs <;> exact ⟨rfl, rfl, rfl, rfl⟩

theorem containerLegalityGuard_frame (env : LootContext) (box : ContainerContext)
    (refr : TESObjectREFR) (L : ContainerLocals) :
    (containerLegalityGuard env box refr L).effects = L.effects ∧
    (containerLegalityGuard env box refr L).self.m_candidate = L.self.m_candidate ∧
    (containerLegalityGuard env box refr L).self.m_targetType = L.self.m_targetType ∧
    (containerLegalityGuard env box refr L).self.m_stolen = L.self.m_stolen := by
  obtain ⟨f1, f2⟩ := LootingLegality_frame env L.self refr L.self.m_targetType
  have f3 := LootingLegality_candidate env L.self refr L.self.m_targetType
  unfold containerLegalityGuard
  dsimp only
  split_ifs <;> exact ⟨rfl, f3, f2, f1⟩

theorem containerLocationGuard_frame (env : LootContext) (L : ContainerLocals) :
    (containerLocationGuard env L).effects = L.effects ∧
    (containerLocationGuard env L).self = L.self := by
  unfold containerLocationGuard
  split_ifs <;> exact ⟨rfl, rfl⟩

theorem containerGlowStage_frame (refr : TESObjectREFR) (dryRun : Bool) (L : ContainerLocals) :
    (Unsettled L.effects → Unsettled (containerGlowStage refr dryRun L).effects) ∧
    (dryRun = true → (containerGlowStage refr dryRun L).effects = L.effects) ∧
    (containerGlowStage refr dryRun L).self = L.self := by
  unfold containerGlowStage
  split_ifs with h
  · refine ⟨fun hL => Unsettled_append hL (Unsettled_singleton _ rfl), fun hd => ?_, rfl⟩
    rw [hd] at h
    simp at h
  · exact ⟨id, fun _ => rfl, rfl⟩

theorem containerGuards_frame (env : LootContext) (box : ContainerContext)
    (self : TryLootREFR) (refr : TESObjectREFR) (dryRun : Bool) :
    Unsettled (containerGuards env box self refr dryRun).effects ∧
    (dryRun = true → (containerGuards env box self refr dryRun).effects = []) ∧
    (containerGuards env box self refr dryRun).self.m_candidate = self.m_candidate ∧
    (containerGuards env box self refr dryRun).self.m_targetType = self.m_targetType ∧
    (containerGuards env box self refr dryRun).self.m_stolen = self.m_stolen := by
  unfold containerGuards
  dsimp only
  generalize hL0 : ({ self := { self with m_glowReason := GlowReason.None }
                      result := Lootability.Lootable
                      skipLooting := false
                      lister :=
                        { questItemsExcluded := false, enchantedItemsExcluded := false,
                          valuableItemsExcluded := false, collectibleItemsExcluded := false }
                      effects := [] } : ContainerLocals) = L0
  have e0 : L0.effects = [] := by rw [← hL0]
  have c0 : L0.self.m_candidate = self.m_candidate := by rw [← hL0]
  have t0 : L0.self.m_targetType = self.m_targetType := by rw [← hL0]
  have s0 : L0.self.m_stolen = self.m_stolen := by rw [← hL0]
  obtain ⟨a1, a2, a3, a4⟩ := chestGuards_frame env box refr L0
  generalize chestGuards env box refr L0 = L1 at *
  obtain ⟨b1, b2, b3, b4⟩ := questItemsGuard_frame env box L1
  generalize questItemsGuard env box L1 = L2 at *
  obtain ⟨c1, c2, c3, c4⟩ := enchantedItemsGuard_frame env box L2
  generalize enchantedItemsGuard env box L2 = L3 at *
  obtain ⟨d1, d2, d3, d4⟩ := valuableItemsGuard_frame env box L3
  generalize valuableItemsGuard env box L3 = L4 at *
  obtain ⟨f1, f2, f3, f4⟩ := collectibleItemsGuard_frame env box L4
  generalize collectibleItemsGuard env box L4 = L5 at *
  obtain ⟨g1, g2, g3, g4⟩ := containerLegalityGuard_frame env box refr L5
  generalize containerLegalityGuard env box refr L5 = L6 at *
  obtain ⟨h1, h2⟩ := containerLocationGuard_frame env L6
  generalize containerLocationGuard env L6 = L7 at *
  obtain ⟨i1, i2, i3⟩ := containerGlowStage_frame refr dryRun L7
  have e7 : L7.effects = [] := by rw [h1, g1, f1, d1, c1, b1, a1, e0]
  refine ⟨i1 (by rw [e7]; exact Unsettled_nil), fun hd => (i2 hd).trans e7, ?_, ?_, ?_⟩
  · rw [i3, h2, g2, f2, d2, c2, b2, a2, c0]
  · rw [i3, h2, g3, f3, d3, c3, b3, a3, t0]
  · rw [i3, h2, g4, f4, d4, c4, b4, a4, s0]

theorem targetLegality_frame (env : LootContext) (refr : TESObjectREFR)
    (targetItemInfo : InventoryItem) (lootingType : LootingType) (collectible : Bool)
    (acc : TargetScan) :
    (targetLegality env refr targetItemInfo lootingType collectible acc).effects = acc.effects ∧
    (targetLegality env refr targetItemInfo lootingType collectible acc).self.m_candidate =
      acc.self.m_candidate ∧
    (targetLegality env refr targetItemInfo lootingType collectible acc).self.m_targetType =
      acc.self.m_targetType := by
  obtain ⟨_, f2⟩ := ItemLootingLegality_frame env acc.self refr collectible
  have f3 := ItemLootingLegality_candidate env acc.self refr collectible
  unfold targetLegality
  dsimp only
  split_ifs <;> exact ⟨rfl, f3, f2⟩

theorem targetStep_frame (env : LootContext) (box : ContainerContext) (refr : TESObjectREFR)
    (excludeArmor : Bool) (acc : TargetScan) (targetItemInfo : InventoryItem) :
    (Unsettled acc.effects →
      Unsettled (targetStep env box refr excludeArmor acc targetItemInfo).effects) ∧
    (targetStep env box refr excludeArmor acc targetItemInfo).self.m_candidate =
      acc.self.m_candidate ∧
    (targetStep env box refr excludeArmor acc targetItemInfo).self.m_targetType =
      acc.self.m_targetType := by
  have keep : ∀ (lootingType : LootingType) (collectible : Bool),
      (Unsettled acc.effects →
        Unsettled (targetLegality env refr targetItemInfo lootingType collectible acc).effects) ∧
      (targetLegality env refr targetItemInfo lootingType collectible acc).self.m_candidate =
        acc.self.m_candidate ∧
      (targetLegality env refr targetItemInfo lootingType collectible acc).self.m_targetType =
        acc.self.m_targetType := by
    intro lootingType collectible
    obtain ⟨t1, t2, t3⟩ := targetLegality_frame env refr targetItemInfo lootingType collectible
      acc
    exact ⟨fun h => by rw [t1]; exact h, t2, t3⟩
  unfold targetStep
  cases targetItemInfo.BoundObject with
  | none => exact ⟨id, rfl, rfl⟩
  | some target =>
      dsimp only
      split_ifs
      all_goals first
        | exact ⟨id, rfl, rfl⟩
        | exact keep _ _
        | exact ⟨fun h => Unsettled_append h (Unsettled_singleton _ rfl), rfl, rfl⟩

theorem targetFold_frame (env : LootContext) (box : ContainerContext) (refr : TESObjectREFR)
    (excludeArmor : Bool) (items : List InventoryItem) (acc : TargetScan) :
    (Unsettled acc.effects →
      Unsettled (items.foldl (targetStep env box refr excludeArmor) acc).effects) ∧
    (items.foldl (targetStep env box refr excludeArmor) acc).self.m_candidate =
      acc.self.m_candidate ∧
    (items.foldl (targetStep env box refr excludeArmor) acc).self.m_targetType =
      acc.self.m_targetType := by
  induction items generalizing acc with
  | nil => exact ⟨id, rfl, rfl⟩
  | cons x rest ih =>
      rw [List.foldl_cons]
      obtain ⟨i1, i2, i3⟩ := ih (targetStep env box refr excludeArmor acc x)
      obtain ⟨s1, s2, s3⟩ := targetStep_frame env box refr excludeArmor acc x
      exact ⟨fun h => i1 (s1 h), i2.trans s2, i3.trans s3⟩

theorem transferStep_frame (box : ContainerContext) (refr : TESObjectREFR)
    (inlineTransfer : Bool) (acc : Transfer) (target : LootTarget) :
    (Unsettled acc.effects →
      Unsettled (transferStep box refr inlineTransfer acc target).effects) ∧
    (transferStep box refr inlineTransfer acc target).targets.length =
      acc.targets.length + 1 := by
  unfold transferStep
  dsimp only
  refine ⟨fun h => ?_, by simp⟩
  refine Unsettled_append (Unsettled_append (Unsettled_append h ?_) ?_) ?_
  · split_ifs
    · exact Unsettled_singleton _ rfl
    · exact Unsettled_nil
  · exact Unsettled_singleton _ rfl
  · split_ifs
    all_goals first
      | exact Unsettled_singleton _ rfl
      | exact Unsettled_nil

theorem transferFold_frame (box : ContainerContext) (refr : TESObjectREFR)
    (inlineTransfer : Bool) (targets : List LootTarget) (acc : Transfer) :
    (Unsettled acc.effects →
      Unsettled (targets.foldl (transferStep box refr inlineTransfer) acc).effects) ∧
    (targets.foldl (transferStep box refr inlineTransfer) acc).targets.length =
      acc.targets.length + targets.length := by
  induction targets generalizing acc with
  | nil => exact ⟨id, rfl⟩
  | cons x rest ih =>
      rw [List.foldl_cons]
      obtain ⟨i1, i2⟩ := ih (transferStep box refr inlineTransfer acc x)
      obtain ⟨s1, s2⟩ := transferStep_frame box refr inlineTransfer acc x
      refine ⟨fun h => i1 (s1 h), ?_⟩
      rw [i2, s2, List.length_cons]
      omega

theorem GetLootFromContainer_frame (box : ContainerContext) (self : TryLootREFR)
    (targets : List LootTarget) (animationType : Int) (inlineTransfer : Bool) :
    Unsettled (GetLootFromContainer box self targets animationType inlineTransfer).2 ∧
    (GetLootFromContainer box self targets animationType inlineTransfer).1.length =
      targets.length := by
  unfold GetLootFromContainer
  cases self.m_candidate with
  | none => exact ⟨Unsettled_nil, rfl⟩
  | some refr =>
      dsimp only
      obtain ⟨f1, f2⟩ := transferFold_frame box refr inlineTransfer targets
        { madeSound := false, targets := []
          effects :=
            if animationType = 1 then [Effect.PlayAnimation refr.formID "Close" "Open"]
            else if animationType = 2 then
              [Effect.GlowObjectLooted refr.formID GlowReason.SimpleTarget]
            else [] }
      refine ⟨f1 ?_, by rw [f2]; simp⟩
      dsimp only
      split_ifs
      · exact Unsettled_singleton _ rfl
      · exact Unsettled_singleton _ rfl
      · exact Unsettled_nil

theorem transferStage_frame (box : ContainerContext) (refr : TESObjectREFR)
    (scan : TargetScan) :
    (Unsettled scan.effects → Unsettled (transferStage box refr scan).effects) ∧
    (transferStage box refr scan).self = scan.self ∧
    (transferStage box refr scan).targets.length = scan.targets.length := by
  unfold transferStage
  by_cases h : (!scan.targets.isEmpty) = true
  · rw [if_pos h]
    dsimp only
    generalize (if box.PlayContainerAnimation > 0 then
        if scan.self.m_targetType = SecondaryType.containers then
          if (!box.GetTimeController refr) = true then 2 else box.PlayContainerAnimation
        else 2
      else box.PlayContainerAnimation) = animationType
    obtain ⟨g1, g2⟩ := GetLootFromContainer_frame box scan.self scan.targets animationType
      (decide (scan.self.m_targetType = SecondaryType.containers))
    exact ⟨fun h => Unsettled_append h g1, rfl, g2⟩
  · rw [if_neg h]
    exact ⟨id, rfl, rfl⟩

theorem confirmInput_frame (env : LootContext) (box : ContainerContext) (self : TryLootREFR)
    (refr : TESObjectREFR) (dryRun : Bool) (lootableItems : Nat) (scan : TargetScan)
    (h : confirmInput env box self refr dryRun = some (lootableItems, scan)) :
    Unsettled scan.effects ∧ scan.self.m_candidate = self.m_candidate ∧
    scan.self.m_targetType = self.m_targetType ∧
    (ProcessContainer env box self refr dryRun).effects =
      confirmStage box refr lootableItems scan := by
  unfold confirmInput at h
  unfold ProcessContainer
  cases hg : emptyGuard box self refr dryRun with
  | error out => rw [hg] at h; cases h
  | ok n =>
      rw [hg] at h
      dsimp only at h ⊢
      obtain ⟨c1, _, c3, c4, c5⟩ := containerGuards_frame env box self refr dryRun
      by_cases h1 : (dryRun || (containerGuards env box self refr dryRun).skipLooting) = true
      · rw [if_pos h1] at h; cases h
      · rw [if_neg h1] at h
        by_cases h2 : theftCheckDue env (containerGuards env box self refr dryRun).self refr = true
        · rw [if_pos h2] at h; cases h
        · rw [if_neg h2] at h
          simp only [Option.some.injEq, Prod.mk.injEq] at h
          obtain ⟨rfl, rfl⟩ := h
          obtain ⟨t1, t2, t3⟩ := transferStage_frame box refr
            ((box.GetLootableItems (containerGuards env box self refr dryRun).lister).foldl
              (targetStep env box refr
                (decide ((containerGuards env box self refr dryRun).self.m_targetType =
                    SecondaryType.deadbodies) && box.lootDeadBodyExcludingArmor))
              { self := (containerGuards env box self refr dryRun).self
                effects := (containerGuards env box self refr dryRun).effects, targets := [] })
          obtain ⟨u1, u2, u3⟩ := targetFold_frame env box refr
            (decide ((containerGuards env box self refr dryRun).self.m_targetType =
                SecondaryType.deadbodies) && box.lootDeadBodyExcludingArmor)
            (box.GetLootableItems (containerGuards env box self refr dryRun).lister)
            { self := (containerGuards env box self refr dryRun).self
              effects := (containerGuards env box self refr dryRun).effects, targets := [] }
          refine ⟨t1 (u1 c1), ?_, ?_, ?_⟩
          · rw [t2, u2]; exact c3
          · rw [t2, u3]; exact c4
          · unfold containerDispatch
            rw [if_neg h1]
            unfold theftCheckDue at h2
            rw [if_neg h2]

theorem Process_container (env : LootContext) (box : ContainerContext) (self : TryLootREFR)
    (refr : TESObjectREFR) (dryRun : Bool) (hcand : self.m_candidate = some refr)
    (htype : self.m_targetType = SecondaryType.containers ∨
      self.m_targetType = SecondaryType.deadbodies) :
    Process env box self dryRun = ProcessContainer env box self refr dryRun := by
  unfold Process
  rw [hcand]
  dsimp only
  have hne : self.m_targetType ≠ SecondaryType.itemObjects := by
    rcases htype with h | h <;> rw [h] <;> decide
  rw [if_neg hne, if_pos htype]

theorem confirmInput_count (env : LootContext) (box : ContainerContext) (self : TryLootREFR)
    (refr : TESObjectREFR) (dryRun : Bool) (lootableItems : Nat) (scan : TargetScan)
    (h : confirmInput env box self refr dryRun = some (lootableItems, scan)) :
    lootableItems = box.AnalyzeLootableItems ∧ dryRun = false := by
  unfold confirmInput at h
  cases hg : emptyGuard box self refr dryRun with
  | error out => rw [hg] at h; cases h
  | ok n =>
      rw [hg] at h
      dsimp only at h
      have hn : n = box.AnalyzeLootableItems := by
        unfold emptyGuard at hg
        dsimp only at hg
        split_ifs at hg
        injection hg with hg
        exact hg.symm
      by_cases h1 : (dryRun || (containerGuards env box self refr dryRun).skipLooting) = true
      · rw [if_pos h1] at h; cases h
      · rw [if_neg h1] at h
        split_ifs at h
        simp only [Option.some.injEq, Prod.mk.injEq] at h
        refine ⟨by rw [← h.1]; exact hn, ?_⟩
        cases dryRun
        · rfl
        · simp at h1

/-- C21 (counterexample): a dead body with one lootable item, which is selected and
transferred, and after whose transfer one lootable item is counted again. The call
marks the body as looted; it neither copies the item nor blacklists the reference. The
same holds for a chest in which no item qualifies as a target. -/
theorem dead_body_marked_looted_without_recount :
    (confirmInput exLootContext exStuckBox exBodyTry exChest false).isSome = true ∧
    exStuckBox.AnalyzeLootableItemsAgain ≥ exStuckBox.AnalyzeLootableItems ∧
    (Process exLootContext exStuckBox exBodyTry false).effects =
      [Effect.PlayPickUpSound (some 7), Effect.TakeAll 300 (some 7) false false,
       Effect.MarkContainerLooted 300] ∧
    (confirmInput exLootContext exNoTargetBox exChestTry exChest false).isSome = true ∧
    exNoTargetBox.AnalyzeLootableItemsAgain ≥ exNoTargetBox.AnalyzeLootableItems ∧
    (Process exLootContext exNoTargetBox exChestTry false).effects =
      [Effect.MarkContainerLooted 300] :=
  ⟨rfl, by decide, rfl, rfl, by decide, rfl⟩

/-- C21 (amended): in a call of `Process` for a container or a dead body that reaches
the confirmation of the transfer: if the target is a container, at least one item was
selected for transfer and the second count of lootable items is greater than or equal to
the count taken at the start, the call ends by copying every target to the player
(`CopyLootFromContainer`) and blacklisting the reference, and does not mark it as
looted; in every other case (a dead body, no item selected, or a smaller second count)
it ends by marking the reference as looted and neither copies nor blacklists. -/
theorem container_transfer_confirmed (env : LootContext) (box : ContainerContext)
    (self : TryLootREFR) (refr : TESObjectREFR) (dryRun : Bool) (lootableItems : Nat)
    (scan : TargetScan) (hcand : self.m_candidate = some refr)
    (htype : self.m_targetType = SecondaryType.containers ∨
      self.m_targetType = SecondaryType.deadbodies)
    (hin : confirmInput env box self refr dryRun = some (lootableItems, scan)) :
    lootableItems = box.AnalyzeLootableItems ∧
    (self.m_targetType = SecondaryType.containers → scan.targets ≠ [] →
      box.AnalyzeLootableItemsAgain ≥ lootableItems →
      (Process env box self dryRun).effects =
        scan.effects ++
          scan.targets.map (fun target => Effect.MakeCopies target.item.BoundObject target.count)
          ++ [Effect.BlacklistReference refr.formID] ∧
      ∀ e ∈ (Process env box self dryRun).effects, ∀ r, e ≠ Effect.MarkContainerLooted r) ∧
    (¬ (self.m_targetType = SecondaryType.containers ∧ scan.targets ≠ [] ∧
        box.AnalyzeLootableItemsAgain ≥ lootableItems) →
      (Process env box self dryRun).effects =
        scan.effects ++ [Effect.MarkContainerLooted refr.formID] ∧
      ∀ e ∈ (Process env box self dryRun).effects,
        (∀ r, e ≠ Effect.BlacklistReference r) ∧ (∀ item count, e ≠ Effect.MakeCopies item count)) := by
  obtain ⟨hU, hc, ht, hP⟩ := confirmInput_frame env box self refr dryRun lootableItems scan hin
  have hempty : scan.targets.isEmpty = false ↔ scan.targets ≠ [] := by
    cases scan.targets <;> simp
  have hquiet : ∀ e ∈ scan.effects, (∀ r, e ≠ Effect.MarkContainerLooted r) ∧
      (∀ r, e ≠ Effect.BlacklistReference r) ∧
      (∀ item count, e ≠ Effect.MakeCopies item count) := by
    intro e he
    have := hU e he
    refine ⟨fun r h => ?_, fun r h => ?_, fun item count h => ?_⟩ <;>
      · rw [h] at this
        cases this
  rw [Process_container env box self refr dryRun hcand htype, hP]
  refine ⟨(confirmInput_count env box self refr dryRun lootableItems scan hin).1, ?_, ?_⟩
  · intro h1 h2 h3
    have hcopy : CopyLootFromContainer scan.self scan.targets =
        scan.targets.map (fun target =>
          Effect.MakeCopies target.item.BoundObject target.count) := by
      unfold CopyLootFromContainer
      rw [hc, hcand]
    unfold confirmStage
    rw [if_pos ⟨ht.trans h1, hempty.mpr h2, h3⟩, hcopy]
    refine ⟨rfl, fun e he r heq => ?_⟩
    rw [heq] at he
    simp only [List.mem_append, List.mem_map, List.mem_singleton] at he
    rcases he with (he | ⟨t, _, he⟩) | he
    · exact (hquiet _ he).1 r rfl
    · cases he
    · cases he
  · intro hnot
    unfold confirmStage
    rw [if_neg (fun h => hnot ⟨ht.symm.trans h.1, hempty.mp h.2.1, h.2.2⟩)]
    refine ⟨rfl, fun e he => ?_⟩
    simp only [List.mem_append, List.mem_singleton] at he
    rcases he with he | he
    · exact (hquiet e he).2
    · rw [he]
      exact ⟨fun r h => Effect.noConfusion h, fun item count h => Effect.noConfusion h⟩

theorem container_transfer_confirmed_witness :
    confirmInput exLootContext exStuckBox exChestTry exChest false =
      some (1,
        { self := { exChestTry with m_glowReason := GlowReason.None }
          effects := [Effect.PlayPickUpSound (some 7), Effect.TakeAll 300 (some 7) false true]
          targets := [{ item := exItem, notify := true, collectible := false, count := 1 }] }) ∧
    (Process exLootContext exStuckBox exChestTry false).effects =
      [Effect.PlayPickUpSound (some 7), Effect.TakeAll 300 (some 7) false true,
       Effect.MakeCopies (some 7) 1, Effect.BlacklistReference 300] ∧
    (Process exLootContext exEmptiedBox exChestTry false).effects =
      [Effect.PlayPickUpSound (some 7), Effect.TakeAll 300 (some 7) false true,
       Effect.MarkContainerLooted 300] :=
  ⟨rfl,
   ((container_transfer_confirmed exLootContext exStuckBox exChestTry exChest false 1
      { self := { exChestTry with m_glowReason := GlowReason.None }
        effects := [Effect.PlayPickUpSound (some 7), Effect.TakeAll 300 (some 7) false true]
        targets := [{ item := exItem, notify := true, collectible := false, count := 1 }] }
      rfl (Or.inl rfl) rfl).2.1 rfl (by decide) (by decide)).1,
   ((container_transfer_confirmed exLootContext exEmptiedBox exChestTry exChest false 1
      { self := { exChestTry with m_glowReason := GlowReason.None }
        effects := [Effect.PlayPickUpSound (some 7), Effect.TakeAll 300 (some 7) false true]
        targets := [{ item := exItem, notify := true, collectible := false, count := 1 }] }
      rfl (Or.inl rfl) rfl).2.2 (by decide)).1⟩

/-! ## The looting decision: dry runs -/

theorem collectibilityGuard_dry (env : LootContext) (refr : TESObjectREFR) (L : ItemLocals)
    (out : Outcome) (h : collectibilityGuard env refr true L = .error out) :
    out.effects = L.effects := by
  unfold collectibilityGuard at h
  simp only [Bool.not_true, Bool.false_eq_true, if_false] at h
  split_ifs at h <;> injection h with h <;> rw [← h]

theorem typeGuard_dry (env : LootContext) (refr : TESObjectREFR) (objType : ObjectType)
    (L : ItemLocals) (out : Outcome) (h : typeGuard env refr objType true L = .error out) :
    out.effects = L.effects := by
  unfold typeGuard at h
  simp only [Bool.not_true, Bool.false_eq_true, if_false] at h
  split_ifs at h <;> injection h with h <;> rw [← h]

theorem entryGuards_dry (env : LootContext) (self : TryLootREFR) (refr : TESObjectREFR)
    (out : Outcome) (h : entryGuards env self refr true = .error out) : out.effects = [] := by
  unfold entryGuards at h
  dsimp only at h
  have hres : ∀ (s1 : TryLootREFR) (rx : LootableREFR) (o : ObjectType),
      resolveProducer env s1 refr rx o true = .ok rx := by
    intro s1 rx o
    unfold resolveProducer
    rw [if_neg (by simp)]
  rw [hres] at h
  dsimp only at h
  split at h
  · rename_i out2 h2
    injection h with h
    subst h
    exact collectibilityGuard_dry _ _ _ _ h2
  · rename_i L1 h2
    have e1 := collectibilityGuard_ok _ _ _ _ _ h2
    split at h
    · rename_i out3 h3
      injection h with h
      subst h
      rw [typeGuard_dry _ _ _ _ _ h3, e1]
    · cases h

theorem lootingStages_dry (env : LootContext) (refr : TESObjectREFR) (objType : ObjectType)
    (forbidden : Lootability) (L : ItemLocals) :
    (lootingStages env refr objType true forbidden L).1.effects = L.effects := by
  have hglow : (glowStage refr true L).effects = L.effects := by
    unfold glowStage
    rw [if_neg (by simp)]
  obtain ⟨l1, _, _, _⟩ := locationGuard_frame env refr objType (glowStage refr true L)
  have htype : ∀ L1 : ItemLocals,
      (lootingTypeStage env refr objType true forbidden L1).1.effects = L1.effects := by
    intro L1
    unfold lootingTypeStage
    simp only [Bool.not_true, Bool.false_eq_true, if_false]
    split_ifs <;> rfl
  unfold lootingStages
  rw [htype, l1, hglow]

theorem ProcessItemObjects_dry (env : LootContext) (self : TryLootREFR)
    (refr : TESObjectREFR) : (ProcessItemObjects env self refr true).effects = [] := by
  cases hin : legalityInput env self refr true with
  | none =>
      obtain ⟨out, hg⟩ := legalityInput_none _ _ _ _ hin
      rw [ProcessItemObjects_error _ _ _ _ _ hg]
      exact entryGuards_dry _ _ _ _ hg
  | some v =>
      obtain ⟨refrEx, objType, L⟩ := v
      obtain ⟨f1, _, _⟩ := legalityInput_frame _ _ _ _ _ _ _ hin
      obtain ⟨g1, _, _, _, _⟩ := legalityGuard_frame env refr L
      rw [ProcessItemObjects_of_legalityInput _ _ _ _ _ _ _ hin,
        finalDispatch_skip _ _ _ _ _ _ _ (Or.inr rfl)]
      dsimp only
      rw [lootingStages_dry, g1, f1]

theorem ProcessContainer_dry (env : LootContext) (box : ContainerContext)
    (self : TryLootREFR) (refr : TESObjectREFR) :
    (ProcessContainer env box self refr true).effects = [] := by
  unfold ProcessContainer emptyGuard
  dsimp only
  by_cases h : box.AnalyzeLootableItems = 0
  · rw [if_pos h]
    rfl
  · rw [if_neg h]
    dsimp only
    unfold containerDispatch
    rw [if_pos (by simp)]
    exact (containerGuards_frame env box self refr true).2.1 rfl

/-- C26: a call of `Process` with `dryRun` set makes no call on another object, whether
the target is a single object, a container or a dead body: none of `GlowObject`,
`ProcessManualLootItem`, `BlockFormPermanently`, `BlockForm`, `BlockReference`,
`BlacklistReference`, `MarkContainerLooted`, `TriggerGetProducerLootable`,
`DelayStealableItem`, `LockHarvest`, `TriggerHarvest`, `TriggerMining`, and neither
`GetLootFromContainer` nor `CopyLootFromContainer` with the calls they make. -/
theorem dry_run_no_side_effects (env : LootContext) (box : ContainerContext)
    (self : TryLootREFR) : (Process env box self true).effects = [] := by
  unfold Process
  cases self.m_candidate with
  | none => rfl
  | some refr =>
      dsimp only
      split_ifs
      · exact ProcessItemObjects_dry env self refr
      · exact ProcessContainer_dry env box self refr
      · rfl


/-! ## Value and weight -/

/-- C25: `LootingDependsOnValueWeight(lootingType, objectType, weight)` returns true
exactly when either the object type is not always exempt, the weight is zero and the
weightless-value check is enabled, or the object type is not value/weight exempt and the
looting type is `LootIfValuableEnoughSilent` or `LootIfValuableEnoughNotify`; when the
first alternative does not hold, it returns false for `LeaveBehind`, `LootAlwaysSilent`
and `LootAlwaysNotify`. -/
theorem LootingDependsOnValueWeight_iff
    (AlwaysValueWeightExempt IsValueWeightExempt : ObjectType → Bool)
    (CheckWeightlessValue : Bool) (lootingType : LootingType) (objectType : ObjectType)
    (weight : ℚ) :
    (LootingDependsOnValueWeight AlwaysValueWeightExempt IsValueWeightExempt
        CheckWeightlessValue lootingType objectType weight = true ↔
      (AlwaysValueWeightExempt objectType = false ∧ weight = 0 ∧
          CheckWeightlessValue = true) ∨
        (IsValueWeightExempt objectType = false ∧
          (lootingType = LootingType.LootIfValuableEnoughSilent ∨
            lootingType = LootingType.LootIfValuableEnoughNotify))) ∧
    (¬ (AlwaysValueWeightExempt objectType = false ∧ weight = 0 ∧
          CheckWeightlessValue = true) →
      lootingType = LootingType.LeaveBehind ∨ lootingType = LootingType.LootAlwaysSilent ∨
        lootingType = LootingType.LootAlwaysNotify →
      LootingDependsOnValueWeight AlwaysValueWeightExempt IsValueWeightExempt
        CheckWeightlessValue lootingType objectType weight = false) := by
  have key : LootingDependsOnValueWeight AlwaysValueWeightExempt IsValueWeightExempt
        CheckWeightlessValue lootingType objectType weight = true ↔
      (AlwaysValueWeightExempt objectType = false ∧ weight = 0 ∧
          CheckWeightlessValue = true) ∨
        (IsValueWeightExempt objectType = false ∧
          (lootingType = LootingType.LootIfValuableEnoughSilent ∨
            lootingType = LootingType.LootIfValuableEnoughNotify)) := by
    unfold LootingDependsOnValueWeight
    cases AlwaysValueWeightExempt objectType <;> cases IsValueWeightExempt objectType <;>
      cases CheckWeightlessValue <;> cases lootingType <;>
      by_cases hw : weight = 0 <;> simp [hw]
  refine ⟨key, fun hno hlt => ?_⟩
  cases hres : LootingDependsOnValueWeight AlwaysValueWeightExempt IsValueWeightExempt
    CheckWeightlessValue lootingType objectType weight
  · rfl
  · exfalso
    rcases key.mp hres with h | ⟨_, h⟩
    · exact hno h
    · rcases hlt with h1 | h1 | h1 <;> rw [h1] at h <;> rcases h with h | h <;> cases h

theorem LootingDependsOnValueWeight_iff_witness :
    LootingDependsOnValueWeight (fun _ => false) (fun _ => false) true
      LootingType.LootAlwaysSilent ObjectType.book 0 = true ∧
    LootingDependsOnValueWeight (fun _ => false) (fun _ => false) true
      LootingType.LootAlwaysSilent ObjectType.book 2 = false :=
  ⟨(LootingDependsOnValueWeight_iff (fun _ => false) (fun _ => false) true
      LootingType.LootAlwaysSilent ObjectType.book 0).1.mpr (Or.inl ⟨rfl, rfl, rfl⟩),
   (LootingDependsOnValueWeight_iff (fun _ => false) (fun _ => false) true
      LootingType.LootAlwaysSilent ObjectType.book 2).2 (by norm_num) (Or.inr (Or.inl rfl))⟩

/-! ## Group and collection names -/

theorem MakeLabel_data (groupName collectionName : String) :
    (MakeLabel groupName collectionName).data =
      groupName.data ++ '/' :: collectionName.data := by
  unfold MakeLabel
  simp [String.data_append]

theorem append_separator_injective (sep : Char) :
    ∀ (a b c d : List Char), sep ∉ a → sep ∉ c → a ++ sep :: b = c ++ sep :: d →
      a = c ∧ b = d
  | [], b, [], d, _, _, h => by
      simp only [List.nil_append, List.cons.injEq] at h
      exact ⟨rfl, h.2⟩
  | [], b, y :: c, d, _, hc, h => by
      simp only [List.nil_append, List.cons_append, List.cons.injEq] at h
      exact absurd (h.1 ▸ List.mem_cons_self _ _) hc
  | x :: a, b, [], d, ha, _, h => by
      simp only [List.nil_append, List.cons_append, List.cons.injEq] at h
      exact absurd (h.1 ▸ List.mem_cons_self _ _) ha
  | x :: a, b, y :: c, d, ha, hc, h => by
      simp only [List.cons_append, List.cons.injEq] at h
      obtain ⟨h1, h2⟩ := append_separator_injective sep a b c d
        (fun hm => ha (List.mem_cons_of_mem _ hm)) (fun hm => hc (List.mem_cons_of_mem _ hm)) h.2
      exact ⟨by rw [h.1, h1], h2⟩

theorem substr_MakeLabel (groupName collectionName : String) :
    substr (MakeLabel groupName collectionName) (groupName.length + 1) = collectionName := by
  unfold substr
  rw [MakeLabel_data]
  have : (groupName.data ++ '/' :: collectionName.data).drop (groupName.length + 1) =
      collectionName.data := by
    rw [show groupName.length = groupName.data.length from rfl,
      List.drop_append_eq_append_drop]
    simp
  rw [this]

/-- C30: for group names without the character `/`, `MakeLabel` is injective in both
arguments; dropping the first `length(g) + 1` characters of `MakeLabel(g, n)` yields
`n`; and `NameByGroupIndex` returns `n` for an index at which the group `g` holds the
label `MakeLabel(g, n)`. -/
theorem MakeLabel_injective (g1 g2 n1 n2 : String) (h1 : '/' ∉ g1.data) (h2 : '/' ∉ g2.data) :
    (MakeLabel g1 n1 = MakeLabel g2 n2 → g1 = g2 ∧ n1 = n2) ∧
    substr (MakeLabel g1 n1) (g1.length + 1) = n1 ∧
    ∀ (s : CollectionManager) (collectionIndex : Nat),
      (s.m_collectionsByGroupName.filter (fun group => group.1 == g1)).get? collectionIndex =
          some (g1, MakeLabel g1 n1) →
        s.NameByGroupIndex g1 collectionIndex = n1 := by
  refine ⟨fun h => ?_, substr_MakeLabel g1 n1, fun s collectionIndex h => ?_⟩
  · have hd := congrArg String.data h
    rw [MakeLabel_data, MakeLabel_data] at hd
    obtain ⟨e1, e2⟩ := append_separator_injective '/' _ _ _ _ h1 h2 hd
    exact ⟨String.ext e1, String.ext e2⟩
  · unfold NameByGroupIndex
    dsimp only
    rw [if_neg (by omega), Int.toNat_ofNat, h]
    exact substr_MakeLabel g1 n1

theorem MakeLabel_injective_witness :
    substr (MakeLabel "G" "Food") 2 = "Food" ∧
    (MakeLabel "G" "Food" = MakeLabel "G" "Food" → "G" = "G" ∧ "Food" = "Food") ∧
    exLoaded.NameByGroupIndex "G" 0 = "Food" :=
  ⟨(MakeLabel_injective "G" "G" "Food" "Food" (by decide) (by decide)).2.1,
   (MakeLabel_injective "G" "G" "Food" "Food" (by decide) (by decide)).1,
   (MakeLabel_injective "G" "G" "Food" "Food" (by decide) (by decide)).2.2 exLoaded 0
      (by decide)⟩

/-! ## Range checks -/

/-- C29 (failing input): source at the origin, radius 3, delta 1, reference at
(4, 4, 0). Whatever the square root function is, `BracketedRange::IsValid` returns true:
the inner limit rejects the reference on its coordinate test and records the largest
coordinate difference, 4, as its distance, which the outer limit then compares with its
radius 4. The squared distance of the reference is 32, more than the 16 of the outer
radius. -/
theorem BracketedRange_accepts_beyond_outer_limit :
    ∀ sqrt : ℚ → ℚ,
      ((BracketedRange.init ⟨0, 0, 0⟩ 3 1).IsValid sqrt ⟨4, 4, 0⟩ 0).1 = true ∧
      ((BracketedRange.init ⟨0, 0, 0⟩ 3 1).IsValid sqrt ⟨4, 4, 0⟩ 0).2.Distance = 4 ∧
      ((3 : ℚ) + 1) * (3 + 1) < 4 * 4 + 4 * 4 + 0 * 0 := by
  intro sqrt
  refine ⟨?_, ?_, by norm_num⟩
  · simp [BracketedRange.IsValid, AbsoluteRange.IsValid, BracketedRange.init,
      AbsoluteRange.init, AbsoluteRange.Distance]
    norm_num
  · simp [BracketedRange.IsValid, AbsoluteRange.IsValid, BracketedRange.init,
      AbsoluteRange.init, AbsoluteRange.Distance, BracketedRange.Distance]
    norm_num

/-- Every reference whose distance `D` from the source satisfies `r < D ≤ r + d` is
accepted by `BracketedRange::IsValid`, when the square root function returns `D` for the
squared distance. -/
theorem BracketedRange_accepts_in_range (sqrt : ℚ → ℚ) (source refr : Coordinates)
    (r d D distance : ℚ) (hr : 0 ≤ r)
    (hsq : D * D =
      abs (refr.x - source.x) * abs (refr.x - source.x) +
        abs (refr.y - source.y) * abs (refr.y - source.y) +
        abs (refr.z - source.z) * abs (refr.z - source.z))
    (hsqrt : sqrt (abs (refr.x - source.x) * abs (refr.x - source.x) +
        abs (refr.y - source.y) * abs (refr.y - source.y) +
        abs (refr.z - source.z) * abs (refr.z - source.z)) = D)
    (hlow : r < D) (hhigh : D ≤ r + d) :
    ((BracketedRange.init source r d).IsValid sqrt refr distance).1 = true := by
  unfold BracketedRange.IsValid BracketedRange.init AbsoluteRange.IsValid AbsoluteRange.init
    AbsoluteRange.Distance
  dsimp only
  have hx := abs_nonneg (refr.x - source.x)
  have hy := abs_nonneg (refr.y - source.y)
  have hz := abs_nonneg (refr.z - source.z)
  generalize abs (refr.x - source.x) = dx at *
  generalize abs (refr.y - source.y) = dy at *
  generalize abs (refr.z - source.z) = dz at *
  have hxD : dx ≤ D := by nlinarith
  have hyD : dy ≤ D := by nlinarith
  have hzD : dz ≤ D := by nlinarith
  have hmax : max dx (max dy dz) ≤ D := max_le hxD (max_le hyD hzD)
  have hnear : ¬ (dx > r + d ∨ dy > r + d ∨ dz > (r + d) * 1) := by
    rw [mul_one]
    rintro (h | h | h) <;> linarith
  have hzero : ¬ ((0 : ℚ) > 0) := lt_irrefl 0
  by_cases hfar : dx > r ∨ dy > r ∨ dz > r * 1
  · rw [if_pos hfar]
    dsimp only
    rw [if_pos (by simp), if_neg hnear]
    dsimp only
    have hpos : max dx (max dy dz) > 0 := by
      rw [mul_one] at hfar
      rcases hfar with h | h | h
      · exact lt_of_lt_of_le (lt_of_le_of_lt hr h) (le_max_left _ _)
      · exact lt_of_lt_of_le (lt_of_le_of_lt hr h)
          (le_trans (le_max_left _ _) (le_max_right _ _))
      · exact lt_of_lt_of_le (lt_of_le_of_lt hr h)
          (le_trans (le_max_right _ _) (le_max_right _ _))
    rw [if_pos hpos]
    exact decide_eq_true (le_trans hmax hhigh)
  · rw [if_neg hfar]
    dsimp only
    rw [if_neg hzero, hsqrt]
    have hnot : decide (D ≤ r) = false := decide_eq_false (not_le.mpr hlow)
    rw [hnot]
    rw [if_pos (by simp), if_neg hnear]
    dsimp only
    rw [if_pos (lt_of_le_of_lt hr hlow)]
    exact decide_eq_true hhigh

end shse
